import Mathlib

/-!
# Apptainer configuration (`pkg/util/apptainerconf/config.go`)

A shallow embedding of the configuration record `File`, its struct-tag catalog,
the process-wide registry (`currentConfig`), the build adapter
(`ApplyBuildConfig`) and the binary-path resolver (`SetBinaryPath`).

Modelling conventions:
* Go `string` values are modelled by `String`; the text algorithms work on the
  underlying character lists.  The only token searched for is the ASCII text
  `$PATH:`, whose bytes never occur inside a multi-byte UTF-8 sequence.
* Go `uint` is modelled by `Nat`, `[]string` by `List String` (the `nil` slice
  is the empty list).
* A `*File` is modelled by `Option File` (`none` is the `nil` pointer); the
  package variable `currentConfig` is the single field of `Globals`, and a
  mutation through the pointer is an update of the stored value.
-/

set_option autoImplicit false

namespace apptainerconf

/-! ## The configuration record -/

/-- The record `File` of `config.go`, one Lean field per Go field, in source order. -/
structure File where
  AllowSetuid             : Bool
  AllowPidNs              : Bool
  ConfigPasswd            : Bool
  ConfigGroup             : Bool
  ConfigResolvConf        : Bool
  MountProc               : Bool
  MountSys                : Bool
  MountDevPts             : Bool
  MountHome               : Bool
  MountTmp                : Bool
  MountHostfs             : Bool
  UserBindControl         : Bool
  EnableFusemount         : Bool
  EnableUnderlay          : Bool
  MountSlave              : Bool
  AllowContainerSIF       : Bool
  AllowContainerEncrypted : Bool
  AllowContainerSquashfs  : Bool
  AllowContainerExtfs     : Bool
  AllowContainerDir       : Bool
  AlwaysUseNv             : Bool
  UseNvCCLI               : Bool
  AlwaysUseRocm           : Bool
  SharedLoopDevices       : Bool
  MaxLoopDevices          : Nat
  SessiondirMaxSize       : Nat
  MountDev                : String
  EnableOverlay           : String
  BindPath                : List String
  LimitContainerOwners    : List String
  LimitContainerGroups    : List String
  LimitContainerPaths     : List String
  AllowNetUsers           : List String
  AllowNetGroups          : List String
  AllowNetNetworks        : List String
  RootDefaultCapabilities : String
  MemoryFSType            : String
  CniConfPath             : String
  CniPluginPath           : String
  CryptsetupPath          : String
  BinaryPath              : String
  GoPath                  : String
  LdconfigPath            : String
  MksquashfsPath          : String
  MksquashfsProcs         : Nat
  MksquashfsMem           : String
  NvidiaContainerCliPath  : String
  UnsquashfsPath          : String
  ImageDriver             : String
  DownloadConcurrency     : Nat
  DownloadPartSize        : Nat
  DownloadBufferSize      : Nat
  SystemdCgroups          : Bool
  deriving DecidableEq

/-- The Go zero value of `File`: what `&File{}` points to. -/
def File.zero : File where
  AllowSetuid             := false
  AllowPidNs              := false
  ConfigPasswd            := false
  ConfigGroup             := false
  ConfigResolvConf        := false
  MountProc               := false
  MountSys                := false
  MountDevPts             := false
  MountHome               := false
  MountTmp                := false
  MountHostfs             := false
  UserBindControl         := false
  EnableFusemount         := false
  EnableUnderlay          := false
  MountSlave              := false
  AllowContainerSIF       := false
  AllowContainerEncrypted := false
  AllowContainerSquashfs  := false
  AllowContainerExtfs     := false
  AllowContainerDir       := false
  AlwaysUseNv             := false
  UseNvCCLI               := false
  AlwaysUseRocm           := false
  SharedLoopDevices       := false
  MaxLoopDevices          := 0
  SessiondirMaxSize       := 0
  MountDev                := ""
  EnableOverlay           := ""
  BindPath                := []
  LimitContainerOwners    := []
  LimitContainerGroups    := []
  LimitContainerPaths     := []
  AllowNetUsers           := []
  AllowNetGroups          := []
  AllowNetNetworks        := []
  RootDefaultCapabilities := ""
  MemoryFSType            := ""
  CniConfPath             := ""
  CniPluginPath           := ""
  CryptsetupPath          := ""
  BinaryPath              := ""
  GoPath                  := ""
  LdconfigPath            := ""
  MksquashfsPath          := ""
  MksquashfsProcs         := 0
  MksquashfsMem           := ""
  NvidiaContainerCliPath  := ""
  UnsquashfsPath          := ""
  ImageDriver             := ""
  DownloadConcurrency     := 0
  DownloadPartSize        := 0
  DownloadBufferSize      := 0
  SystemdCgroups          := false

/-- The Go types that occur as field types of `File`. -/
inductive GoType where
  | bool
  | uint
  | string
  | stringSlice
  deriving DecidableEq

/-- One field declaration of `File`: its name, its Go type and its raw struct tag. -/
structure FieldDecl where
  name : String
  type : GoType
  tag : String
  deriving DecidableEq

/-- The field declarations of `File`, transcribed in source order with their raw tags. -/
def fileFields : List FieldDecl := [
  ⟨"AllowSetuid", .bool, "default:\"yes\" authorized:\"yes,no\" directive:\"allow setuid\""⟩,
  ⟨"AllowPidNs", .bool, "default:\"yes\" authorized:\"yes,no\" directive:\"allow pid ns\""⟩,
  ⟨"ConfigPasswd", .bool, "default:\"yes\" authorized:\"yes,no\" directive:\"config passwd\""⟩,
  ⟨"ConfigGroup", .bool, "default:\"yes\" authorized:\"yes,no\" directive:\"config group\""⟩,
  ⟨"ConfigResolvConf", .bool, "default:\"yes\" authorized:\"yes,no\" directive:\"config resolv_conf\""⟩,
  ⟨"MountProc", .bool, "default:\"yes\" authorized:\"yes,no\" directive:\"mount proc\""⟩,
  ⟨"MountSys", .bool, "default:\"yes\" authorized:\"yes,no\" directive:\"mount sys\""⟩,
  ⟨"MountDevPts", .bool, "default:\"yes\" authorized:\"yes,no\" directive:\"mount devpts\""⟩,
  ⟨"MountHome", .bool, "default:\"yes\" authorized:\"yes,no\" directive:\"mount home\""⟩,
  ⟨"MountTmp", .bool, "default:\"yes\" authorized:\"yes,no\" directive:\"mount tmp\""⟩,
  ⟨"MountHostfs", .bool, "default:\"no\" authorized:\"yes,no\" directive:\"mount hostfs\""⟩,
  ⟨"UserBindControl", .bool, "default:\"yes\" authorized:\"yes,no\" directive:\"user bind control\""⟩,
  ⟨"EnableFusemount", .bool, "default:\"yes\" authorized:\"yes,no\" directive:\"enable fusemount\""⟩,
  ⟨"EnableUnderlay", .bool, "default:\"yes\" authorized:\"yes,no\" directive:\"enable underlay\""⟩,
  ⟨"MountSlave", .bool, "default:\"yes\" authorized:\"yes,no\" directive:\"mount slave\""⟩,
  ⟨"AllowContainerSIF", .bool, "default:\"yes\" authorized:\"yes,no\" directive:\"allow container sif\""⟩,
  ⟨"AllowContainerEncrypted", .bool, "default:\"yes\" authorized:\"yes,no\" directive:\"allow container encrypted\""⟩,
  ⟨"AllowContainerSquashfs", .bool, "default:\"yes\" authorized:\"yes,no\" directive:\"allow container squashfs\""⟩,
  ⟨"AllowContainerExtfs", .bool, "default:\"yes\" authorized:\"yes,no\" directive:\"allow container extfs\""⟩,
  ⟨"AllowContainerDir", .bool, "default:\"yes\" authorized:\"yes,no\" directive:\"allow container dir\""⟩,
  ⟨"AlwaysUseNv", .bool, "default:\"no\" authorized:\"yes,no\" directive:\"always use nv\""⟩,
  ⟨"UseNvCCLI", .bool, "default:\"no\" authorized:\"yes,no\" directive:\"use nvidia-container-cli\""⟩,
  ⟨"AlwaysUseRocm", .bool, "default:\"no\" authorized:\"yes,no\" directive:\"always use rocm\""⟩,
  ⟨"SharedLoopDevices", .bool, "default:\"no\" authorized:\"yes,no\" directive:\"shared loop devices\""⟩,
  ⟨"MaxLoopDevices", .uint, "default:\"256\" directive:\"max loop devices\""⟩,
  ⟨"SessiondirMaxSize", .uint, "default:\"16\" directive:\"sessiondir max size\""⟩,
  ⟨"MountDev", .string, "default:\"yes\" authorized:\"yes,no,minimal\" directive:\"mount dev\""⟩,
  ⟨"EnableOverlay", .string, "default:\"try\" authorized:\"yes,no,try,driver\" directive:\"enable overlay\""⟩,
  ⟨"BindPath", .stringSlice, "default:\"/etc/localtime,/etc/hosts\" directive:\"bind path\""⟩,
  ⟨"LimitContainerOwners", .stringSlice, "directive:\"limit container owners\""⟩,
  ⟨"LimitContainerGroups", .stringSlice, "directive:\"limit container groups\""⟩,
  ⟨"LimitContainerPaths", .stringSlice, "directive:\"limit container paths\""⟩,
  ⟨"AllowNetUsers", .stringSlice, "directive:\"allow net users\""⟩,
  ⟨"AllowNetGroups", .stringSlice, "directive:\"allow net groups\""⟩,
  ⟨"AllowNetNetworks", .stringSlice, "directive:\"allow net networks\""⟩,
  ⟨"RootDefaultCapabilities", .string, "default:\"full\" authorized:\"full,file,no\" directive:\"root default capabilities\""⟩,
  ⟨"MemoryFSType", .string, "default:\"tmpfs\" authorized:\"tmpfs,ramfs\" directive:\"memory fs type\""⟩,
  ⟨"CniConfPath", .string, "directive:\"cni configuration path\""⟩,
  ⟨"CniPluginPath", .string, "directive:\"cni plugin path\""⟩,
  ⟨"CryptsetupPath", .string, "directive:\"cryptsetup path\""⟩,
  ⟨"BinaryPath", .string, "default:\"$PATH:/usr/local/sbin:/usr/local/bin:/usr/sbin:/usr/bin:/sbin:/bin\" directive:\"binary path\""⟩,
  ⟨"GoPath", .string, "directive:\"go path\""⟩,
  ⟨"LdconfigPath", .string, "directive:\"ldconfig path\""⟩,
  ⟨"MksquashfsPath", .string, "directive:\"mksquashfs path\""⟩,
  ⟨"MksquashfsProcs", .uint, "default:\"0\" directive:\"mksquashfs procs\""⟩,
  ⟨"MksquashfsMem", .string, "directive:\"mksquashfs mem\""⟩,
  ⟨"NvidiaContainerCliPath", .string, "directive:\"nvidia-container-cli path\""⟩,
  ⟨"UnsquashfsPath", .string, "directive:\"unsquashfs path\""⟩,
  ⟨"ImageDriver", .string, "directive:\"image driver\""⟩,
  ⟨"DownloadConcurrency", .uint, "default:\"3\" directive:\"download concurrency\""⟩,
  ⟨"DownloadPartSize", .uint, "default:\"5242880\" directive:\"download part size\""⟩,
  ⟨"DownloadBufferSize", .uint, "default:\"32768\" directive:\"download buffer size\""⟩,
  ⟨"SystemdCgroups", .bool, "default:\"yes\" authorized:\"yes,no\" directive:\"systemd cgroups\""⟩
]

/-! ## Struct tags (the conventional `key:"value"` format read by `reflect.StructTag`) -/

/-- Scanner state while reading a struct tag: between pairs, inside a key, just
after the colon, or inside a quoted value. -/
inductive TagScan where
  | skip
  | key (name : List Char)
  | colon (name : List Char)
  | value (name : List Char) (val : List Char)

/-- A character that may occur in a tag key: above the space, and none of
colon, double quote or DEL. -/
def tagKeyChar (c : Char) : Bool :=
  decide (32 < c.toNat) && c != ':' && c != '"' && decide (c.toNat ≠ 127)

/-- The `key:"value"` pairs of a struct tag, in order.  Scanning stops at the
first malformed pair, as `reflect.StructTag.Lookup` does.  Escape sequences are
not interpreted: the scan stops at a backslash (no tag of `File` has one). -/
def scanTag : TagScan → List Char → List (String × String)
  | _, [] => []
  | .skip, c :: cs =>
    if c = ' ' then scanTag .skip cs
    else if tagKeyChar c then scanTag (.key [c]) cs
    else []
  | .key n, c :: cs =>
    if c = ':' then scanTag (.colon n) cs
    else if tagKeyChar c then scanTag (.key (n ++ [c])) cs
    else []
  | .colon n, c :: cs =>
    if c = '"' then scanTag (.value n []) cs else []
  | .value n v, c :: cs =>
    if c = '"' then (String.mk n, String.mk v) :: scanTag .skip cs
    else if c = '\\' then []
    else scanTag (.value n (v ++ [c])) cs

/-- All `key:"value"` pairs declared by a struct tag. -/
def tagPairs (tag : String) : List (String × String) :=
  scanTag .skip tag.data

/-- The values a tag declares for `key`, one per occurrence of the key. -/
def tagValues (tag key : String) : List String :=
  ((tagPairs tag).filter (fun p => p.1 = key)).map Prod.snd

/-- The value of the first pair with the given key (`StructTag.Lookup`),
`none` when the key is not declared. -/
def tagLookup (tag key : String) : Option String :=
  (tagValues tag key).head?

/-- Pieces of a character list between commas: `strings.Split(s, ",")` for a
non-empty separator, so the empty text gives one empty piece. -/
def splitCommaChars : List Char → List (List Char)
  | [] => [[]]
  | c :: cs =>
    if c = ',' then [] :: splitCommaChars cs
    else
      match splitCommaChars cs with
      | [] => [[c]]
      | piece :: rest => (c :: piece) :: rest

/-- The comma-separated members of an `authorized` tag value. -/
def splitComma (s : String) : List String :=
  (splitCommaChars s.data).map String.mk

/-- The directive name declared by a field, if any. -/
def FieldDecl.directive (f : FieldDecl) : Option String := tagLookup f.tag "directive"

/-- The default declared by a field, if any. -/
def FieldDecl.default (f : FieldDecl) : Option String := tagLookup f.tag "default"

/-- The authorized values declared by a field, if any. -/
def FieldDecl.authorized (f : FieldDecl) : Option (List String) :=
  (tagLookup f.tag "authorized").map splitComma

/-! ## The parts of Go's `strings` and `os` packages used by `SetBinaryPath` -/

namespace strings

/-- Position of the first instance of `substr` in `s`; `none` stands for Go's `-1`. -/
def indexChars (substr : List Char) : List Char → Option Nat
  | [] => if substr.isPrefixOf [] then some 0 else none
  | c :: cs =>
    if substr.isPrefixOf (c :: cs) then some 0
    else (indexChars substr cs).map Nat.succ

/-- The counting loop of `strings.Count` for a non-empty `substr`: find the
next instance, step past it, repeat.  The fuel bounds the number of rounds. -/
def countLoop (substr : List Char) : Nat → List Char → Nat
  | 0, _ => 0
  | fuel + 1, s =>
    match indexChars substr s with
    | none => 0
    | some i => countLoop substr fuel (s.drop (i + substr.length)) + 1

/-- Number of non-overlapping instances of `substr` in `s` (`strings.Count`);
for the empty `substr` it is one more than the number of characters.  Every
round of the loop consumes at least one character, so `s.length + 1` rounds
are enough. -/
def countChars (s substr : List Char) : Nat :=
  if substr = [] then s.length + 1
  else countLoop substr (s.length + 1) s

/-- The replacement loop of `strings.Replace` for the empty `old`, after its
first round: each round copies one character and writes `new`. -/
def replaceEmptyLoop (new : List Char) : Nat → List Char → List Char
  | 0, s => s
  | k + 1, [] => new ++ replaceEmptyLoop new k []
  | k + 1, c :: cs => c :: (new ++ replaceEmptyLoop new k cs)

/-- The replacement loop of `strings.Replace`: `n` rounds, each copying the text
up to the next instance of `old`, writing `new` and stepping past the instance;
the remaining text is copied at the end.  The caller bounds `n` by the number
of instances, so the branch for a missing instance is not reached. -/
def replaceLoop (old new : List Char) : Nat → List Char → List Char
  | 0, s => s
  | k + 1, s =>
    match indexChars old s with
    | none => s
    | some j => s.take j ++ new ++ replaceLoop old new k (s.drop (j + old.length))

/-- Character-list form of `strings.Replace(s, old, new, n)`. -/
def replaceChars (s old new : List Char) (n : Int) : List Char :=
  if old = new ∨ n = 0 then s
  else
    let m := countChars s old
    if m = 0 then s
    else
      let rounds : Nat := if n < 0 ∨ (m : Int) < n then m else n.toNat
      if old = [] then
        match rounds with
        | 0 => s
        | k + 1 => new ++ replaceEmptyLoop new k s
      else replaceLoop old new rounds s

/-- Go's `strings.Replace(s, old, new, n)`: a copy of `s` with the first `n`
non-overlapping instances of `old` replaced by `new` (all of them if `n < 0`). -/
def Replace (s old new : String) (n : Int) : String :=
  String.mk (replaceChars s.data old.data new.data n)

end strings

/-- The process environment as seen by `os.Getenv`: a variable that is not set
reads as the empty string. -/
abbrev Environ := String → String

/-- Go's `os.Getenv(key)`. -/
def Getenv (env : Environ) (key : String) : String := env key

namespace sylog

/-- Modelled from the spec: `sylog.Fatalf` of `pkg/sylog`, which is absent from
the sources at hand; it writes the diagnostic and terminates the process, so
the caller does not continue.  The diagnostic is the error value. -/
def Fatalf {α : Type} (msg : String) : Except String α := Except.error msg

end sylog

/-! ## Registry, build adapter and path resolver -/

/-- The package-level variables of `apptainerconf`. -/
structure Globals where
  currentConfig : Option File
  deriving DecidableEq

/-- The state at program start: `currentConfig` holds the `nil` pointer. -/
def Globals.initial : Globals := ⟨none⟩

/-- The function `SetCurrentConfig(config)`: `currentConfig = config`. -/
def SetCurrentConfig (config : Option File) (_g : Globals) : Globals :=
  ⟨config⟩

/-- The function `GetCurrentConfig()`: `return currentConfig`. -/
def GetCurrentConfig (g : Globals) : Option File :=
  g.currentConfig

/-- The function `ApplyBuildConfig(config)`, as the new value of `*config`. -/
def ApplyBuildConfig (config : File) : File :=
  { config with
    BindPath := []
    ConfigResolvConf := false
    MountHome := false
    MountDevPts := false }

/-- The function `SetBinaryPath(subPath)`, run in environment `env` on the
globals `g`: the fatal error, or the globals after the call. -/
def SetBinaryPath (subPath : Bool) (env : Environ) (g : Globals) : Except String Globals :=
  match g.currentConfig with
  | none =>
    sylog.Fatalf "apptainerconf.SetCurrentConfig() must be called before SetBinaryPath()"
  | some config =>
    let userPath : String :=
      if subPath then
        let userPath := Getenv env "PATH"
        if userPath ≠ "" then userPath ++ ":" else userPath
      else ""
    Except.ok
      ⟨some { config with
        BinaryPath := strings.Replace config.BinaryPath "$PATH:" userPath 1 }⟩

/-- The binary path held by the registry after a `SetBinaryPath` call, if the
call returned and a configuration is installed. -/
def binaryPathOf : Except String Globals → Option String
  | Except.ok g => g.currentConfig.map File.BinaryPath
  | Except.error _ => none

/-- The default declared for `BinaryPath` in the struct tags of `File`. -/
def defaultBinaryPath : String :=
  ((fileFields.find? (fun f => f.name = "BinaryPath")).bind FieldDecl.default).getD ""

/-- An occurrence of `substr` starts at position `i` of `s`. -/
def occursAt (s substr : String) (i : Nat) : Prop :=
  substr.data <+: s.data.drop i

instance (s substr : String) (i : Nat) : Decidable (occursAt s substr i) :=
  inferInstanceAs (Decidable (substr.data <+: s.data.drop i))

/-- A process environment in which only `PATH` is set, to `path`. -/
def envWithPath (path : String) : Environ :=
  fun key => if key = "PATH" then path else ""

/-- The default-populated binary path on an otherwise zero configuration. -/
def defaultPathConfig : File :=
  { File.zero with BinaryPath := defaultBinaryPath }

/-- A configuration whose binary path holds the token twice. -/
def twoTokenConfig : File :=
  { File.zero with BinaryPath := "/opt/bin:$PATH:/sbin:$PATH:/bin" }

/-- The directories that follow the token in the default binary path. -/
def defaultPathTail : String :=
  "/usr/local/sbin:/usr/local/bin:/usr/sbin:/usr/bin:/sbin:/bin"

/-! ## Field access by name -/

/-- A value held by a field of `File`, or produced while a template runs. -/
inductive Value where
  | bool (b : Bool)
  | int (i : Int)
  | uint (n : Nat)
  | string (s : String)
  | strings (l : List String)
  deriving DecidableEq

/-- The Go type of a value. -/
def Value.goType : Value → Option GoType
  | Value.bool _ => some GoType.bool
  | Value.int _ => none
  | Value.uint _ => some GoType.uint
  | Value.string _ => some GoType.string
  | Value.strings _ => some GoType.stringSlice

/-- The fields of `c` as reflection enumerates them: Go name and value, in
declaration order. -/
def File.fields (c : File) : List (String × Value) := [
  ("AllowSetuid", Value.bool c.AllowSetuid),
  ("AllowPidNs", Value.bool c.AllowPidNs),
  ("ConfigPasswd", Value.bool c.ConfigPasswd),
  ("ConfigGroup", Value.bool c.ConfigGroup),
  ("ConfigResolvConf", Value.bool c.ConfigResolvConf),
  ("MountProc", Value.bool c.MountProc),
  ("MountSys", Value.bool c.MountSys),
  ("MountDevPts", Value.bool c.MountDevPts),
  ("MountHome", Value.bool c.MountHome),
  ("MountTmp", Value.bool c.MountTmp),
  ("MountHostfs", Value.bool c.MountHostfs),
  ("UserBindControl", Value.bool c.UserBindControl),
  ("EnableFusemount", Value.bool c.EnableFusemount),
  ("EnableUnderlay", Value.bool c.EnableUnderlay),
  ("MountSlave", Value.bool c.MountSlave),
  ("AllowContainerSIF", Value.bool c.AllowContainerSIF),
  ("AllowContainerEncrypted", Value.bool c.AllowContainerEncrypted),
  ("AllowContainerSquashfs", Value.bool c.AllowContainerSquashfs),
  ("AllowContainerExtfs", Value.bool c.AllowContainerExtfs),
  ("AllowContainerDir", Value.bool c.AllowContainerDir),
  ("AlwaysUseNv", Value.bool c.AlwaysUseNv),
  ("UseNvCCLI", Value.bool c.UseNvCCLI),
  ("AlwaysUseRocm", Value.bool c.AlwaysUseRocm),
  ("SharedLoopDevices", Value.bool c.SharedLoopDevices),
  ("MaxLoopDevices", Value.uint c.MaxLoopDevices),
  ("SessiondirMaxSize", Value.uint c.SessiondirMaxSize),
  ("MountDev", Value.string c.MountDev),
  ("EnableOverlay", Value.string c.EnableOverlay),
  ("BindPath", Value.strings c.BindPath),
  ("LimitContainerOwners", Value.strings c.LimitContainerOwners),
  ("LimitContainerGroups", Value.strings c.LimitContainerGroups),
  ("LimitContainerPaths", Value.strings c.LimitContainerPaths),
  ("AllowNetUsers", Value.strings c.AllowNetUsers),
  ("AllowNetGroups", Value.strings c.AllowNetGroups),
  ("AllowNetNetworks", Value.strings c.AllowNetNetworks),
  ("RootDefaultCapabilities", Value.string c.RootDefaultCapabilities),
  ("MemoryFSType", Value.string c.MemoryFSType),
  ("CniConfPath", Value.string c.CniConfPath),
  ("CniPluginPath", Value.string c.CniPluginPath),
  ("CryptsetupPath", Value.string c.CryptsetupPath),
  ("BinaryPath", Value.string c.BinaryPath),
  ("GoPath", Value.string c.GoPath),
  ("LdconfigPath", Value.string c.LdconfigPath),
  ("MksquashfsPath", Value.string c.MksquashfsPath),
  ("MksquashfsProcs", Value.uint c.MksquashfsProcs),
  ("MksquashfsMem", Value.string c.MksquashfsMem),
  ("NvidiaContainerCliPath", Value.string c.NvidiaContainerCliPath),
  ("UnsquashfsPath", Value.string c.UnsquashfsPath),
  ("ImageDriver", Value.string c.ImageDriver),
  ("DownloadConcurrency", Value.uint c.DownloadConcurrency),
  ("DownloadPartSize", Value.uint c.DownloadPartSize),
  ("DownloadBufferSize", Value.uint c.DownloadBufferSize),
  ("SystemdCgroups", Value.bool c.SystemdCgroups)
]

/-- The value of the field of `c` with the given Go name. -/
def File.field (c : File) (name : String) : Option Value :=
  (c.fields.find? (fun p => p.1 = name)).map Prod.snd

/-- The record `c` with the field of the given Go name set to a value of the
field's type; `none` for an unknown name or a value of another type. -/
def File.setField (c : File) : String → Value → Option File
  | "AllowSetuid", Value.bool x => some { c with AllowSetuid := x }
  | "AllowPidNs", Value.bool x => some { c with AllowPidNs := x }
  | "ConfigPasswd", Value.bool x => some { c with ConfigPasswd := x }
  | "ConfigGroup", Value.bool x => some { c with ConfigGroup := x }
  | "ConfigResolvConf", Value.bool x => some { c with ConfigResolvConf := x }
  | "MountProc", Value.bool x => some { c with MountProc := x }
  | "MountSys", Value.bool x => some { c with MountSys := x }
  | "MountDevPts", Value.bool x => some { c with MountDevPts := x }
  | "MountHome", Value.bool x => some { c with MountHome := x }
  | "MountTmp", Value.bool x => some { c with MountTmp := x }
  | "MountHostfs", Value.bool x => some { c with MountHostfs := x }
  | "UserBindControl", Value.bool x => some { c with UserBindControl := x }
  | "EnableFusemount", Value.bool x => some { c with EnableFusemount := x }
  | "EnableUnderlay", Value.bool x => some { c with EnableUnderlay := x }
  | "MountSlave", Value.bool x => some { c with MountSlave := x }
  | "AllowContainerSIF", Value.bool x => some { c with AllowContainerSIF := x }
  | "AllowContainerEncrypted", Value.bool x => some { c with AllowContainerEncrypted := x }
  | "AllowContainerSquashfs", Value.bool x => some { c with AllowContainerSquashfs := x }
  | "AllowContainerExtfs", Value.bool x => some { c with AllowContainerExtfs := x }
  | "AllowContainerDir", Value.bool x => some { c with AllowContainerDir := x }
  | "AlwaysUseNv", Value.bool x => some { c with AlwaysUseNv := x }
  | "UseNvCCLI", Value.bool x => some { c with UseNvCCLI := x }
  | "AlwaysUseRocm", Value.bool x => some { c with AlwaysUseRocm := x }
  | "SharedLoopDevices", Value.bool x => some { c with SharedLoopDevices := x }
  | "MaxLoopDevices", Value.uint x => some { c with MaxLoopDevices := x }
  | "SessiondirMaxSize", Value.uint x => some { c with SessiondirMaxSize := x }
  | "MountDev", Value.string x => some { c with MountDev := x }
  | "EnableOverlay", Value.string x => some { c with EnableOverlay := x }
  | "BindPath", Value.strings x => some { c with BindPath := x }
  | "LimitContainerOwners", Value.strings x => some { c with LimitContainerOwners := x }
  | "LimitContainerGroups", Value.strings x => some { c with LimitContainerGroups := x }
  | "LimitContainerPaths", Value.strings x => some { c with LimitContainerPaths := x }
  | "AllowNetUsers", Value.strings x => some { c with AllowNetUsers := x }
  | "AllowNetGroups", Value.strings x => some { c with AllowNetGroups := x }
  | "AllowNetNetworks", Value.strings x => some { c with AllowNetNetworks := x }
  | "RootDefaultCapabilities", Value.string x => some { c with RootDefaultCapabilities := x }
  | "MemoryFSType", Value.string x => some { c with MemoryFSType := x }
  | "CniConfPath", Value.string x => some { c with CniConfPath := x }
  | "CniPluginPath", Value.string x => some { c with CniPluginPath := x }
  | "CryptsetupPath", Value.string x => some { c with CryptsetupPath := x }
  | "BinaryPath", Value.string x => some { c with BinaryPath := x }
  | "GoPath", Value.string x => some { c with GoPath := x }
  | "LdconfigPath", Value.string x => some { c with LdconfigPath := x }
  | "MksquashfsPath", Value.string x => some { c with MksquashfsPath := x }
  | "MksquashfsProcs", Value.uint x => some { c with MksquashfsProcs := x }
  | "MksquashfsMem", Value.string x => some { c with MksquashfsMem := x }
  | "NvidiaContainerCliPath", Value.string x => some { c with NvidiaContainerCliPath := x }
  | "UnsquashfsPath", Value.string x => some { c with UnsquashfsPath := x }
  | "ImageDriver", Value.string x => some { c with ImageDriver := x }
  | "DownloadConcurrency", Value.uint x => some { c with DownloadConcurrency := x }
  | "DownloadPartSize", Value.uint x => some { c with DownloadPartSize := x }
  | "DownloadBufferSize", Value.uint x => some { c with DownloadBufferSize := x }
  | "SystemdCgroups", Value.bool x => some { c with SystemdCgroups := x }
  | _, _ => none

/-! ## The template text -/

/-- The lines of the constant `TemplateAsset` of `config.go`: the text between
the backquotes, one source line per entry, each with its line end. -/
def templateLines : List String := [
  "# APPTAINER.CONF\n",
  "# This is the global configuration file for Apptainer. This file controls\n",
  "# what the container is allowed to do on a particular host, and as a result\n",
  "# this file must be owned by root.\n",
  "\n",
  "# ALLOW SETUID: [BOOL]\n",
  "# DEFAULT: yes\n",
  "# Should we allow users to utilize the setuid program flow within Apptainer?\n",
  "# note1: This is the default mode, and to utilize all features, this option\n",
  "# must be enabled.  For example, without this option loop mounts of image \n",
  "# files will not work; only sandbox image directories, which do not need loop\n",
  "# mounts, will work (subject to note 2).\n",
  "# note2: If this option is disabled, it will rely on unprivileged user\n",
  "# namespaces which have not been integrated equally between different Linux\n",
  "# distributions.\n",
  "allow setuid = \x7b\x7b if eq .AllowSetuid true \x7d\x7dyes\x7b\x7b else \x7d\x7dno\x7b\x7b end \x7d\x7d\n",
  "\n",
  "# MAX LOOP DEVICES: [INT]\n",
  "# DEFAULT: 256\n",
  "# Set the maximum number of loop devices that Apptainer should ever attempt\n",
  "# to utilize.\n",
  "max loop devices = \x7b\x7b .MaxLoopDevices \x7d\x7d\n",
  "\n",
  "# ALLOW PID NS: [BOOL]\n",
  "# DEFAULT: yes\n",
  "# Should we allow users to request the PID namespace? Note that for some HPC\n",
  "# resources, the PID namespace may confuse the resource manager and break how\n",
  "# some MPI implementations utilize shared memory. (note, on some older\n",
  "# systems, the PID namespace is always used)\n",
  "allow pid ns = \x7b\x7b if eq .AllowPidNs true \x7d\x7dyes\x7b\x7b else \x7d\x7dno\x7b\x7b end \x7d\x7d\n",
  "\n",
  "# CONFIG PASSWD: [BOOL]\n",
  "# DEFAULT: yes\n",
  "# If /etc/passwd exists within the container, this will automatically append\n",
  "# an entry for the calling user.\n",
  "config passwd = \x7b\x7b if eq .ConfigPasswd true \x7d\x7dyes\x7b\x7b else \x7d\x7dno\x7b\x7b end \x7d\x7d\n",
  "\n",
  "# CONFIG GROUP: [BOOL]\n",
  "# DEFAULT: yes\n",
  "# If /etc/group exists within the container, this will automatically append\n",
  "# group entries for the calling user.\n",
  "config group = \x7b\x7b if eq .ConfigGroup true \x7d\x7dyes\x7b\x7b else \x7d\x7dno\x7b\x7b end \x7d\x7d\n",
  "\n",
  "# CONFIG RESOLV_CONF: [BOOL]\n",
  "# DEFAULT: yes\n",
  "# If there is a bind point within the container, use the host's\n",
  "# /etc/resolv.conf.\n",
  "config resolv_conf = \x7b\x7b if eq .ConfigResolvConf true \x7d\x7dyes\x7b\x7b else \x7d\x7dno\x7b\x7b end \x7d\x7d\n",
  "\n",
  "# MOUNT PROC: [BOOL]\n",
  "# DEFAULT: yes\n",
  "# Should we automatically bind mount /proc within the container?\n",
  "mount proc = \x7b\x7b if eq .MountProc true \x7d\x7dyes\x7b\x7b else \x7d\x7dno\x7b\x7b end \x7d\x7d\n",
  "\n",
  "# MOUNT SYS: [BOOL]\n",
  "# DEFAULT: yes\n",
  "# Should we automatically bind mount /sys within the container?\n",
  "mount sys = \x7b\x7b if eq .MountSys true \x7d\x7dyes\x7b\x7b else \x7d\x7dno\x7b\x7b end \x7d\x7d\n",
  "\n",
  "# MOUNT DEV: [yes/no/minimal]\n",
  "# DEFAULT: yes\n",
  "# Should we automatically bind mount /dev within the container? If 'minimal'\n",
  "# is chosen, then only 'null', 'zero', 'random', 'urandom', and 'shm' will\n",
  "# be included (the same effect as the --contain options)\n",
  "mount dev = \x7b\x7b .MountDev \x7d\x7d\n",
  "\n",
  "# MOUNT DEVPTS: [BOOL]\n",
  "# DEFAULT: yes\n",
  "# Should we mount a new instance of devpts if there is a 'minimal'\n",
  "# /dev, or -C is passed?  Note, this requires that your kernel was\n",
  "# configured with CONFIG_DEVPTS_MULTIPLE_INSTANCES=y, or that you're\n",
  "# running kernel 4.7 or newer.\n",
  "mount devpts = \x7b\x7b if eq .MountDevPts true \x7d\x7dyes\x7b\x7b else \x7d\x7dno\x7b\x7b end \x7d\x7d\n",
  "\n",
  "# MOUNT HOME: [BOOL]\n",
  "# DEFAULT: yes\n",
  "# Should we automatically determine the calling user's home directory and\n",
  "# attempt to mount it's base path into the container? If the --contain option\n",
  "# is used, the home directory will be created within the session directory or\n",
  "# can be overridden with the APPTAINER_HOME or APPTAINER_WORKDIR\n",
  "# environment variables (or their corresponding command line options).\n",
  "mount home = \x7b\x7b if eq .MountHome true \x7d\x7dyes\x7b\x7b else \x7d\x7dno\x7b\x7b end \x7d\x7d\n",
  "\n",
  "# MOUNT TMP: [BOOL]\n",
  "# DEFAULT: yes\n",
  "# Should we automatically bind mount /tmp and /var/tmp into the container? If\n",
  "# the --contain option is used, both tmp locations will be created in the\n",
  "# session directory or can be specified via the  APPTAINER_WORKDIR\n",
  "# environment variable (or the --workingdir command line option).\n",
  "mount tmp = \x7b\x7b if eq .MountTmp true \x7d\x7dyes\x7b\x7b else \x7d\x7dno\x7b\x7b end \x7d\x7d\n",
  "\n",
  "# MOUNT HOSTFS: [BOOL]\n",
  "# DEFAULT: no\n",
  "# Probe for all mounted file systems that are mounted on the host, and bind\n",
  "# those into the container?\n",
  "mount hostfs = \x7b\x7b if eq .MountHostfs true \x7d\x7dyes\x7b\x7b else \x7d\x7dno\x7b\x7b end \x7d\x7d\n",
  "\n",
  "# BIND PATH: [STRING]\n",
  "# DEFAULT: Undefined\n",
  "# Define a list of files/directories that should be made available from within\n",
  "# the container. The file or directory must exist within the container on\n",
  "# which to attach to. you can specify a different source and destination\n",
  "# path (respectively) with a colon; otherwise source and dest are the same.\n",
  "# NOTE: these are ignored if apptainer is invoked with --contain except\n",
  "# for /etc/hosts and /etc/localtime. When invoked with --contain and --net,\n",
  "# /etc/hosts would contain a default generated content for localhost resolution.\n",
  "#bind path = /etc/apptainer/default-nsswitch.conf:/etc/nsswitch.conf\n",
  "#bind path = /opt\n",
  "#bind path = /scratch\n",
  "\x7b\x7b range $path := .BindPath \x7d\x7d\n",
  "\x7b\x7b- if ne $path \"\" -\x7d\x7d\n",
  "bind path = \x7b\x7b$path\x7d\x7d\n",
  "\x7b\x7b end -\x7d\x7d\n",
  "\x7b\x7b end \x7d\x7d\n",
  "# USER BIND CONTROL: [BOOL]\n",
  "# DEFAULT: yes\n",
  "# Allow users to influence and/or define bind points at runtime? This will allow\n",
  "# users to specify bind points, scratch and tmp locations. (note: User bind\n",
  "# control is only allowed if the host also supports PR_SET_NO_NEW_PRIVS)\n",
  "user bind control = \x7b\x7b if eq .UserBindControl true \x7d\x7dyes\x7b\x7b else \x7d\x7dno\x7b\x7b end \x7d\x7d\n",
  "\n",
  "# ENABLE FUSEMOUNT: [BOOL]\n",
  "# DEFAULT: yes\n",
  "# Allow users to mount fuse filesystems inside containers with the --fusemount\n",
  "# command line option.\n",
  "enable fusemount = \x7b\x7b if eq .EnableFusemount true \x7d\x7dyes\x7b\x7b else \x7d\x7dno\x7b\x7b end \x7d\x7d\n",
  "\n",
  "# ENABLE OVERLAY: [yes/no/try/driver]\n",
  "# DEFAULT: try\n",
  "# Enabling this option will make it possible to specify bind paths to locations\n",
  "# that do not currently exist within the container.  If 'try' is chosen,\n",
  "# overlayfs will be tried but if it is unavailable it will be silently ignored.\n",
  "# If 'driver' is chosen, overlayfs is handled by the image driver.\n",
  "enable overlay = \x7b\x7b .EnableOverlay \x7d\x7d\n",
  "\n",
  "# ENABLE UNDERLAY: [yes/no]\n",
  "# DEFAULT: yes\n",
  "# Enabling this option will make it possible to specify bind paths to locations\n",
  "# that do not currently exist within the container even if overlay is not\n",
  "# working.  If overlay is available, it will be tried first.\n",
  "enable underlay = \x7b\x7b if eq .EnableUnderlay true \x7d\x7dyes\x7b\x7b else \x7d\x7dno\x7b\x7b end \x7d\x7d\n",
  "\n",
  "# MOUNT SLAVE: [BOOL]\n",
  "# DEFAULT: yes\n",
  "# Should we automatically propagate file-system changes from the host?\n",
  "# This should be set to 'yes' when autofs mounts in the system should\n",
  "# show up in the container.\n",
  "mount slave = \x7b\x7b if eq .MountSlave true \x7d\x7dyes\x7b\x7b else \x7d\x7dno\x7b\x7b end \x7d\x7d\n",
  "\n",
  "# SESSIONDIR MAXSIZE: [STRING]\n",
  "# DEFAULT: 16\n",
  "# This specifies how large the default sessiondir should be (in MB) and it will\n",
  "# only affect users who use the \"--contain\" options and don't also specify a\n",
  "# location to do default read/writes to (e.g. \"--workdir\" or \"--home\").\n",
  "sessiondir max size = \x7b\x7b .SessiondirMaxSize \x7d\x7d\n",
  "\n",
  "# LIMIT CONTAINER OWNERS: [STRING]\n",
  "# DEFAULT: NULL\n",
  "# Only allow containers to be used that are owned by a given user. If this\n",
  "# configuration is undefined (commented or set to NULL), all containers are\n",
  "# allowed to be used. This feature only applies when Apptainer is running in\n",
  "# SUID mode and the user is non-root.\n",
  "#limit container owners = gmk, apptainer, nobody\n",
  "\x7b\x7b range $index, $owner := .LimitContainerOwners \x7d\x7d\n",
  "\x7b\x7b- if eq $index 0 \x7d\x7dlimit container owners = \x7b\x7b else \x7d\x7d, \x7b\x7b end \x7d\x7d\x7b\x7b$owner\x7d\x7d\n",
  "\x7b\x7b- end \x7d\x7d\n",
  "\n",
  "# LIMIT CONTAINER GROUPS: [STRING]\n",
  "# DEFAULT: NULL\n",
  "# Only allow containers to be used that are owned by a given group. If this\n",
  "# configuration is undefined (commented or set to NULL), all containers are\n",
  "# allowed to be used. This feature only applies when Apptainer is running in\n",
  "# SUID mode and the user is non-root.\n",
  "#limit container groups = group1, apptainer, nobody\n",
  "\x7b\x7b range $index, $group := .LimitContainerGroups \x7d\x7d\n",
  "\x7b\x7b- if eq $index 0 \x7d\x7dlimit container groups = \x7b\x7b else \x7d\x7d, \x7b\x7b end \x7d\x7d\x7b\x7b$group\x7d\x7d\n",
  "\x7b\x7b- end \x7d\x7d\n",
  "\n",
  "# LIMIT CONTAINER PATHS: [STRING]\n",
  "# DEFAULT: NULL\n",
  "# Only allow containers to be used that are located within an allowed path\n",
  "# prefix. If this configuration is undefined (commented or set to NULL),\n",
  "# containers will be allowed to run from anywhere on the file system. This\n",
  "# feature only applies when Apptainer is running in SUID mode and the user is\n",
  "# non-root.\n",
  "#limit container paths = /scratch, /tmp, /global\n",
  "\x7b\x7b range $index, $path := .LimitContainerPaths \x7d\x7d\n",
  "\x7b\x7b- if eq $index 0 \x7d\x7dlimit container paths = \x7b\x7b else \x7d\x7d, \x7b\x7b end \x7d\x7d\x7b\x7b$path\x7d\x7d\n",
  "\x7b\x7b- end \x7d\x7d\n",
  "\n",
  "# ALLOW CONTAINER $\x7bTYPE\x7d: [BOOL]\n",
  "# DEFAULT: yes\n",
  "# This feature limits what kind of containers that Apptainer will allow\n",
  "# users to use (note this does not apply for root).\n",
  "#\n",
  "# Allow use of unencrypted SIF containers\n",
  "allow container sif = \x7b\x7b if eq .AllowContainerSIF true\x7d\x7dyes\x7b\x7b else \x7d\x7dno\x7b\x7b end \x7d\x7d\n",
  "#\n",
  "# Allow use of encrypted SIF containers\n",
  "allow container encrypted = \x7b\x7b if eq .AllowContainerEncrypted true \x7d\x7dyes\x7b\x7b else \x7d\x7dno\x7b\x7b end \x7d\x7d\n",
  "#\n",
  "# Allow use of non-SIF image formats\n",
  "allow container squashfs = \x7b\x7b if eq .AllowContainerSquashfs true \x7d\x7dyes\x7b\x7b else \x7d\x7dno\x7b\x7b end \x7d\x7d\n",
  "allow container extfs = \x7b\x7b if eq .AllowContainerExtfs true \x7d\x7dyes\x7b\x7b else \x7d\x7dno\x7b\x7b end \x7d\x7d\n",
  "allow container dir = \x7b\x7b if eq .AllowContainerDir true \x7d\x7dyes\x7b\x7b else \x7d\x7dno\x7b\x7b end \x7d\x7d\n",
  "\n",
  "# ALLOW NET USERS: [STRING]\n",
  "# DEFAULT: NULL\n",
  "# Allow specified root administered CNI network configurations to be used by the\n",
  "# specified list of users. By default only root may use CNI configuration,\n",
  "# except in the case of a fakeroot execution where only 40_fakeroot.conflist\n",
  "# is used. This feature only applies when Apptainer is running in\n",
  "# SUID mode and the user is non-root.\n",
  "#allow net users = gmk, apptainer\n",
  "\x7b\x7b range $index, $owner := .AllowNetUsers \x7d\x7d\n",
  "\x7b\x7b- if eq $index 0 \x7d\x7dallow net users = \x7b\x7b else \x7d\x7d, \x7b\x7b end \x7d\x7d\x7b\x7b$owner\x7d\x7d\n",
  "\x7b\x7b- end \x7d\x7d\n",
  "\n",
  "# ALLOW NET GROUPS: [STRING]\n",
  "# DEFAULT: NULL\n",
  "# Allow specified root administered CNI network configurations to be used by the\n",
  "# specified list of users. By default only root may use CNI configuration,\n",
  "# except in the case of a fakeroot execution where only 40_fakeroot.conflist\n",
  "# is used. This feature only applies when Apptainer is running in\n",
  "# SUID mode and the user is non-root.\n",
  "#allow net groups = group1, apptainer\n",
  "\x7b\x7b range $index, $group := .AllowNetGroups \x7d\x7d\n",
  "\x7b\x7b- if eq $index 0 \x7d\x7dallow net groups = \x7b\x7b else \x7d\x7d, \x7b\x7b end \x7d\x7d\x7b\x7b$group\x7d\x7d\n",
  "\x7b\x7b- end \x7d\x7d\n",
  "\n",
  "# ALLOW NET NETWORKS: [STRING]\n",
  "# DEFAULT: NULL\n",
  "# Specify the names of CNI network configurations that may be used by users and\n",
  "# groups listed in the allow net users / allow net groups directives. Thus feature\n",
  "# only applies when Apptainer is running in SUID mode and the user is non-root.\n",
  "#allow net networks = bridge\n",
  "\x7b\x7b range $index, $group := .AllowNetNetworks \x7d\x7d\n",
  "\x7b\x7b- if eq $index 0 \x7d\x7dallow net networks = \x7b\x7b else \x7d\x7d, \x7b\x7b end \x7d\x7d\x7b\x7b$group\x7d\x7d\n",
  "\x7b\x7b- end \x7d\x7d\n",
  "\n",
  "# ALWAYS USE NV $\x7bTYPE\x7d: [BOOL]\n",
  "# DEFAULT: no\n",
  "# This feature allows an administrator to determine that every action command\n",
  "# should be executed implicitly with the --nv option (useful for GPU only \n",
  "# environments). \n",
  "always use nv = \x7b\x7b if eq .AlwaysUseNv true \x7d\x7dyes\x7b\x7b else \x7d\x7dno\x7b\x7b end \x7d\x7d\n",
  "\n",
  "# USE NVIDIA-NVIDIA-CONTAINER-CLI $\x7bTYPE\x7d: [BOOL]\n",
  "# DEFAULT: no\n",
  "# EXPERIMENTAL\n",
  "# If set to yes, Apptainer will attempt to use nvidia-container-cli to setup\n",
  "# GPUs within a container when the --nv flag is enabled.\n",
  "# If no (default), the legacy binding of entries in nvbliblist.conf will be performed.\n",
  "use nvidia-container-cli = \x7b\x7b if eq .UseNvCCLI true \x7d\x7dyes\x7b\x7b else \x7d\x7dno\x7b\x7b end \x7d\x7d\n",
  "\n",
  "# ALWAYS USE ROCM $\x7bTYPE\x7d: [BOOL]\n",
  "# DEFAULT: no\n",
  "# This feature allows an administrator to determine that every action command\n",
  "# should be executed implicitly with the --rocm option (useful for GPU only\n",
  "# environments).\n",
  "always use rocm = \x7b\x7b if eq .AlwaysUseRocm true \x7d\x7dyes\x7b\x7b else \x7d\x7dno\x7b\x7b end \x7d\x7d\n",
  "\n",
  "# ROOT DEFAULT CAPABILITIES: [full/file/no]\n",
  "# DEFAULT: full\n",
  "# Define default root capability set kept during runtime\n",
  "# - full: keep all capabilities (same as --keep-privs)\n",
  "# - file: keep capabilities configured in $\x7bprefix\x7d/etc/apptainer/capabilities/user.root\n",
  "# - no: no capabilities (same as --no-privs)\n",
  "root default capabilities = \x7b\x7b .RootDefaultCapabilities \x7d\x7d\n",
  "\n",
  "# MEMORY FS TYPE: [tmpfs/ramfs]\n",
  "# DEFAULT: tmpfs\n",
  "# This feature allow to choose temporary filesystem type used by Apptainer.\n",
  "# Cray CLE 5 and 6 up to CLE 6.0.UP05 there is an issue (kernel panic) when Apptainer\n",
  "# use tmpfs, so on affected version it's recommended to set this value to ramfs to avoid\n",
  "# kernel panic\n",
  "memory fs type = \x7b\x7b .MemoryFSType \x7d\x7d\n",
  "\n",
  "# CNI CONFIGURATION PATH: [STRING]\n",
  "# DEFAULT: Undefined\n",
  "# Defines path where CNI configuration files are stored\n",
  "#cni configuration path =\n",
  "\x7b\x7b if ne .CniConfPath \"\" \x7d\x7dcni configuration path = \x7b\x7b .CniConfPath \x7d\x7d\x7b\x7b end \x7d\x7d\n",
  "# CNI PLUGIN PATH: [STRING]\n",
  "# DEFAULT: Undefined\n",
  "# Defines path where CNI executable plugins are stored\n",
  "#cni plugin path =\n",
  "\x7b\x7b if ne .CniPluginPath \"\" \x7d\x7dcni plugin path = \x7b\x7b .CniPluginPath \x7d\x7d\x7b\x7b end \x7d\x7d\n",
  "\n",
  "# BINARY PATH: [STRING]\n",
  "# DEFAULT: $PATH:/usr/local/sbin:/usr/local/bin:/usr/sbin:/usr/bin:/sbin:/bin\n",
  "# Colon-separated list of directories to search for many binaries.  May include\n",
  "# \"$PATH:\", which will be replaced by the user's PATH only when not running the\n",
  "# setuid program flow.\n",
  "# binary path = \n",
  "\n",
  "# CRYPTSETUP PATH: [STRING]\n",
  "# DEFAULT: Undefined\n",
  "# DEPRECATED\n",
  "# Path to the cryptsetup executable, used to work with encrypted containers.\n",
  "# Executable must be owned by root for security reasons.\n",
  "# If not set, Apptainer will search the directories set in binary path.\n",
  "# cryptsetup path =\n",
  "\n",
  "# GO PATH: [STRING]\n",
  "# DEFAULT: Undefined\n",
  "# DEPRECATED\n",
  "# Path to the go executable, used to compile plugins.\n",
  "# If not set, Apptainer will search the directories set in binary path.\n",
  "# go path =\n",
  "\n",
  "# LDCONFIG PATH: [STRING]\n",
  "# DEFAULT: Undefined\n",
  "# DEPRECATED\n",
  "# Path to the ldconfig executable, used to find GPU libraries.\n",
  "# When run as root, executable must be owned by root for security reasons.\n",
  "# If not set, Apptainer will search the directories set in binary path.\n",
  "# ldconfig path =\n",
  "\n",
  "# MKSQUASHFS PATH: [STRING]\n",
  "# DEFAULT: Undefined\n",
  "# DEPRECATED\n",
  "# Path to the mksquashfs executable, used to create SIF and SquashFS containers.\n",
  "# If not set, Apptainer will search the directories set in binary path.\n",
  "# mksquashfs path =\n",
  "\n",
  "# MKSQUASHFS PROCS: [UINT]\n",
  "# DEFAULT: 0 (All CPUs)\n",
  "# This allows the administrator to specify the number of CPUs for mksquashfs \n",
  "# to use when building an image.  The fewer processors the longer it takes.\n",
  "# To enable it to use all available CPU's set this to 0.\n",
  "# mksquashfs procs = 0\n",
  "mksquashfs procs = \x7b\x7b .MksquashfsProcs \x7d\x7d\n",
  "\n",
  "# MKSQUASHFS MEM: [STRING]\n",
  "# DEFAULT: Unlimited\n",
  "# This allows the administrator to set the maximum amount of memory for mkswapfs\n",
  "# to use when building an image.  e.g. 1G for 1gb or 500M for 500mb. Restricting memory\n",
  "# can have a major impact on the time it takes mksquashfs to create the image.\n",
  "# NOTE: This fuctionality did not exist in squashfs-tools prior to version 4.3\n",
  "# If using an earlier version you should not set this.\n",
  "# mksquashfs mem = 1G\n",
  "\x7b\x7b if ne .MksquashfsMem \"\" \x7d\x7dmksquashfs mem = \x7b\x7b .MksquashfsMem \x7d\x7d\x7b\x7b end \x7d\x7d\n",
  "\n",
  "# NVIDIA-CONTAINER-CLI PATH: [STRING]\n",
  "# DEFAULT: Undefined\n",
  "# DEPRECATED\n",
  "# Path to the nvidia-container-cli executable, used to find GPU libraries.\n",
  "# When run as root, executable must be owned by root for security reasons\n",
  "# If not set, Apptainer will search the directories set in binary path.\n",
  "# nvidia-container-cli path =\n",
  "\n",
  "# UNSQUASHFS PATH: [STRING]\n",
  "# DEFAULT: Undefined\n",
  "# DEPRECATED\n",
  "# Path to the unsquashfs executable, used to extract SIF and SquashFS containers\n",
  "# If not set, Apptainer will search the directories set in binary path.\n",
  "# unsquashfs path =\n",
  "\n",
  "# SHARED LOOP DEVICES: [BOOL]\n",
  "# DEFAULT: no\n",
  "# Allow to share same images associated with loop devices to minimize loop\n",
  "# usage and optimize kernel cache (useful for MPI)\n",
  "shared loop devices = \x7b\x7b if eq .SharedLoopDevices true \x7d\x7dyes\x7b\x7b else \x7d\x7dno\x7b\x7b end \x7d\x7d\n",
  "\n",
  "# IMAGE DRIVER: [STRING]\n",
  "# DEFAULT: Undefined\n",
  "# This option specifies the name of an image driver provided by a plugin that\n",
  "# will be used to handle image mounts. If the 'enable overlay' option is set\n",
  "# to 'driver' the driver name specified here will also be used to handle\n",
  "# overlay mounts.\n",
  "# If the driver name specified has not been registered via a plugin installation\n",
  "# the run-time will abort.\n",
  "image driver = \x7b\x7b .ImageDriver \x7d\x7d\n",
  "\n",
  "# DOWNLOAD CONCURRENCY: [UINT]\n",
  "# DEFAULT: 3\n",
  "# This option specifies how many concurrent streams when downloading (pulling)\n",
  "# an image from cloud library.\n",
  "download concurrency = \x7b\x7b .DownloadConcurrency \x7d\x7d\n",
  "\n",
  "# DOWNLOAD PART SIZE: [UINT]\n",
  "# DEFAULT: 5242880\n",
  "# This option specifies the size of each part when concurrent downloads are\n",
  "# enabled.\n",
  "download part size = \x7b\x7b .DownloadPartSize \x7d\x7d\n",
  "\n",
  "# DOWNLOAD BUFFER SIZE: [UINT]\n",
  "# DEFAULT: 32768\n",
  "# This option specifies the transfer buffer size when concurrent downloads\n",
  "# are enabled.\n",
  "download buffer size = \x7b\x7b .DownloadBufferSize \x7d\x7d\n",
  "\n",
  "# SYSTEMD CGROUPS: [BOOL]\n",
  "# DEFAULT: yes\n",
  "# Whether to use systemd to manage container cgroups. Required for rootless cgroups\n",
  "# functionality. 'no' will manage cgroups directly via cgroupfs.\n",
  "systemd cgroups = \x7b\x7b if eq .SystemdCgroups true \x7d\x7dyes\x7b\x7b else \x7d\x7dno\x7b\x7b end \x7d\x7d\n"
]

/-- The constant `TemplateAsset` of `config.go`: its lines, joined. -/
def TemplateAsset : String :=
  templateLines.foldr (fun line rest => line ++ rest) ""

/-! ## The part of Go's `text/template` used by `TemplateAsset`

The template is cut into text and actions, line by line, the trim markers are
applied, the actions are parsed into a tree, and the tree is run on a
configuration.  Syntax outside the part modelled here is rejected (`none`);
in particular an action has to be closed on the line on which it opens. -/

namespace template

/-- The space characters of the template lexer: space, tab, carriage return
and newline. -/
def isSpace (c : Char) : Bool :=
  c = ' ' || c = '\t' || c = '\r' || c = '\n'

/-- A lexical item before trimming: literal text, or the body of an action
between the delimiters with its left and right trim markers. -/
inductive RawItem where
  | text (s : List Char)
  | action (trimLeft : Bool) (body : List Char) (trimRight : Bool)
  deriving DecidableEq

/-- A lexical item: literal text, or the body of an action. -/
inductive Item where
  | text (s : List Char)
  | action (body : List Char)
  deriving DecidableEq

/-- Lexer state: inside text (its characters so far, newest first), or inside
an action (whether it opened with a trim marker, and its characters so far,
newest first). -/
inductive LexMode where
  | text (acc : List Char)
  | action (trimLeft : Bool) (acc : List Char)

/-- Put the collected text in front of the following items; empty text gives
no item. -/
def emitText (acc : List Char) (rest : List RawItem) : List RawItem :=
  if acc = [] then rest else RawItem.text acc.reverse :: rest

/-- The lexer on one line: cuts the line at the delimiters, reading one
character at a time; the number counts characters of a delimiter still to be
passed over.  A left delimiter followed by `-` and a space carries a left trim
marker; a space and `-` before the right delimiter is a right trim marker.
An action that is not closed is an error.  Delimiters inside quoted strings
are not treated specially. -/
def lexLine : LexMode → Nat → List Char → Option (List RawItem)
  | .text acc, _, [] => some (emitText acc [])
  | .action _ _, _, [] => none
  | mode, n + 1, _ :: cs => lexLine mode n cs
  | .text acc, 0, c :: cs =>
    if c = '{' && cs.head? = some '{' then
      if (cs.drop 1).head? = some '-' && ((cs.drop 2).head?.map isSpace).getD false then
        (lexLine (.action true []) 3 cs).map (emitText acc)
      else (lexLine (.action false []) 1 cs).map (emitText acc)
    else lexLine (.text (c :: acc)) 0 cs
  | .action trimLeft acc, 0, c :: cs =>
    if isSpace c && cs.take 3 = ['-', '}', '}'] then
      (lexLine (.text []) 3 cs).map
        (fun items => RawItem.action trimLeft acc.reverse true :: items)
    else if c = '}' && cs.head? = some '}' then
      (lexLine (.text []) 1 cs).map
        (fun items => RawItem.action trimLeft acc.reverse false :: items)
    else lexLine (.action trimLeft (c :: acc)) 0 cs

/-- The lines of a text, each with its line end; the last one has none when
the text does not end in a newline. -/
def cutLines : List Char → List (List Char)
  | [] => []
  | c :: cs =>
    if c = '\n' then [c] :: cutLines cs
    else
      match cutLines cs with
      | [] => [[c]]
      | l :: ls => (c :: l) :: ls

/-- The raw items of a list of lines: those of each line, in order. -/
def lexLines : List (List Char) → Option (List RawItem)
  | [] => some []
  | l :: ls =>
    (lexLine (.text []) 0 l).bind (fun a => (lexLines ls).map (fun b => a ++ b))

/-- Put the text collected between two actions (newest character first) in
front of the following items; empty text gives no item. -/
def emitItem (acc : List Char) (rest : List Item) : List Item :=
  if acc = [] then rest else Item.text acc.reverse :: rest

/-- Apply the trim markers: the text between two actions is joined; a left
trim marker removes the space at its end, and after a right trim marker the
space at its start is removed (`skip` says that this is still going on). -/
def applyTrims : List Char → Bool → List RawItem → List Item
  | acc, _, [] => emitItem acc []
  | acc, skip, RawItem.text s :: rest =>
    let s' := if skip then s.dropWhile isSpace else s
    applyTrims (s'.reverse ++ acc) (skip && s' = []) rest
  | acc, _, RawItem.action trimLeft body trimRight :: rest =>
    emitItem (if trimLeft then acc.dropWhile isSpace else acc)
      (Item.action body :: applyTrims [] trimRight rest)

/-- The lexer: the items of a template text. -/
def lex (text : List Char) : Option (List Item) :=
  (lexLines (cutLines text)).map (applyTrims [] false)

/-- Put the word collected so far (newest character first) in front of the
following words; an empty word gives none. -/
def flushWord (cur : List Char) (rest : List String) : List String :=
  if cur = [] then rest else String.mk cur.reverse :: rest

/-- The words of an action body: separated by space, with a comma a word of
its own. -/
def words : List Char → List Char → List String
  | cur, [] => flushWord cur []
  | cur, c :: cs =>
    if isSpace c then flushWord cur (words [] cs)
    else if c = ',' then flushWord cur ("," :: words [] cs)
    else words (c :: cur) cs

/-- An argument of a pipeline. -/
inductive Operand where
  | field (name : String)
  | variable (name : String)
  | boolLit (b : Bool)
  | intLit (n : Nat)
  | strLit (s : String)
  deriving DecidableEq

/-- A pipeline: one operand, or a comparison of two with `eq` or `ne`. -/
inductive Pipeline where
  | operand (o : Operand)
  | eq (a b : Operand)
  | ne (a b : Operand)
  deriving DecidableEq

/-- A node of the parsed template. -/
inductive Node where
  | text (s : List Char)
  | action (p : Pipeline)
  | ifNode (cond : Pipeline) (thenList elseList : List Node)
  | rangeNode (vars : List String) (over : Pipeline) (body : List Node)

/-- The number written by a list of decimal digits, most significant first. -/
def digitsValue (acc : Nat) : List Char → Option Nat
  | [] => some acc
  | c :: cs =>
    if c.isDigit then digitsValue (acc * 10 + (c.toNat - '0'.toNat)) cs else none

/-- The characters of a quoted string without escapes: everything up to the
closing quote, which must end the word. -/
def quotedBody : List Char → Option (List Char)
  | [] => none
  | c :: cs =>
    if c = '"' then (if cs = [] then some [] else none)
    else if c = '\\' then none
    else (quotedBody cs).map (fun s => c :: s)

/-- Read one operand: `.Name`, `$name`, `true`, `false`, a decimal number or a
quoted string without escapes. -/
def parseOperand (w : String) : Option Operand :=
  match w.data with
  | [] => none
  | c :: cs =>
    if c = '.' then
      if cs ≠ [] && cs.all (fun x => x.isAlphanum || x = '_') then
        some (Operand.field (String.mk cs))
      else none
    else if c = '$' then
      if cs.all (fun x => x.isAlphanum || x = '_') then
        some (Operand.variable (String.mk cs))
      else none
    else if c = '"' then (quotedBody cs).map (fun s => Operand.strLit (String.mk s))
    else if w = "true" then some (Operand.boolLit true)
    else if w = "false" then some (Operand.boolLit false)
    else (digitsValue 0 (c :: cs)).map Operand.intLit

/-- Read a pipeline from the words of an action. -/
def parsePipeline : List String → Option Pipeline
  | [w] => (parseOperand w).map Pipeline.operand
  | [f, a, b] =>
    if f = "eq" then
      (parseOperand a).bind (fun x => (parseOperand b).map (fun y => Pipeline.eq x y))
    else if f = "ne" then
      (parseOperand a).bind (fun x => (parseOperand b).map (fun y => Pipeline.ne x y))
    else none
  | _ => none

/-- The name declared by a word `$name`. -/
def parseVarName (w : String) : Option String :=
  match parseOperand w with
  | some (Operand.variable v) => some v
  | _ => none

/-- What an open block of the parser is: the whole template, an `if` or a
`range`. -/
inductive FrameKind where
  | root
  | ifFrame (cond : Pipeline)
  | rangeFrame (vars : List String) (over : Pipeline)

/-- An open block of the parser: its kind, the nodes read so far (newest first)
and, after `else`, the nodes of the else list. -/
structure Frame where
  kind : FrameKind
  thenRev : List Node
  inElse : Bool
  elseRev : List Node

/-- Add a node to the list being read in the innermost open block. -/
def pushNode (n : Node) : List Frame → Option (List Frame)
  | [] => none
  | f :: fs =>
    if f.inElse then some ({ f with elseRev := n :: f.elseRev } :: fs)
    else some ({ f with thenRev := n :: f.thenRev } :: fs)

/-- Close the innermost open block at `end`, giving its node to the block
around it. -/
def closeFrame : List Frame → Option (List Frame)
  | f :: fs =>
    match f.kind with
    | FrameKind.root => none
    | FrameKind.ifFrame cond =>
      pushNode (Node.ifNode cond f.thenRev.reverse f.elseRev.reverse) fs
    | FrameKind.rangeFrame vars over =>
      pushNode (Node.rangeNode vars over f.thenRev.reverse) fs
  | [] => none

/-- The parser's step for one action, given its words. -/
def parseAction (ws : List String) (stack : List Frame) : Option (List Frame) :=
  match ws with
  | [] => none
  | w :: rest =>
    if w = "if" then
      (parsePipeline rest).map (fun p => ⟨FrameKind.ifFrame p, [], false, []⟩ :: stack)
    else if w = "else" then
      match rest, stack with
      | [], f :: fs =>
        match f.kind with
        | FrameKind.ifFrame _ => if f.inElse then none else some ({ f with inElse := true } :: fs)
        | _ => none
      | _, _ => none
    else if w = "end" then
      if rest = [] then closeFrame stack else none
    else if w = "range" then
      match rest with
      | [v, a, o] =>
        if a = ":=" then
          (parseVarName v).bind (fun x => (parsePipeline [o]).map (fun p =>
            ⟨FrameKind.rangeFrame [x] p, [], false, []⟩ :: stack))
        else none
      | [i, k, v, a, o] =>
        if k = "," && a = ":=" then
          (parseVarName i).bind (fun x => (parseVarName v).bind (fun y =>
            (parsePipeline [o]).map (fun p =>
              ⟨FrameKind.rangeFrame [x, y] p, [], false, []⟩ :: stack)))
        else none
      | [o] =>
        (parsePipeline [o]).map (fun p => ⟨FrameKind.rangeFrame [] p, [], false, []⟩ :: stack)
      | _ => none
    else (parsePipeline ws).bind (fun p => pushNode (Node.action p) stack)

/-- The parser: reads the items in order, keeping the stack of open blocks. -/
def parseItems : List Frame → List Item → Option (List Node)
  | stack, [] =>
    match stack with
    | [f] =>
      match f.kind with
      | FrameKind.root => some f.thenRev.reverse
      | _ => none
    | _ => none
  | stack, Item.text s :: items =>
    (pushNode (Node.text s) stack).bind (fun st => parseItems st items)
  | stack, Item.action body :: items =>
    (parseAction (words [] body) stack).bind (fun st => parseItems st items)

/-- Parse a template text into its list of nodes (`template.Parse`). -/
def parse (text : String) : Option (List Node) :=
  (lex text.data).bind (parseItems [⟨FrameKind.root, [], false, []⟩])

/-- The data a template runs on (`dot`): the configuration, or a plain value
inside a `range`. -/
inductive Data where
  | record (c : File)
  | value (v : Value)

/-- The variables in scope, innermost first. -/
abbrev Vars := List (String × Value)

/-- The value of an operand; a field of a plain value and an unknown variable
are errors. -/
def evalOperand (dot : Data) (vars : Vars) : Operand → Option Value
  | Operand.field name =>
    match dot with
    | Data.record c => c.field name
    | Data.value _ => none
  | Operand.variable name => (vars.find? (fun p => p.1 = name)).map Prod.snd
  | Operand.boolLit b => some (Value.bool b)
  | Operand.intLit n => some (Value.int n)
  | Operand.strLit s => some (Value.string s)

/-- The comparison `eq` of two values of basic kind; values of different kinds
(other than the two integer kinds) do not compare. -/
def valueEq : Value → Value → Option Bool
  | Value.bool a, Value.bool b => some (a == b)
  | Value.int a, Value.int b => some (a == b)
  | Value.uint a, Value.uint b => some (a == b)
  | Value.int a, Value.uint b => some (a == (b : Int))
  | Value.uint a, Value.int b => some ((a : Int) == b)
  | Value.string a, Value.string b => some (a == b)
  | _, _ => none

/-- The value of a pipeline. -/
def evalPipeline (dot : Data) (vars : Vars) : Pipeline → Option Value
  | Pipeline.operand o => evalOperand dot vars o
  | Pipeline.eq a b =>
    (evalOperand dot vars a).bind (fun x => (evalOperand dot vars b).bind (fun y =>
      (valueEq x y).map Value.bool))
  | Pipeline.ne a b =>
    (evalOperand dot vars a).bind (fun x => (evalOperand dot vars b).bind (fun y =>
      (valueEq x y).map (fun r => Value.bool (!r))))

/-- Whether a value counts as true in `if`: the empty values (false, zero, the
empty string, the empty list) do not. -/
def truth : Value → Bool
  | Value.bool b => b
  | Value.int i => i != 0
  | Value.uint n => n != 0
  | Value.string s => s != ""
  | Value.strings l => !l.isEmpty

/-- The printed form of a value (`fmt.Fprint`). -/
def printValue : Value → List Char
  | Value.bool b => if b then "true".data else "false".data
  | Value.int i => (toString i).data
  | Value.uint n => (Nat.repr n).data
  | Value.string s => s.data
  | Value.strings l => "[".data ++ (" ".intercalate l).data ++ "]".data

/-- The variables set by one round of `range`: the element for one declared
variable, the index and the element for two. -/
def bindRange (names : List String) (i : Nat) (e : String) (vars : Vars) : Vars :=
  match names with
  | [x] => (x, Value.string e) :: vars
  | [x, y] => (y, Value.string e) :: (x, Value.int i) :: vars
  | _ => vars

/-- The rounds of `range` over a list of strings: the body runs once per
element, in order, and the outputs are joined. -/
def rangeLoop (body : Nat → String → Option (List Char)) :
    Nat → List String → Option (List Char)
  | _, [] => some []
  | i, e :: es =>
    (body i e).bind (fun a => (rangeLoop body (i + 1) es).map (fun b => a ++ b))

mutual
/-- The output of one node run on `dot` with the variables `vars`; `none` is an
execution error. -/
def execNode (dot : Data) (vars : Vars) : Node → Option (List Char)
  | Node.text s => some s
  | Node.action p => (evalPipeline dot vars p).map printValue
  | Node.ifNode cond thenList elseList =>
    match evalPipeline dot vars cond with
    | none => none
    | some v => if truth v then execList dot vars thenList else execList dot vars elseList
  | Node.rangeNode names over body =>
    match evalPipeline dot vars over with
    | some (Value.strings l) =>
      rangeLoop
        (fun i e => execList (Data.value (Value.string e)) (bindRange names i e vars) body) 0 l
    | _ => none
/-- The output of a list of nodes: the outputs of its nodes, joined. -/
def execList (dot : Data) (vars : Vars) : List Node → Option (List Char)
  | [] => some []
  | n :: ns =>
    (execNode dot vars n).bind (fun a => (execList dot vars ns).map (fun b => a ++ b))
end

end template

/-- The text rendered from `TemplateAsset` for the configuration `c`: the
template is parsed and executed with `c` as its data. -/
def render (c : File) : Option String :=
  (template.parse TemplateAsset).bind (fun nodes =>
    (template.execList (template.Data.record c) [] nodes).map String.mk)

/-! ## Lines of the rendered text -/

/-- The pieces of a character list between newlines (`strings.Split(s, "\n")`);
the empty text has one empty line. -/
def splitLines : List Char → List (List Char)
  | [] => [[]]
  | c :: cs =>
    if c = '\n' then [] :: splitLines cs
    else
      match splitLines cs with
      | [] => [[c]]
      | l :: ls => (c :: l) :: ls

/-- The lines of a text. -/
def textLines (text : String) : List String :=
  (splitLines text.data).map String.mk

/-- A comment line begins with `#`. -/
def isCommentLine (line : List Char) : Bool :=
  line.head? = some '#'

/-- The line has the form `<d> = <value>` for the directive name `d`. -/
def isDirectiveLine (d : String) (line : List Char) : Bool :=
  (d ++ " = ").data.isPrefixOf line

/-- The non-comment lines of a text that are lines of the directive `d`, in
order. -/
def directiveLines (d : String) (text : String) : List String :=
  (textLines text).filter (fun l => !isCommentLine l.data && isDirectiveLine d l.data)

/-- No newline occurs in the characters. -/
def noNewline (s : List Char) : Bool :=
  !s.contains '\n'

/-- A value holds no string with a newline: neither as a string nor as a list
element. -/
def Value.newlineFree : Value → Prop
  | Value.string s => noNewline s.data = true
  | Value.strings l => ∀ e ∈ l, noNewline e.data = true
  | _ => True

/-- No string value of the configuration, scalar or list element, contains a
newline. -/
def File.newlineFree (c : File) : Prop :=
  ∀ p ∈ c.fields, p.2.newlineFree

/-! ## The shapes of the top-level nodes of `TemplateAsset` -/

namespace template

/-- The texts of a list joined with a separator. -/
def joinChars (sep : List Char) : List String → List Char
  | [] => []
  | [e] => e.data
  | e :: es => e.data ++ (sep ++ joinChars sep es)

/-- Output of the bind-path loop: one `pre ++ e ++ post` per non-empty
element. -/
def repeatedOut (pre post : List Char) : List String → List Char
  | [] => []
  | e :: es =>
    (if e = "" then [] else pre ++ (e.data ++ post)) ++ repeatedOut pre post es

/-- Output of a joined-line loop: nothing for the empty list, else `first`
and the elements joined with `sep`. -/
def joinedOut (first sep : List Char) (l : List String) : List Char :=
  if l = [] then [] else first ++ joinChars sep l

/-- A top-level piece of the template: static text, or one of the five shapes
of action that `TemplateAsset` uses. -/
inductive Sym where
  | static (s : List Char)
  | print (name : String)
  | boolSel (name : String) (yes no : List Char)
  | optLine (name : String) (pre : List Char)
  | repeated (name var : String) (pre post : List Char)
  | joined (name idx var : String) (first sep : List Char)
  deriving DecidableEq

/-- The template node of a piece. -/
def Sym.toNode : Sym → Node
  | Sym.static s => Node.text s
  | Sym.print name => Node.action (Pipeline.operand (Operand.field name))
  | Sym.boolSel name yes no =>
    Node.ifNode (Pipeline.eq (Operand.field name) (Operand.boolLit true))
      [Node.text yes] [Node.text no]
  | Sym.optLine name pre =>
    Node.ifNode (Pipeline.ne (Operand.field name) (Operand.strLit ""))
      [Node.text pre, Node.action (Pipeline.operand (Operand.field name))] []
  | Sym.repeated name var pre post =>
    Node.rangeNode [var] (Pipeline.operand (Operand.field name))
      [Node.ifNode (Pipeline.ne (Operand.variable var) (Operand.strLit ""))
        [Node.text pre, Node.action (Pipeline.operand (Operand.variable var)),
          Node.text post] []]
  | Sym.joined name idx var first sep =>
    Node.rangeNode [idx, var] (Pipeline.operand (Operand.field name))
      [Node.ifNode (Pipeline.eq (Operand.variable idx) (Operand.intLit 0))
        [Node.text first] [Node.text sep],
       Node.action (Pipeline.operand (Operand.variable var))]

mutual
/-- Equality test on nodes. -/
def Node.beq : Node → Node → Bool
  | Node.text a, Node.text b => a == b
  | Node.action p, Node.action q => p == q
  | Node.ifNode c t e, Node.ifNode c' t' e' => c == c' && beqList t t' && beqList e e'
  | Node.rangeNode v o b, Node.rangeNode v' o' b' => v == v' && o == o' && beqList b b'
  | _, _ => false
/-- Equality test on lists of nodes. -/
def beqList : List Node → List Node → Bool
  | [], [] => true
  | a :: as, b :: bs => Node.beq a b && beqList as bs
  | _, _ => false
end

/-- The output of a piece for the configuration `c`. -/
def Sym.out (c : File) : Sym → Option (List Char)
  | Sym.static s => some s
  | Sym.print name => (c.field name).map printValue
  | Sym.boolSel name yes no =>
    match c.field name with
    | some (Value.bool b) => some (if b then yes else no)
    | _ => none
  | Sym.optLine name pre =>
    match c.field name with
    | some (Value.string s) => some (if s = "" then [] else pre ++ s.data)
    | _ => none
  | Sym.repeated name _ pre post =>
    match c.field name with
    | some (Value.strings l) => some (repeatedOut pre post l)
    | _ => none
  | Sym.joined name _ _ first sep =>
    match c.field name with
    | some (Value.strings l) => some (joinedOut first sep l)
    | _ => none

/-- The output of a list of pieces: their outputs, joined. -/
def outAll (c : File) : List Sym → Option (List Char)
  | [] => some []
  | s :: ss => (s.out c).bind (fun a => (outAll c ss).map (fun b => a ++ b))

/-- A piece is well formed: the two variables of a joined-line loop differ. -/
def Sym.wf : Sym → Bool
  | Sym.joined _ idx var _ _ => idx != var
  | _ => true

/-- The Go type declared in `File` for a field name. -/
def fieldType (name : String) : Option GoType :=
  (fileFields.find? (fun f => f.name = name)).map FieldDecl.type

/-- A piece reads a field of the type its shape needs. -/
def Sym.typed : Sym → Bool
  | Sym.static _ => true
  | Sym.print name => fieldType name = some GoType.uint || fieldType name = some GoType.string
  | Sym.boolSel name _ _ => fieldType name = some GoType.bool
  | Sym.optLine name _ => fieldType name = some GoType.string
  | Sym.repeated name _ _ _ => fieldType name = some GoType.stringSlice
  | Sym.joined name _ _ _ _ => fieldType name = some GoType.stringSlice

/-- The static parts of a piece that stays on one line hold no newline. -/
def Sym.inlineOK : Sym → Bool
  | Sym.static _ => false
  | Sym.print _ => true
  | Sym.boolSel _ yes no => noNewline yes && noNewline no
  | Sym.optLine _ pre => noNewline pre
  | Sym.repeated _ _ _ _ => false
  | Sym.joined _ _ _ first sep => noNewline first && noNewline sep

/-- One or more whole lines of the rendered text: a static line, a line made of
static text followed by the output of a piece, or the lines of the bind-path
loop. -/
inductive LineItem where
  | static (l : List Char)
  | dynamic (pre : List Char) (s : Sym)
  | block (name var : String) (pre : List Char)
  deriving DecidableEq

/-- The pieces that render a line item, line end included. -/
def LineItem.syms : LineItem → List Sym
  | LineItem.static l => [Sym.static (l ++ ['\n'])]
  | LineItem.dynamic pre s => [Sym.static pre, s, Sym.static ['\n']]
  | LineItem.block name var pre => [Sym.repeated name var pre ['\n']]

/-- The pieces that render a list of line items. -/
def itemSyms : List LineItem → List Sym
  | [] => []
  | it :: its => it.syms ++ itemSyms its

/-- Join neighbouring static pieces and drop empty ones, as the lexer does. -/
def mergeStatic : List Sym → List Sym
  | [] => []
  | Sym.static s :: rest =>
    if s = [] then mergeStatic rest
    else
      match mergeStatic rest with
      | Sym.static t :: rest' => Sym.static (s ++ t) :: rest'
      | rest' => Sym.static s :: rest'
  | s :: rest => s :: mergeStatic rest

/-- A line item is well formed: its static text holds no newline, and the piece
of a dynamic line is one that stays on a line and reads a field of the right
type. -/
def LineItem.wf : LineItem → Bool
  | LineItem.static l => noNewline l
  | LineItem.dynamic pre s => noNewline pre && s.inlineOK && s.wf && s.typed
  | LineItem.block name _ pre => noNewline pre && fieldType name = some GoType.stringSlice

/-- The lines a line item renders to for the configuration `c`. -/
def LineItem.lines (c : File) : LineItem → List (List Char)
  | LineItem.static l => [l]
  | LineItem.dynamic pre s => splitLines (pre ++ (s.out c).getD [])
  | LineItem.block name _ pre =>
    match c.field name with
    | some (Value.strings l) =>
      (l.filter (fun e => e ≠ "")).flatMap (fun e => splitLines (pre ++ e.data))
    | _ => []

/-- The lines a list of line items renders to. -/
def itemLines (c : File) : List LineItem → List (List Char)
  | [] => []
  | it :: its => it.lines c ++ itemLines c its

end template

/-! ## The parsed template and its line items -/

/-- The nodes of `TemplateAsset`, read line by line. -/
def templateParse : Option (List template.Node) :=
  ((template.lexLines (templateLines.map String.data)).map
    (template.applyTrims [] false)).bind
    (template.parseItems [⟨template.FrameKind.root, [], false, []⟩])

/-- The nodes of `TemplateAsset`. -/
def templateNodes : List template.Node := templateParse.getD []

/-- The line items of `TemplateAsset`: its static lines, the lines that end in
the output of an action, and the bind-path loop, in order.  The theorem
`parse_eq_syms` checks them against the parsed template. -/
def templateItems : List template.LineItem := [
  template.LineItem.static "# APPTAINER.CONF".data,
  template.LineItem.static "# This is the global configuration file for Apptainer. This file controls".data,
  template.LineItem.static "# what the container is allowed to do on a particular host, and as a result".data,
  template.LineItem.static "# this file must be owned by root.".data,
  template.LineItem.static "".data,
  template.LineItem.static "# ALLOW SETUID: [BOOL]".data,
  template.LineItem.static "# DEFAULT: yes".data,
  template.LineItem.static "# Should we allow users to utilize the setuid program flow within Apptainer?".data,
  template.LineItem.static "# note1: This is the default mode, and to utilize all features, this option".data,
  template.LineItem.static "# must be enabled.  For example, without this option loop mounts of image ".data,
  template.LineItem.static "# files will not work; only sandbox image directories, which do not need loop".data,
  template.LineItem.static "# mounts, will work (subject to note 2).".data,
  template.LineItem.static "# note2: If this option is disabled, it will rely on unprivileged user".data,
  template.LineItem.static "# namespaces which have not been integrated equally between different Linux".data,
  template.LineItem.static "# distributions.".data,
  template.LineItem.dynamic "allow setuid = ".data (template.Sym.boolSel "AllowSetuid" "yes".data "no".data),
  template.LineItem.static "".data,
  template.LineItem.static "# MAX LOOP DEVICES: [INT]".data,
  template.LineItem.static "# DEFAULT: 256".data,
  template.LineItem.static "# Set the maximum number of loop devices that Apptainer should ever attempt".data,
  template.LineItem.static "# to utilize.".data,
  template.LineItem.dynamic "max loop devices = ".data (template.Sym.print "MaxLoopDevices"),
  template.LineItem.static "".data,
  template.LineItem.static "# ALLOW PID NS: [BOOL]".data,
  template.LineItem.static "# DEFAULT: yes".data,
  template.LineItem.static "# Should we allow users to request the PID namespace? Note that for some HPC".data,
  template.LineItem.static "# resources, the PID namespace may confuse the resource manager and break how".data,
  template.LineItem.static "# some MPI implementations utilize shared memory. (note, on some older".data,
  template.LineItem.static "# systems, the PID namespace is always used)".data,
  template.LineItem.dynamic "allow pid ns = ".data (template.Sym.boolSel "AllowPidNs" "yes".data "no".data),
  template.LineItem.static "".data,
  template.LineItem.static "# CONFIG PASSWD: [BOOL]".data,
  template.LineItem.static "# DEFAULT: yes".data,
  template.LineItem.static "# If /etc/passwd exists within the container, this will automatically append".data,
  template.LineItem.static "# an entry for the calling user.".data,
  template.LineItem.dynamic "config passwd = ".data (template.Sym.boolSel "ConfigPasswd" "yes".data "no".data),
  template.LineItem.static "".data,
  template.LineItem.static "# CONFIG GROUP: [BOOL]".data,
  template.LineItem.static "# DEFAULT: yes".data,
  template.LineItem.static "# If /etc/group exists within the container, this will automatically append".data,
  template.LineItem.static "# group entries for the calling user.".data,
  template.LineItem.dynamic "config group = ".data (template.Sym.boolSel "ConfigGroup" "yes".data "no".data),
  template.LineItem.static "".data,
  template.LineItem.static "# CONFIG RESOLV_CONF: [BOOL]".data,
  template.LineItem.static "# DEFAULT: yes".data,
  template.LineItem.static "# If there is a bind point within the container, use the host's".data,
  template.LineItem.static "# /etc/resolv.conf.".data,
  template.LineItem.dynamic "config resolv_conf = ".data (template.Sym.boolSel "ConfigResolvConf" "yes".data "no".data),
  template.LineItem.static "".data,
  template.LineItem.static "# MOUNT PROC: [BOOL]".data,
  template.LineItem.static "# DEFAULT: yes".data,
  template.LineItem.static "# Should we automatically bind mount /proc within the container?".data,
  template.LineItem.dynamic "mount proc = ".data (template.Sym.boolSel "MountProc" "yes".data "no".data),
  template.LineItem.static "".data,
  template.LineItem.static "# MOUNT SYS: [BOOL]".data,
  template.LineItem.static "# DEFAULT: yes".data,
  template.LineItem.static "# Should we automatically bind mount /sys within the container?".data,
  template.LineItem.dynamic "mount sys = ".data (template.Sym.boolSel "MountSys" "yes".data "no".data),
  template.LineItem.static "".data,
  template.LineItem.static "# MOUNT DEV: [yes/no/minimal]".data,
  template.LineItem.static "# DEFAULT: yes".data,
  template.LineItem.static "# Should we automatically bind mount /dev within the container? If 'minimal'".data,
  template.LineItem.static "# is chosen, then only 'null', 'zero', 'random', 'urandom', and 'shm' will".data,
  template.LineItem.static "# be included (the same effect as the --contain options)".data,
  template.LineItem.dynamic "mount dev = ".data (template.Sym.print "MountDev"),
  template.LineItem.static "".data,
  template.LineItem.static "# MOUNT DEVPTS: [BOOL]".data,
  template.LineItem.static "# DEFAULT: yes".data,
  template.LineItem.static "# Should we mount a new instance of devpts if there is a 'minimal'".data,
  template.LineItem.static "# /dev, or -C is passed?  Note, this requires that your kernel was".data,
  template.LineItem.static "# configured with CONFIG_DEVPTS_MULTIPLE_INSTANCES=y, or that you're".data,
  template.LineItem.static "# running kernel 4.7 or newer.".data,
  template.LineItem.dynamic "mount devpts = ".data (template.Sym.boolSel "MountDevPts" "yes".data "no".data),
  template.LineItem.static "".data,
  template.LineItem.static "# MOUNT HOME: [BOOL]".data,
  template.LineItem.static "# DEFAULT: yes".data,
  template.LineItem.static "# Should we automatically determine the calling user's home directory and".data,
  template.LineItem.static "# attempt to mount it's base path into the container? If the --contain option".data,
  template.LineItem.static "# is used, the home directory will be created within the session directory or".data,
  template.LineItem.static "# can be overridden with the APPTAINER_HOME or APPTAINER_WORKDIR".data,
  template.LineItem.static "# environment variables (or their corresponding command line options).".data,
  template.LineItem.dynamic "mount home = ".data (template.Sym.boolSel "MountHome" "yes".data "no".data),
  template.LineItem.static "".data,
  template.LineItem.static "# MOUNT TMP: [BOOL]".data,
  template.LineItem.static "# DEFAULT: yes".data,
  template.LineItem.static "# Should we automatically bind mount /tmp and /var/tmp into the container? If".data,
  template.LineItem.static "# the --contain option is used, both tmp locations will be created in the".data,
  template.LineItem.static "# session directory or can be specified via the  APPTAINER_WORKDIR".data,
  template.LineItem.static "# environment variable (or the --workingdir command line option).".data,
  template.LineItem.dynamic "mount tmp = ".data (template.Sym.boolSel "MountTmp" "yes".data "no".data),
  template.LineItem.static "".data,
  template.LineItem.static "# MOUNT HOSTFS: [BOOL]".data,
  template.LineItem.static "# DEFAULT: no".data,
  template.LineItem.static "# Probe for all mounted file systems that are mounted on the host, and bind".data,
  template.LineItem.static "# those into the container?".data,
  template.LineItem.dynamic "mount hostfs = ".data (template.Sym.boolSel "MountHostfs" "yes".data "no".data),
  template.LineItem.static "".data,
  template.LineItem.static "# BIND PATH: [STRING]".data,
  template.LineItem.static "# DEFAULT: Undefined".data,
  template.LineItem.static "# Define a list of files/directories that should be made available from within".data,
  template.LineItem.static "# the container. The file or directory must exist within the container on".data,
  template.LineItem.static "# which to attach to. you can specify a different source and destination".data,
  template.LineItem.static "# path (respectively) with a colon; otherwise source and dest are the same.".data,
  template.LineItem.static "# NOTE: these are ignored if apptainer is invoked with --contain except".data,
  template.LineItem.static "# for /etc/hosts and /etc/localtime. When invoked with --contain and --net,".data,
  template.LineItem.static "# /etc/hosts would contain a default generated content for localhost resolution.".data,
  template.LineItem.static "#bind path = /etc/apptainer/default-nsswitch.conf:/etc/nsswitch.conf".data,
  template.LineItem.static "#bind path = /opt".data,
  template.LineItem.static "#bind path = /scratch".data,
  template.LineItem.block "BindPath" "path" "bind path = ".data,
  template.LineItem.static "".data,
  template.LineItem.static "# USER BIND CONTROL: [BOOL]".data,
  template.LineItem.static "# DEFAULT: yes".data,
  template.LineItem.static "# Allow users to influence and/or define bind points at runtime? This will allow".data,
  template.LineItem.static "# users to specify bind points, scratch and tmp locations. (note: User bind".data,
  template.LineItem.static "# control is only allowed if the host also supports PR_SET_NO_NEW_PRIVS)".data,
  template.LineItem.dynamic "user bind control = ".data (template.Sym.boolSel "UserBindControl" "yes".data "no".data),
  template.LineItem.static "".data,
  template.LineItem.static "# ENABLE FUSEMOUNT: [BOOL]".data,
  template.LineItem.static "# DEFAULT: yes".data,
  template.LineItem.static "# Allow users to mount fuse filesystems inside containers with the --fusemount".data,
  template.LineItem.static "# command line option.".data,
  template.LineItem.dynamic "enable fusemount = ".data (template.Sym.boolSel "EnableFusemount" "yes".data "no".data),
  template.LineItem.static "".data,
  template.LineItem.static "# ENABLE OVERLAY: [yes/no/try/driver]".data,
  template.LineItem.static "# DEFAULT: try".data,
  template.LineItem.static "# Enabling this option will make it possible to specify bind paths to locations".data,
  template.LineItem.static "# that do not currently exist within the container.  If 'try' is chosen,".data,
  template.LineItem.static "# overlayfs will be tried but if it is unavailable it will be silently ignored.".data,
  template.LineItem.static "# If 'driver' is chosen, overlayfs is handled by the image driver.".data,
  template.LineItem.dynamic "enable overlay = ".data (template.Sym.print "EnableOverlay"),
  template.LineItem.static "".data,
  template.LineItem.static "# ENABLE UNDERLAY: [yes/no]".data,
  template.LineItem.static "# DEFAULT: yes".data,
  template.LineItem.static "# Enabling this option will make it possible to specify bind paths to locations".data,
  template.LineItem.static "# that do not currently exist within the container even if overlay is not".data,
  template.LineItem.static "# working.  If overlay is available, it will be tried first.".data,
  template.LineItem.dynamic "enable underlay = ".data (template.Sym.boolSel "EnableUnderlay" "yes".data "no".data),
  template.LineItem.static "".data,
  template.LineItem.static "# MOUNT SLAVE: [BOOL]".data,
  template.LineItem.static "# DEFAULT: yes".data,
  template.LineItem.static "# Should we automatically propagate file-system changes from the host?".data,
  template.LineItem.static "# This should be set to 'yes' when autofs mounts in the system should".data,
  template.LineItem.static "# show up in the container.".data,
  template.LineItem.dynamic "mount slave = ".data (template.Sym.boolSel "MountSlave" "yes".data "no".data),
  template.LineItem.static "".data,
  template.LineItem.static "# SESSIONDIR MAXSIZE: [STRING]".data,
  template.LineItem.static "# DEFAULT: 16".data,
  template.LineItem.static "# This specifies how large the default sessiondir should be (in MB) and it will".data,
  template.LineItem.static "# only affect users who use the \"--contain\" options and don't also specify a".data,
  template.LineItem.static "# location to do default read/writes to (e.g. \"--workdir\" or \"--home\").".data,
  template.LineItem.dynamic "sessiondir max size = ".data (template.Sym.print "SessiondirMaxSize"),
  template.LineItem.static "".data,
  template.LineItem.static "# LIMIT CONTAINER OWNERS: [STRING]".data,
  template.LineItem.static "# DEFAULT: NULL".data,
  template.LineItem.static "# Only allow containers to be used that are owned by a given user. If this".data,
  template.LineItem.static "# configuration is undefined (commented or set to NULL), all containers are".data,
  template.LineItem.static "# allowed to be used. This feature only applies when Apptainer is running in".data,
  template.LineItem.static "# SUID mode and the user is non-root.".data,
  template.LineItem.static "#limit container owners = gmk, apptainer, nobody".data,
  template.LineItem.dynamic "".data (template.Sym.joined "LimitContainerOwners" "index" "owner" "limit container owners = ".data ", ".data),
  template.LineItem.static "".data,
  template.LineItem.static "# LIMIT CONTAINER GROUPS: [STRING]".data,
  template.LineItem.static "# DEFAULT: NULL".data,
  template.LineItem.static "# Only allow containers to be used that are owned by a given group. If this".data,
  template.LineItem.static "# configuration is undefined (commented or set to NULL), all containers are".data,
  template.LineItem.static "# allowed to be used. This feature only applies when Apptainer is running in".data,
  template.LineItem.static "# SUID mode and the user is non-root.".data,
  template.LineItem.static "#limit container groups = group1, apptainer, nobody".data,
  template.LineItem.dynamic "".data (template.Sym.joined "LimitContainerGroups" "index" "group" "limit container groups = ".data ", ".data),
  template.LineItem.static "".data,
  template.LineItem.static "# LIMIT CONTAINER PATHS: [STRING]".data,
  template.LineItem.static "# DEFAULT: NULL".data,
  template.LineItem.static "# Only allow containers to be used that are located within an allowed path".data,
  template.LineItem.static "# prefix. If this configuration is undefined (commented or set to NULL),".data,
  template.LineItem.static "# containers will be allowed to run from anywhere on the file system. This".data,
  template.LineItem.static "# feature only applies when Apptainer is running in SUID mode and the user is".data,
  template.LineItem.static "# non-root.".data,
  template.LineItem.static "#limit container paths = /scratch, /tmp, /global".data,
  template.LineItem.dynamic "".data (template.Sym.joined "LimitContainerPaths" "index" "path" "limit container paths = ".data ", ".data),
  template.LineItem.static "".data,
  template.LineItem.static "# ALLOW CONTAINER $\x7bTYPE\x7d: [BOOL]".data,
  template.LineItem.static "# DEFAULT: yes".data,
  template.LineItem.static "# This feature limits what kind of containers that Apptainer will allow".data,
  template.LineItem.static "# users to use (note this does not apply for root).".data,
  template.LineItem.static "#".data,
  template.LineItem.static "# Allow use of unencrypted SIF containers".data,
  template.LineItem.dynamic "allow container sif = ".data (template.Sym.boolSel "AllowContainerSIF" "yes".data "no".data),
  template.LineItem.static "#".data,
  template.LineItem.static "# Allow use of encrypted SIF containers".data,
  template.LineItem.dynamic "allow container encrypted = ".data (template.Sym.boolSel "AllowContainerEncrypted" "yes".data "no".data),
  template.LineItem.static "#".data,
  template.LineItem.static "# Allow use of non-SIF image formats".data,
  template.LineItem.dynamic "allow container squashfs = ".data (template.Sym.boolSel "AllowContainerSquashfs" "yes".data "no".data),
  template.LineItem.dynamic "allow container extfs = ".data (template.Sym.boolSel "AllowContainerExtfs" "yes".data "no".data),
  template.LineItem.dynamic "allow container dir = ".data (template.Sym.boolSel "AllowContainerDir" "yes".data "no".data),
  template.LineItem.static "".data,
  template.LineItem.static "# ALLOW NET USERS: [STRING]".data,
  template.LineItem.static "# DEFAULT: NULL".data,
  template.LineItem.static "# Allow specified root administered CNI network configurations to be used by the".data,
  template.LineItem.static "# specified list of users. By default only root may use CNI configuration,".data,
  template.LineItem.static "# except in the case of a fakeroot execution where only 40_fakeroot.conflist".data,
  template.LineItem.static "# is used. This feature only applies when Apptainer is running in".data,
  template.LineItem.static "# SUID mode and the user is non-root.".data,
  template.LineItem.static "#allow net users = gmk, apptainer".data,
  template.LineItem.dynamic "".data (template.Sym.joined "AllowNetUsers" "index" "owner" "allow net users = ".data ", ".data),
  template.LineItem.static "".data,
  template.LineItem.static "# ALLOW NET GROUPS: [STRING]".data,
  template.LineItem.static "# DEFAULT: NULL".data,
  template.LineItem.static "# Allow specified root administered CNI network configurations to be used by the".data,
  template.LineItem.static "# specified list of users. By default only root may use CNI configuration,".data,
  template.LineItem.static "# except in the case of a fakeroot execution where only 40_fakeroot.conflist".data,
  template.LineItem.static "# is used. This feature only applies when Apptainer is running in".data,
  template.LineItem.static "# SUID mode and the user is non-root.".data,
  template.LineItem.static "#allow net groups = group1, apptainer".data,
  template.LineItem.dynamic "".data (template.Sym.joined "AllowNetGroups" "index" "group" "allow net groups = ".data ", ".data),
  template.LineItem.static "".data,
  template.LineItem.static "# ALLOW NET NETWORKS: [STRING]".data,
  template.LineItem.static "# DEFAULT: NULL".data,
  template.LineItem.static "# Specify the names of CNI network configurations that may be used by users and".data,
  template.LineItem.static "# groups listed in the allow net users / allow net groups directives. Thus feature".data,
  template.LineItem.static "# only applies when Apptainer is running in SUID mode and the user is non-root.".data,
  template.LineItem.static "#allow net networks = bridge".data,
  template.LineItem.dynamic "".data (template.Sym.joined "AllowNetNetworks" "index" "group" "allow net networks = ".data ", ".data),
  template.LineItem.static "".data,
  template.LineItem.static "# ALWAYS USE NV $\x7bTYPE\x7d: [BOOL]".data,
  template.LineItem.static "# DEFAULT: no".data,
  template.LineItem.static "# This feature allows an administrator to determine that every action command".data,
  template.LineItem.static "# should be executed implicitly with the --nv option (useful for GPU only ".data,
  template.LineItem.static "# environments). ".data,
  template.LineItem.dynamic "always use nv = ".data (template.Sym.boolSel "AlwaysUseNv" "yes".data "no".data),
  template.LineItem.static "".data,
  template.LineItem.static "# USE NVIDIA-NVIDIA-CONTAINER-CLI $\x7bTYPE\x7d: [BOOL]".data,
  template.LineItem.static "# DEFAULT: no".data,
  template.LineItem.static "# EXPERIMENTAL".data,
  template.LineItem.static "# If set to yes, Apptainer will attempt to use nvidia-container-cli to setup".data,
  template.LineItem.static "# GPUs within a container when the --nv flag is enabled.".data,
  template.LineItem.static "# If no (default), the legacy binding of entries in nvbliblist.conf will be performed.".data,
  template.LineItem.dynamic "use nvidia-container-cli = ".data (template.Sym.boolSel "UseNvCCLI" "yes".data "no".data),
  template.LineItem.static "".data,
  template.LineItem.static "# ALWAYS USE ROCM $\x7bTYPE\x7d: [BOOL]".data,
  template.LineItem.static "# DEFAULT: no".data,
  template.LineItem.static "# This feature allows an administrator to determine that every action command".data,
  template.LineItem.static "# should be executed implicitly with the --rocm option (useful for GPU only".data,
  template.LineItem.static "# environments).".data,
  template.LineItem.dynamic "always use rocm = ".data (template.Sym.boolSel "AlwaysUseRocm" "yes".data "no".data),
  template.LineItem.static "".data,
  template.LineItem.static "# ROOT DEFAULT CAPABILITIES: [full/file/no]".data,
  template.LineItem.static "# DEFAULT: full".data,
  template.LineItem.static "# Define default root capability set kept during runtime".data,
  template.LineItem.static "# - full: keep all capabilities (same as --keep-privs)".data,
  template.LineItem.static "# - file: keep capabilities configured in $\x7bprefix\x7d/etc/apptainer/capabilities/user.root".data,
  template.LineItem.static "# - no: no capabilities (same as --no-privs)".data,
  template.LineItem.dynamic "root default capabilities = ".data (template.Sym.print "RootDefaultCapabilities"),
  template.LineItem.static "".data,
  template.LineItem.static "# MEMORY FS TYPE: [tmpfs/ramfs]".data,
  template.LineItem.static "# DEFAULT: tmpfs".data,
  template.LineItem.static "# This feature allow to choose temporary filesystem type used by Apptainer.".data,
  template.LineItem.static "# Cray CLE 5 and 6 up to CLE 6.0.UP05 there is an issue (kernel panic) when Apptainer".data,
  template.LineItem.static "# use tmpfs, so on affected version it's recommended to set this value to ramfs to avoid".data,
  template.LineItem.static "# kernel panic".data,
  template.LineItem.dynamic "memory fs type = ".data (template.Sym.print "MemoryFSType"),
  template.LineItem.static "".data,
  template.LineItem.static "# CNI CONFIGURATION PATH: [STRING]".data,
  template.LineItem.static "# DEFAULT: Undefined".data,
  template.LineItem.static "# Defines path where CNI configuration files are stored".data,
  template.LineItem.static "#cni configuration path =".data,
  template.LineItem.dynamic "".data (template.Sym.optLine "CniConfPath" "cni configuration path = ".data),
  template.LineItem.static "# CNI PLUGIN PATH: [STRING]".data,
  template.LineItem.static "# DEFAULT: Undefined".data,
  template.LineItem.static "# Defines path where CNI executable plugins are stored".data,
  template.LineItem.static "#cni plugin path =".data,
  template.LineItem.dynamic "".data (template.Sym.optLine "CniPluginPath" "cni plugin path = ".data),
  template.LineItem.static "".data,
  template.LineItem.static "# BINARY PATH: [STRING]".data,
  template.LineItem.static "# DEFAULT: $PATH:/usr/local/sbin:/usr/local/bin:/usr/sbin:/usr/bin:/sbin:/bin".data,
  template.LineItem.static "# Colon-separated list of directories to search for many binaries.  May include".data,
  template.LineItem.static "# \"$PATH:\", which will be replaced by the user's PATH only when not running the".data,
  template.LineItem.static "# setuid program flow.".data,
  template.LineItem.static "# binary path = ".data,
  template.LineItem.static "".data,
  template.LineItem.static "# CRYPTSETUP PATH: [STRING]".data,
  template.LineItem.static "# DEFAULT: Undefined".data,
  template.LineItem.static "# DEPRECATED".data,
  template.LineItem.static "# Path to the cryptsetup executable, used to work with encrypted containers.".data,
  template.LineItem.static "# Executable must be owned by root for security reasons.".data,
  template.LineItem.static "# If not set, Apptainer will search the directories set in binary path.".data,
  template.LineItem.static "# cryptsetup path =".data,
  template.LineItem.static "".data,
  template.LineItem.static "# GO PATH: [STRING]".data,
  template.LineItem.static "# DEFAULT: Undefined".data,
  template.LineItem.static "# DEPRECATED".data,
  template.LineItem.static "# Path to the go executable, used to compile plugins.".data,
  template.LineItem.static "# If not set, Apptainer will search the directories set in binary path.".data,
  template.LineItem.static "# go path =".data,
  template.LineItem.static "".data,
  template.LineItem.static "# LDCONFIG PATH: [STRING]".data,
  template.LineItem.static "# DEFAULT: Undefined".data,
  template.LineItem.static "# DEPRECATED".data,
  template.LineItem.static "# Path to the ldconfig executable, used to find GPU libraries.".data,
  template.LineItem.static "# When run as root, executable must be owned by root for security reasons.".data,
  template.LineItem.static "# If not set, Apptainer will search the directories set in binary path.".data,
  template.LineItem.static "# ldconfig path =".data,
  template.LineItem.static "".data,
  template.LineItem.static "# MKSQUASHFS PATH: [STRING]".data,
  template.LineItem.static "# DEFAULT: Undefined".data,
  template.LineItem.static "# DEPRECATED".data,
  template.LineItem.static "# Path to the mksquashfs executable, used to create SIF and SquashFS containers.".data,
  template.LineItem.static "# If not set, Apptainer will search the directories set in binary path.".data,
  template.LineItem.static "# mksquashfs path =".data,
  template.LineItem.static "".data,
  template.LineItem.static "# MKSQUASHFS PROCS: [UINT]".data,
  template.LineItem.static "# DEFAULT: 0 (All CPUs)".data,
  template.LineItem.static "# This allows the administrator to specify the number of CPUs for mksquashfs ".data,
  template.LineItem.static "# to use when building an image.  The fewer processors the longer it takes.".data,
  template.LineItem.static "# To enable it to use all available CPU's set this to 0.".data,
  template.LineItem.static "# mksquashfs procs = 0".data,
  template.LineItem.dynamic "mksquashfs procs = ".data (template.Sym.print "MksquashfsProcs"),
  template.LineItem.static "".data,
  template.LineItem.static "# MKSQUASHFS MEM: [STRING]".data,
  template.LineItem.static "# DEFAULT: Unlimited".data,
  template.LineItem.static "# This allows the administrator to set the maximum amount of memory for mkswapfs".data,
  template.LineItem.static "# to use when building an image.  e.g. 1G for 1gb or 500M for 500mb. Restricting memory".data,
  template.LineItem.static "# can have a major impact on the time it takes mksquashfs to create the image.".data,
  template.LineItem.static "# NOTE: This fuctionality did not exist in squashfs-tools prior to version 4.3".data,
  template.LineItem.static "# If using an earlier version you should not set this.".data,
  template.LineItem.static "# mksquashfs mem = 1G".data,
  template.LineItem.dynamic "".data (template.Sym.optLine "MksquashfsMem" "mksquashfs mem = ".data),
  template.LineItem.static "".data,
  template.LineItem.static "# NVIDIA-CONTAINER-CLI PATH: [STRING]".data,
  template.LineItem.static "# DEFAULT: Undefined".data,
  template.LineItem.static "# DEPRECATED".data,
  template.LineItem.static "# Path to the nvidia-container-cli executable, used to find GPU libraries.".data,
  template.LineItem.static "# When run as root, executable must be owned by root for security reasons".data,
  template.LineItem.static "# If not set, Apptainer will search the directories set in binary path.".data,
  template.LineItem.static "# nvidia-container-cli path =".data,
  template.LineItem.static "".data,
  template.LineItem.static "# UNSQUASHFS PATH: [STRING]".data,
  template.LineItem.static "# DEFAULT: Undefined".data,
  template.LineItem.static "# DEPRECATED".data,
  template.LineItem.static "# Path to the unsquashfs executable, used to extract SIF and SquashFS containers".data,
  template.LineItem.static "# If not set, Apptainer will search the directories set in binary path.".data,
  template.LineItem.static "# unsquashfs path =".data,
  template.LineItem.static "".data,
  template.LineItem.static "# SHARED LOOP DEVICES: [BOOL]".data,
  template.LineItem.static "# DEFAULT: no".data,
  template.LineItem.static "# Allow to share same images associated with loop devices to minimize loop".data,
  template.LineItem.static "# usage and optimize kernel cache (useful for MPI)".data,
  template.LineItem.dynamic "shared loop devices = ".data (template.Sym.boolSel "SharedLoopDevices" "yes".data "no".data),
  template.LineItem.static "".data,
  template.LineItem.static "# IMAGE DRIVER: [STRING]".data,
  template.LineItem.static "# DEFAULT: Undefined".data,
  template.LineItem.static "# This option specifies the name of an image driver provided by a plugin that".data,
  template.LineItem.static "# will be used to handle image mounts. If the 'enable overlay' option is set".data,
  template.LineItem.static "# to 'driver' the driver name specified here will also be used to handle".data,
  template.LineItem.static "# overlay mounts.".data,
  template.LineItem.static "# If the driver name specified has not been registered via a plugin installation".data,
  template.LineItem.static "# the run-time will abort.".data,
  template.LineItem.dynamic "image driver = ".data (template.Sym.print "ImageDriver"),
  template.LineItem.static "".data,
  template.LineItem.static "# DOWNLOAD CONCURRENCY: [UINT]".data,
  template.LineItem.static "# DEFAULT: 3".data,
  template.LineItem.static "# This option specifies how many concurrent streams when downloading (pulling)".data,
  template.LineItem.static "# an image from cloud library.".data,
  template.LineItem.dynamic "download concurrency = ".data (template.Sym.print "DownloadConcurrency"),
  template.LineItem.static "".data,
  template.LineItem.static "# DOWNLOAD PART SIZE: [UINT]".data,
  template.LineItem.static "# DEFAULT: 5242880".data,
  template.LineItem.static "# This option specifies the size of each part when concurrent downloads are".data,
  template.LineItem.static "# enabled.".data,
  template.LineItem.dynamic "download part size = ".data (template.Sym.print "DownloadPartSize"),
  template.LineItem.static "".data,
  template.LineItem.static "# DOWNLOAD BUFFER SIZE: [UINT]".data,
  template.LineItem.static "# DEFAULT: 32768".data,
  template.LineItem.static "# This option specifies the transfer buffer size when concurrent downloads".data,
  template.LineItem.static "# are enabled.".data,
  template.LineItem.dynamic "download buffer size = ".data (template.Sym.print "DownloadBufferSize"),
  template.LineItem.static "".data,
  template.LineItem.static "# SYSTEMD CGROUPS: [BOOL]".data,
  template.LineItem.static "# DEFAULT: yes".data,
  template.LineItem.static "# Whether to use systemd to manage container cgroups. Required for rootless cgroups".data,
  template.LineItem.static "# functionality. 'no' will manage cgroups directly via cgroupfs.".data,
  template.LineItem.dynamic "systemd cgroups = ".data (template.Sym.boolSel "SystemdCgroups" "yes".data "no".data)
]

/-- The top-level pieces of `TemplateAsset`: those of its line items, with
neighbouring static text joined. -/
def templateSyms : List template.Sym :=
  template.mergeStatic (template.itemSyms templateItems)

/-! ## Lines of the template and of the rendered text -/

namespace template

/-- A line: characters without a newline, then the newline. -/
def isLine (l : List Char) : Bool :=
  l.dropLast ++ ['\n'] == l && noNewline l.dropLast

/-- The elements of a list, each after the separator. -/
def sepTail (sep : List Char) : List String → List Char
  | [] => []
  | e :: es => sep ++ (e.data ++ sepTail sep es)

end template

/-! ## Lines of a directive -/

namespace template

/-- A non-comment line that begins with the characters `p`. -/
def lineMatches (p l : List Char) : Bool :=
  !isCommentLine l && p.isPrefixOf l

/-- Whether every line that begins with the non-empty static text `q` is a
non-comment line beginning with `p`; `none` when `q` is too short to tell. -/
def decideStart (p q : List Char) : Option Bool :=
  if q = [] then none
  else if isCommentLine q then some false
  else if p.isPrefixOf q then some true
  else if q.isPrefixOf p then none
  else some false

/-- Whether the non-empty lines of a line item are non-comment lines beginning
with `p`; `none` when the static text of the item does not tell. -/
def LineItem.keep (p : List Char) : LineItem → Option Bool
  | LineItem.static l => some (lineMatches p l)
  | LineItem.dynamic pre s =>
    if pre = [] then
      match s with
      | Sym.optLine _ pre' => decideStart p pre'
      | Sym.joined _ _ _ first _ => decideStart p first
      | _ => none
    else decideStart p pre
  | LineItem.block _ _ pre => decideStart p pre

/-- The line items whose non-empty lines are the non-comment lines beginning
with `p`; `none` when some item does not tell. -/
def keptItems (p : List Char) : List LineItem → Option (List LineItem)
  | [] => some []
  | it :: its =>
    match it.keep p with
    | none => none
    | some b => (keptItems p its).map (fun r => if b then it :: r else r)

end template

/-- The directive names declared by the fields of `File`. -/
def directiveNames : List String :=
  fileFields.filterMap FieldDecl.directive

/-- The canonical line grammar: a line is blank, begins with `#`, or has the
form `<d> = <value>` for the directive name `d` of some field of `File`. -/
def lineGrammar (line : String) : Prop :=
  line = "" ∨ line.data.head? = some '#' ∨
    ∃ d ∈ directiveNames, ∃ value : String, line = d ++ " = " ++ value

namespace template

/-- Every line that begins with the static text `q` is a comment or a line of
a directive in `dirs`. -/
def startOK (dirs : List String) (q : List Char) : Bool :=
  q != [] && (isCommentLine q || dirs.any (fun d => (d ++ " = ").data.isPrefixOf q))

/-- The static text of a line item shows that each of its lines is blank, a
comment or a line of a directive in `dirs`. -/
def LineItem.grammarOK (dirs : List String) : LineItem → Bool
  | LineItem.static l => l == [] || startOK dirs l
  | LineItem.dynamic pre s =>
    if pre = [] then
      match s with
      | Sym.optLine _ pre' => startOK dirs pre'
      | Sym.joined _ _ _ first _ => startOK dirs first
      | _ => false
    else startOK dirs pre
  | LineItem.block _ _ pre => startOK dirs pre

end template

/-! ## Defaults and the parser -/

/-- Modelled from the spec: the boolean values of the loader and the parser,
absent from the sources at hand: the truth value written by `yes` or `no`. -/
def parseBool (s : String) : Option Bool :=
  if s = "yes" then some true else if s = "no" then some false else none

/-- Modelled from the spec: the unsigned-integer values of the loader and the
parser, absent from the sources at hand: a non-empty decimal literal. -/
def parseUint (s : String) : Option Nat :=
  if s.data = [] then none else template.digitsValue 0 s.data

/-- Modelled from the spec: the parser, absent from the sources at hand, takes
keys and values without leading and trailing space. -/
def trimChars (s : List Char) : List Char :=
  ((s.dropWhile template.isSpace).reverse.dropWhile template.isSpace).reverse

/-- Modelled from the spec: the default of one field, absent from the sources
at hand: the value its `default` tag writes, the empty value for a missing tag;
the default of a list is split at commas. -/
def defaultValue (f : FieldDecl) : Option Value :=
  match f.type, f.default with
  | GoType.bool, some s => (parseBool s).map Value.bool
  | GoType.bool, none => some (Value.bool false)
  | GoType.uint, some s => (parseUint s).map Value.uint
  | GoType.uint, none => some (Value.uint 0)
  | GoType.string, some s => some (Value.string s)
  | GoType.string, none => some (Value.string "")
  | GoType.stringSlice, some s => some (Value.strings (splitComma s))
  | GoType.stringSlice, none => some (Value.strings [])

/-- Modelled from the spec: the loader, absent from the sources at hand, sets
the listed fields of `c` to their defaults. -/
def applyDefaults : List FieldDecl → File → Option File
  | [], c => some c
  | f :: fs, c =>
    (defaultValue f).bind (fun v => (c.setField f.name v).bind (applyDefaults fs))

/-- Modelled from the spec: the configuration populated with the catalog
defaults, built by the loader that is absent from the sources at hand. -/
def defaultConfig : File :=
  (applyDefaults fileFields File.zero).getD File.zero

/-- Modelled from the spec: the result of parsing a configuration text: the
configuration, a format error with the line and its number, or a validation
error with the directive, the value and the accepted set. -/
inductive ParseResult where
  | ok (c : File)
  | formatError (lineNumber : Nat) (line : String)
  | validationError (directive value : String) (accepted : List String)
  deriving DecidableEq

/-- Modelled from the spec: state of the parser, the configuration so far and
the directives met. -/
structure ParseState where
  config : File
  seen : List String

/-- Modelled from the spec: the serialization style of a list directive, fixed
per directive: `bind path` is repeated-line, the other lists are joined-line. -/
def repeatedStyle (directive : String) : Bool :=
  directive = "bind path"

/-- Modelled from the spec: the key and the value of a line `key = value`, the
text before and after the first `=`, without surrounding space; `none` without
a `=`. -/
def splitKeyValue (line : List Char) : Option (String × String) :=
  if line.contains '=' then
    some (String.mk (trimChars (line.takeWhile (fun c => c ≠ '='))),
      String.mk (trimChars ((line.dropWhile (fun c => c ≠ '=')).drop 1)))
  else none

/-- Modelled from the spec: the value of the field after a line with the given
value, or the validation error. -/
def parseValue (f : FieldDecl) (directive value : String) (st : ParseState) :
    Except ParseResult Value :=
  match f.type with
  | GoType.bool =>
    match parseBool value with
    | some b => Except.ok (Value.bool b)
    | none => Except.error (ParseResult.validationError directive value ["yes", "no"])
  | GoType.uint =>
    match parseUint value with
    | some n => Except.ok (Value.uint n)
    | none => Except.error (ParseResult.validationError directive value [])
  | GoType.string =>
    match f.authorized with
    | some a =>
      if value ∈ a then Except.ok (Value.string value)
      else Except.error (ParseResult.validationError directive value a)
    | none => Except.ok (Value.string value)
  | GoType.stringSlice =>
    if repeatedStyle directive then
      match st.config.field f.name with
      | some (Value.strings l) => Except.ok (Value.strings (l ++ [value]))
      | _ => Except.ok (Value.strings [value])
    else
      Except.ok (Value.strings
        ((splitCommaChars value.data).map (fun t => String.mk (trimChars t))))

/-- Modelled from the spec: the step of the parser for one line. -/
def parseLine (lineNumber : Nat) (line : String) (st : ParseState) :
    Except ParseResult ParseState :=
  if trimChars line.data = [] then Except.ok st
  else if isCommentLine line.data then Except.ok st
  else
    match splitKeyValue line.data with
    | none => Except.error (ParseResult.formatError lineNumber line)
    | some (key, value) =>
      match fileFields.find? (fun f => f.directive = some key) with
      | none => Except.ok st
      | some f =>
        if f.type = GoType.stringSlice && !repeatedStyle key && key ∈ st.seen then
          Except.error (ParseResult.formatError lineNumber line)
        else
          match parseValue f key value st with
          | Except.error e => Except.error e
          | Except.ok v =>
            match st.config.setField f.name v with
            | some c => Except.ok ⟨c, key :: st.seen⟩
            | none => Except.ok st

/-- Modelled from the spec: the steps of the parser for the lines of a text, in
order; the first error ends the parse. -/
def parseLines : Nat → List String → ParseState → Except ParseResult ParseState
  | _, [], st => Except.ok st
  | n, line :: rest, st =>
    match parseLine n line st with
    | Except.error e => Except.error e
    | Except.ok st' => parseLines (n + 1) rest st'

/-- Modelled from the spec: the fields whose directive was never met take their
default. -/
def fillDefaults (st : ParseState) : List FieldDecl → File → File
  | [], c => c
  | f :: fs, c =>
    if f.directive.any (fun d => d ∈ st.seen) then fillDefaults st fs c
    else
      match (defaultValue f).bind (fun v => c.setField f.name v) with
      | some c' => fillDefaults st fs c'
      | none => fillDefaults st fs c

/-- Modelled from the spec: the parser on the lines of a text. -/
def parseTextLines (lines : List String) : ParseResult :=
  match parseLines 1 lines ⟨File.zero, []⟩ with
  | Except.error e => e
  | Except.ok st => ParseResult.ok (fillDefaults st fileFields st.config)

/-- Modelled from the spec: the parser `Parse` of section 4.3, absent from the
sources at hand.  A line is blank, a comment or `key = value`; anything else is
a format error.  An unknown key is ignored.  Boolean, integer and enumerated
values are validated; a repeated-line list gets one element per line, a
joined-line list is split at commas and may have one line only; a directive
never met takes its default. -/
def Parse (text : String) : ParseResult :=
  parseTextLines (textLines text)

instance : (v : Value) → Decidable v.newlineFree
  | Value.string s => inferInstanceAs (Decidable (noNewline s.data = true))
  | Value.strings l => inferInstanceAs (Decidable (∀ e ∈ l, noNewline e.data = true))
  | Value.bool _ => isTrue trivial
  | Value.int _ => isTrue trivial
  | Value.uint _ => isTrue trivial

instance (c : File) : Decidable c.newlineFree :=
  inferInstanceAs (Decidable (∀ p ∈ c.fields, p.2.newlineFree))

/-- A decimal literal of a non-negative integer: one or more decimal digits. -/
def isDecimalLiteral (s : String) : Bool :=
  s.data != [] && s.data.all Char.isDigit

/-- The number of positions of `s` at which an occurrence of `substr` starts. -/
def occurrences (s substr : String) : Nat :=
  ((List.range (s.length + 1)).filter (fun i => decide (occursAt s substr i))).length

/-- The default configuration with two bind paths and two container owners. -/
def listsConfig : File :=
  { defaultConfig with
    BindPath := ["/etc/hosts", "/etc/localtime"]
    LimitContainerOwners := ["alice", "bob"] }

/-! ## Configurations with a newline inside a value -/

/-- A configuration whose `MountDev` value holds a newline. -/
def mountDevTwoLines : File :=
  { File.zero with MountDev := "yes\nmount dev = no" }

/-- A configuration whose `ImageDriver` value holds a newline followed by a
bind-path line. -/
def imageDriverBindPath : File :=
  { File.zero with ImageDriver := "x\nbind path = /evil" }

/-- A configuration whose `ImageDriver` value holds a newline followed by a
line of the directive `limit container owners`. -/
def imageDriverOwners : File :=
  { File.zero with ImageDriver := "x\nlimit container owners = eve" }

/-- A configuration whose `ImageDriver` value holds a newline followed by a
line of the directive `cni plugin path`. -/
def imageDriverCni : File :=
  { File.zero with ImageDriver := "x\ncni plugin path = /evil" }

/-! ## Fields read by the template -/

namespace template

/-- The field of `File` that a piece reads, if it reads one. -/
def Sym.reads : Sym → Option String
  | Sym.static _ => none
  | Sym.print name => some name
  | Sym.boolSel name _ _ => some name
  | Sym.optLine name _ => some name
  | Sym.repeated name _ _ _ => some name
  | Sym.joined name _ _ _ _ => some name

end template

/-- The fields of `File` that `TemplateAsset` reads, in template order. -/
def templateFields : List String :=
  (template.itemSyms templateItems).filterMap template.Sym.reads

/-- The seven scalar fields whose directive appears in `TemplateAsset` in a
comment only. -/
def unrenderedFields : List String :=
  ["BinaryPath", "CryptsetupPath", "GoPath", "LdconfigPath", "MksquashfsPath",
    "NvidiaContainerCliPath", "UnsquashfsPath"]

/-- Two configurations differ only in the named fields: every other field has
the same value in both. -/
def agreeOutside (names : List String) (c c' : File) : Prop :=
  c.fields.filter (fun p => p.1 ∉ names) = c'.fields.filter (fun p => p.1 ∉ names)

instance (names : List String) (c c' : File) : Decidable (agreeOutside names c c') :=
  inferInstanceAs (Decidable
    (c.fields.filter (fun p => p.1 ∉ names) = c'.fields.filter (fun p => p.1 ∉ names)))

/-- The default configuration with the seven unrendered paths set. -/
def pathsConfig : File :=
  { defaultConfig with
    BinaryPath := "/opt/bin:/usr/bin"
    CryptsetupPath := "/sbin/cryptsetup"
    GoPath := "/usr/local/go/bin/go"
    LdconfigPath := "/sbin/ldconfig"
    MksquashfsPath := "/usr/bin/mksquashfs"
    NvidiaContainerCliPath := "/usr/bin/nvidia-container-cli"
    UnsquashfsPath := "/usr/bin/unsquashfs" }

/-- The configuration `c` with the empty-string elements removed from
`BindPath`. -/
def dropEmptyBinds (c : File) : File :=
  { c with BindPath := c.BindPath.filter (fun e => e ≠ "") }

/-- A configuration with an empty bind path and one that holds a newline. -/
def bindPathTwoLines : File :=
  { File.zero with BindPath := ["", "a\nbind path = b"] }

/-- The default configuration with four bind paths, two of them empty. -/
def emptyBindsConfig : File :=
  { defaultConfig with BindPath := ["", "/etc/hosts", "", "/etc/localtime"] }

/-- A configuration with the single container owner `a, b`. -/
def ownersJoined : File :=
  { File.zero with LimitContainerOwners := ["a, b"] }

/-- A configuration with the two container owners `a` and `b`. -/
def ownersSplit : File :=
  { File.zero with LimitContainerOwners := ["a", "b"] }

/-! ## Newlines in scalar strings only -/

/-- A scalar string value holds no newline; a list is not restricted. -/
def Value.scalarNewlineFree : Value → Prop
  | Value.string s => noNewline s.data = true
  | _ => True

/-- No scalar string value of a configuration holds a newline; the elements of
its lists are not restricted. -/
def File.scalarNewlineFree (c : File) : Prop :=
  ∀ p ∈ c.fields, p.2.scalarNewlineFree

instance : (v : Value) → Decidable v.scalarNewlineFree
  | Value.string s => inferInstanceAs (Decidable (noNewline s.data = true))
  | Value.strings _ => isTrue trivial
  | Value.bool _ => isTrue trivial
  | Value.int _ => isTrue trivial
  | Value.uint _ => isTrue trivial

instance (c : File) : Decidable c.scalarNewlineFree :=
  inferInstanceAs (Decidable (∀ p ∈ c.fields, p.2.scalarNewlineFree))

/-- A configuration with `AllowSetuid` true whose only bind path holds a
newline followed by a line of the directive `allow setuid`. -/
def bindPathSetuid : File :=
  { File.zero with
    AllowSetuid := true
    BindPath := ["/x\nallow setuid = no"] }

/-! ## Lemmas on the text search and replacement -/

namespace strings

theorem indexChars_at_start {t s : List Char} (h : t <+: s) :
    indexChars t s = some 0 := by
  have hb : t.isPrefixOf s = true := List.isPrefixOf_iff_prefix.mpr h
  cases s with
  | nil => simp [indexChars, hb]
  | cons c cs => simp [indexChars, hb]

theorem indexChars_skip_char {t : List Char} {c : Char} {cs : List Char}
    (h : ¬ t <+: c :: cs) :
    indexChars t (c :: cs) = (indexChars t cs).map Nat.succ := by
  have hb : t.isPrefixOf (c :: cs) = false := by
    cases hx : t.isPrefixOf (c :: cs) with
    | false => rfl
    | true => exact absurd (List.isPrefixOf_iff_prefix.mp hx) h
  simp [indexChars, hb]

/-- The first instance is found where it starts: after a text `a` inside which
no instance starts. -/
theorem indexChars_first (t : List Char) (a rest : List Char) (hp : t <+: rest)
    (hfirst : ∀ i, i < a.length → ¬ t <+: (a ++ rest).drop i) :
    indexChars t (a ++ rest) = some a.length := by
  induction a with
  | nil => simpa using indexChars_at_start hp
  | cons c cs ih =>
    have h0 : ¬ t <+: c :: (cs ++ rest) := by
      simpa using hfirst 0 (by simp)
    have hrec : ∀ i, i < cs.length → ¬ t <+: (cs ++ rest).drop i := by
      intro i hi
      simpa using hfirst (i + 1) (by simpa using hi)
    rw [List.cons_append, indexChars_skip_char h0, ih hrec]
    rfl

/-- No instance is found in a text in which none starts anywhere. -/
theorem indexChars_none (t s : List Char) (h : ∀ i, ¬ t <+: s.drop i) :
    indexChars t s = none := by
  induction s with
  | nil =>
    have hb : t.isPrefixOf [] = false := by
      cases hx : t.isPrefixOf ([] : List Char) with
      | false => rfl
      | true => exact absurd (List.isPrefixOf_iff_prefix.mp hx) (by simpa using h 0)
    simp [indexChars, hb]
  | cons c cs ih =>
    have h0 : ¬ t <+: c :: cs := by simpa using h 0
    have hrec : ∀ i, ¬ t <+: cs.drop i := fun i => by simpa using h (i + 1)
    rw [indexChars_skip_char h0, ih hrec]
    rfl

/-- Replacing once puts `new` in place of the first instance of `old`. -/
theorem replaceChars_first (a b old new : List Char) (hne : old ≠ [])
    (hfirst : ∀ i, i < a.length → ¬ old <+: (a ++ (old ++ b)).drop i) :
    replaceChars (a ++ (old ++ b)) old new 1 = a ++ (new ++ b) := by
  have hidx : indexChars old (a ++ (old ++ b)) = some a.length :=
    indexChars_first old a (old ++ b) (List.prefix_append old b) hfirst
  by_cases hon : old = new
  · simp [replaceChars, hon]
  · have hcount : countChars (a ++ (old ++ b)) old ≠ 0 := by
      simp [countChars, hne, countLoop, hidx]
    have hrounds : ¬ ((countChars (a ++ (old ++ b)) old : Int) < 1) := by
      omega
    simp [replaceChars, hon, hcount, hrounds, hne, replaceLoop, hidx]

/-- Replacing changes nothing in a text without an instance of `old`. -/
theorem replaceChars_absent (s old new : List Char) (n : Int) (hne : old ≠ [])
    (hidx : indexChars old s = none) :
    replaceChars s old new n = s := by
  have hcount : countChars s old = 0 := by
    simp [countChars, hne, countLoop, hidx]
  simp [replaceChars, hcount]

/-- An instance of `t` cannot begin in `u` and end in `rest` when no non-empty
tail of `t` is a prefix of `rest`. -/
theorem not_prefix_append (t : List Char) (rest : List Char)
    (htail : ∀ t' ∈ t.tails, t' ≠ [] → ¬ t' <+: rest) (u : List Char)
    (hu : ¬ t <+: u) : ¬ t <+: u ++ rest := by
  induction t generalizing u with
  | nil => exact absurd (List.nil_prefix) hu
  | cons x xs ih =>
    cases u with
    | nil =>
      simpa using htail (x :: xs) (by simp) (by simp)
    | cons c cs =>
      intro h
      rw [List.cons_append, List.cons_prefix_cons] at h
      have htail' : ∀ t' ∈ xs.tails, t' ≠ [] → ¬ t' <+: rest := by
        intro t' ht'
        exact htail t' (by simp [ht'])
      refine ih htail' cs (fun hcs => hu ?_) h.2
      rw [List.cons_prefix_cons]
      exact ⟨h.1, hcs⟩

/-- Appending `rest` to a text without an instance of `t` creates none, when
`rest` has none and no non-empty tail of `t` is a prefix of `rest`. -/
theorem indexChars_append_none (t : List Char) (rest : List Char)
    (hrest : indexChars t rest = none)
    (htail : ∀ t' ∈ t.tails, t' ≠ [] → ¬ t' <+: rest) (u : List Char)
    (hu : ∀ i, ¬ t <+: u.drop i) :
    indexChars t (u ++ rest) = none := by
  induction u with
  | nil => simpa using hrest
  | cons c cs ih =>
    have h0 : ¬ t <+: c :: cs := by simpa using hu 0
    have hrec : ∀ i, ¬ t <+: cs.drop i := fun i => by simpa using hu (i + 1)
    have h0' : ¬ t <+: c :: (cs ++ rest) := by
      simpa using not_prefix_append t rest htail (c :: cs) h0
    rw [List.cons_append, indexChars_skip_char h0', ih hrec]
    rfl

/-- Where the search finds no instance, none starts at any position. -/
theorem not_prefix_drop_of_indexChars_none (t s : List Char)
    (h : indexChars t s = none) (i : Nat) : ¬ t <+: s.drop i := by
  induction s generalizing i with
  | nil =>
    intro hp
    rw [List.drop_nil] at hp
    rw [indexChars_at_start hp] at h
    cases h
  | cons c cs ih =>
    have h0 : ¬ t <+: c :: cs := by
      intro hp
      rw [indexChars_at_start hp] at h
      cases h
    cases i with
    | zero => simpa using h0
    | succ k =>
      rw [indexChars_skip_char h0] at h
      have hcs : indexChars t cs = none := by
        cases hx : indexChars t cs with
        | none => rfl
        | some j => rw [hx] at h; cases h
      simpa using ih hcs k

/-- String form of `replaceChars_first`. -/
theorem Replace_first (a b old new : String) (hne : old ≠ "")
    (hfirst : ∀ i, i < a.length → ¬ old.data <+: (a ++ old ++ b).data.drop i) :
    Replace (a ++ old ++ b) old new 1 = a ++ new ++ b := by
  have hne' : old.data ≠ [] := fun h => hne (String.ext h)
  apply String.ext
  simp only [Replace, String.data_append, List.append_assoc] at hfirst ⊢
  exact replaceChars_first a.data b.data old.data new.data hne' hfirst

/-- String form of `replaceChars_absent`. -/
theorem Replace_absent (s old new : String) (n : Int) (hne : old ≠ "")
    (hidx : indexChars old.data s.data = none) :
    Replace s old new n = s := by
  have hne' : old.data ≠ [] := fun h => hne (String.ext h)
  apply String.ext
  simp only [Replace]
  exact replaceChars_absent s.data old.data new.data n hne' hidx

end strings

/-! ## The build adapter -/

/-- Claim C1: after `ApplyBuildConfig` the bind-path list is empty and the
resolv.conf, home-mount and devpts-mount booleans are false, whatever the
configuration was before. -/
theorem ApplyBuildConfig_clears (c : File) :
    (ApplyBuildConfig c).BindPath = [] ∧
    (ApplyBuildConfig c).ConfigResolvConf = false ∧
    (ApplyBuildConfig c).MountHome = false ∧
    (ApplyBuildConfig c).MountDevPts = false :=
  ⟨rfl, rfl, rfl, rfl⟩

/-- Claim C2: `ApplyBuildConfig` is idempotent: applying it twice gives the
same configuration, field for field, as applying it once. -/
theorem ApplyBuildConfig_idempotent (c : File) :
    ApplyBuildConfig (ApplyBuildConfig c) = ApplyBuildConfig c :=
  rfl

/-! ## The registry -/

/-- Claim C7: the registry is last-write-wins: right after `SetCurrentConfig c`
the getter returns `c`, whatever was installed before, and after any sequence
of `SetCurrentConfig` calls it returns the argument of the last call. -/
theorem GetCurrentConfig_last_write_wins :
    (∀ (g : Globals) (c : Option File),
      GetCurrentConfig (SetCurrentConfig c g) = c) ∧
    (∀ (g : Globals) (earlier : List (Option File)) (c : Option File),
      GetCurrentConfig
        ((earlier ++ [c]).foldl (fun g' c' => SetCurrentConfig c' g') g) = c) := by
  refine ⟨fun _ _ => rfl, fun g earlier c => ?_⟩
  rw [List.foldl_append]
  rfl

/-- Claim C8: before any `SetCurrentConfig` call the getter returns the unset
value `nil`, which differs from what it returns once a zero-valued
configuration is installed. -/
theorem GetCurrentConfig_initially_unset :
    GetCurrentConfig Globals.initial = none ∧
    GetCurrentConfig Globals.initial ≠
      GetCurrentConfig (SetCurrentConfig (some File.zero) Globals.initial) := by
  refine ⟨rfl, ?_⟩
  intro h
  cases h

/-! ## The path resolver -/

/-- Claim C6: `SetBinaryPath` ends in the fatal error exactly when no
configuration is installed; with a configuration installed it returns. -/
theorem SetBinaryPath_fatal_iff_unset (subPath : Bool) (env : Environ) :
    (∀ g : Globals,
      (∃ msg, SetBinaryPath subPath env g = Except.error msg) ↔
        g.currentConfig = none) ∧
    (∀ config : File,
      ∃ g', SetBinaryPath subPath env ⟨some config⟩ = Except.ok g') := by
  constructor
  · rintro ⟨cur⟩
    cases cur with
    | none => simp [SetBinaryPath, sylog.Fatalf]
    | some config => simp [SetBinaryPath]
  · intro config
    exact ⟨_, rfl⟩

/-- Claim C3: with the user's path wanted and `PATH` set to a non-empty `p`,
`SetBinaryPath` turns a binary path `a ++ "$PATH:" ++ b`, with no instance of
the token starting inside `a`, into `a ++ p ++ ":" ++ b`; from the default
binary path and `PATH=/usr/bin:/bin` the result is
`/usr/bin:/bin:/usr/local/sbin:/usr/local/bin:/usr/sbin:/usr/bin:/sbin:/bin`. -/
theorem SetBinaryPath_substitutes_user_path :
    (∀ (config : File) (a b p : String) (env : Environ),
      config.BinaryPath = a ++ "$PATH:" ++ b →
      (∀ i, i < a.length → ¬ occursAt config.BinaryPath "$PATH:" i) →
      Getenv env "PATH" = p → p ≠ "" →
      SetBinaryPath true env ⟨some config⟩ =
        Except.ok ⟨some { config with BinaryPath := a ++ p ++ ":" ++ b }⟩) ∧
    (∀ (config : File) (env : Environ),
      config.BinaryPath = defaultBinaryPath →
      Getenv env "PATH" = "/usr/bin:/bin" →
      SetBinaryPath true env ⟨some config⟩ =
        Except.ok ⟨some { config with BinaryPath :=
          "/usr/bin:/bin:/usr/local/sbin:/usr/local/bin:/usr/sbin:/usr/bin:/sbin:/bin" }⟩) := by
  constructor
  · intro config a b p env hbp hfirst hp hne
    have hrep : strings.Replace config.BinaryPath "$PATH:" (p ++ ":") 1 =
        a ++ p ++ ":" ++ b := by
      rw [hbp] at hfirst ⊢
      rw [strings.Replace_first a b "$PATH:" (p ++ ":") (by decide) hfirst,
        String.append_assoc a p ":"]
    simp only [SetBinaryPath, hp, if_pos, ne_eq, hne, not_false_eq_true, hrep]
  · intro config env hbp hp
    have hrep : strings.Replace config.BinaryPath "$PATH:" "/usr/bin:/bin:" 1 =
        "/usr/bin:/bin:/usr/local/sbin:/usr/local/bin:/usr/sbin:/usr/bin:/sbin:/bin" := by
      rw [hbp]
      decide
    have hpath : ("/usr/bin:/bin" : String) ++ ":" = "/usr/bin:/bin:" := by decide
    have hne : ("/usr/bin:/bin" : String) ≠ "" := by decide
    simp only [SetBinaryPath, hp, if_pos, ne_eq, hne, not_false_eq_true, hpath, hrep]

/-- Claim C4: when the user's path is not wanted, or is wanted but `PATH` is
empty, `SetBinaryPath` turns a binary path `a ++ "$PATH:" ++ b`, with no
instance of the token starting inside `a`, into `a ++ b`. -/
theorem SetBinaryPath_removes_token (config : File) (a b : String)
    (subPath : Bool) (env : Environ)
    (hbp : config.BinaryPath = a ++ "$PATH:" ++ b)
    (hfirst : ∀ i, i < a.length → ¬ occursAt config.BinaryPath "$PATH:" i)
    (hcase : subPath = false ∨ (subPath = true ∧ Getenv env "PATH" = "")) :
    SetBinaryPath subPath env ⟨some config⟩ =
      Except.ok ⟨some { config with BinaryPath := a ++ b }⟩ := by
  have hrep : strings.Replace config.BinaryPath "$PATH:" "" 1 = a ++ b := by
    rw [hbp] at hfirst ⊢
    rw [strings.Replace_first a b "$PATH:" "" (by decide) hfirst, String.append_empty]
  rcases hcase with h | ⟨h, hp⟩
  · subst h
    simp [SetBinaryPath, hrep]
  · subst h
    simp [SetBinaryPath, hp, hrep]

/-- The hypotheses of claim C3 hold for a binary path with two tokens, and only
the first token is replaced. -/
theorem SetBinaryPath_substitutes_user_path_witness :
    twoTokenConfig.BinaryPath = "/opt/bin:" ++ "$PATH:" ++ "/sbin:$PATH:/bin" ∧
    (∀ i, i < ("/opt/bin:" : String).length →
      ¬ occursAt twoTokenConfig.BinaryPath "$PATH:" i) ∧
    SetBinaryPath true (envWithPath "/home/u/bin") ⟨some twoTokenConfig⟩ =
      Except.ok ⟨some { twoTokenConfig with
        BinaryPath := "/opt/bin:/home/u/bin:/sbin:$PATH:/bin" }⟩ ∧
    SetBinaryPath true (envWithPath "/usr/bin:/bin") ⟨some defaultPathConfig⟩ =
      Except.ok ⟨some { defaultPathConfig with BinaryPath :=
        "/usr/bin:/bin:/usr/local/sbin:/usr/local/bin:/usr/sbin:/usr/bin:/sbin:/bin" }⟩ :=
  ⟨by decide, by decide,
   SetBinaryPath_substitutes_user_path.1 twoTokenConfig "/opt/bin:" "/sbin:$PATH:/bin"
    "/home/u/bin" (envWithPath "/home/u/bin") (by decide) (by decide) (by decide)
    (by decide),
   SetBinaryPath_substitutes_user_path.2 defaultPathConfig (envWithPath "/usr/bin:/bin")
    (by decide) (by decide)⟩

/-- The hypotheses of claim C4 hold for a binary path with two tokens, with the
user's path not wanted: the first token is removed, the second stays. -/
theorem SetBinaryPath_removes_token_witness :
    twoTokenConfig.BinaryPath = "/opt/bin:" ++ "$PATH:" ++ "/sbin:$PATH:/bin" ∧
    (∀ i, i < ("/opt/bin:" : String).length →
      ¬ occursAt twoTokenConfig.BinaryPath "$PATH:" i) ∧
    SetBinaryPath false (envWithPath "/home/u/bin") ⟨some twoTokenConfig⟩ =
      Except.ok ⟨some { twoTokenConfig with
        BinaryPath := "/opt/bin:/sbin:$PATH:/bin" }⟩ :=
  ⟨by decide, by decide,
   SetBinaryPath_removes_token twoTokenConfig "/opt/bin:" "/sbin:$PATH:/bin" false
    (envWithPath "/home/u/bin") (by decide) (by decide) (Or.inl rfl)⟩

/-- With a configuration installed, `SetBinaryPath` returns the configuration
with the replaced binary path. -/
theorem SetBinaryPath_some (subPath : Bool) (env : Environ) (config : File) :
    SetBinaryPath subPath env ⟨some config⟩ =
      Except.ok ⟨some { config with
        BinaryPath := strings.Replace config.BinaryPath "$PATH:"
          (if subPath then
            (if Getenv env "PATH" ≠ "" then Getenv env "PATH" ++ ":" else Getenv env "PATH")
           else "") 1 }⟩ :=
  rfl

/-- Replacing the token of the default binary path by a text `u` without the
token gives `u` followed by the default directories, a text without the token. -/
theorem Replace_default_once (u : String)
    (hu : ∀ i, ¬ occursAt u "$PATH:" i) :
    strings.Replace defaultBinaryPath "$PATH:" u 1 = u ++ defaultPathTail ∧
    ∀ (new : String) (n : Int),
      strings.Replace (u ++ defaultPathTail) "$PATH:" new n = u ++ defaultPathTail := by
  constructor
  · have hdef : defaultBinaryPath = "" ++ "$PATH:" ++ defaultPathTail := by decide
    rw [hdef, strings.Replace_first "" defaultPathTail "$PATH:" u (by decide)
      (fun i hi => absurd hi (Nat.not_lt_zero i))]
    exact String.ext (by simp)
  · intro new n
    apply strings.Replace_absent _ _ _ _ (by decide)
    rw [String.data_append]
    exact strings.indexChars_append_none _ _ (by decide) (by decide) _ hu

/-- Claim C5, as stated, fails: with `PATH=/opt/bin:$PATH` a first call on the
default binary path leaves the token in place, and a second call with the same
arguments replaces it again, so the binary path changes. -/
theorem SetBinaryPath_second_call_changes :
    binaryPathOf
      (SetBinaryPath true (envWithPath "/opt/bin:$PATH") ⟨some defaultPathConfig⟩) =
      some "/opt/bin:$PATH:/usr/local/sbin:/usr/local/bin:/usr/sbin:/usr/bin:/sbin:/bin" ∧
    binaryPathOf
      (SetBinaryPath true (envWithPath "/opt/bin:$PATH") ⟨some defaultPathConfig⟩ >>=
        SetBinaryPath true (envWithPath "/opt/bin:$PATH")) =
      some ("/opt/bin:/opt/bin:$PATH:" ++
        "/usr/local/sbin:/usr/local/bin:/usr/sbin:/usr/bin:/sbin:/bin") ∧
    binaryPathOf
      (SetBinaryPath true (envWithPath "/opt/bin:$PATH") ⟨some defaultPathConfig⟩ >>=
        SetBinaryPath true (envWithPath "/opt/bin:$PATH")) ≠
    binaryPathOf
      (SetBinaryPath true (envWithPath "/opt/bin:$PATH") ⟨some defaultPathConfig⟩) := by
  decide

/-- Claim C5, amended: starting from the default binary path, if the first call
does not want the user's path, or `PATH` followed by `:` holds no instance of
the token `$PATH:`, then the first call returns and a second call, with any
flag and any environment, returns the same globals: the binary path (and
everything else) is unchanged. -/
theorem SetBinaryPath_single_shot (config : File) (sub1 sub2 : Bool)
    (env1 env2 : Environ)
    (hdef : config.BinaryPath = defaultBinaryPath)
    (hclean : sub1 = true → ∀ i, ¬ occursAt (Getenv env1 "PATH" ++ ":") "$PATH:" i) :
    ∃ g1, SetBinaryPath sub1 env1 ⟨some config⟩ = Except.ok g1 ∧
      SetBinaryPath sub2 env2 g1 = Except.ok g1 := by
  have hempty : ∀ i, ¬ occursAt "" "$PATH:" i := by
    intro i
    simp [occursAt]
  have hu : ∀ i, ¬ occursAt
      (if sub1 then
        (if Getenv env1 "PATH" ≠ "" then Getenv env1 "PATH" ++ ":" else Getenv env1 "PATH")
       else "") "$PATH:" i := by
    cases sub1 with
    | false => exact hempty
    | true =>
      by_cases hp : Getenv env1 "PATH" = ""
      · simpa [hp] using hempty
      · simpa [hp] using hclean rfl
  obtain ⟨h1, h2⟩ := Replace_default_once _ hu
  refine ⟨_, SetBinaryPath_some sub1 env1 config, ?_⟩
  rw [SetBinaryPath_some]
  simp only [hdef, h1, h2]

/-- The hypotheses of the amended claim C5 hold for the default binary path and
`PATH=/usr/bin:/bin`: the second call, here without the user's path, changes
nothing. -/
theorem SetBinaryPath_single_shot_witness :
    defaultPathConfig.BinaryPath = defaultBinaryPath ∧
    (∀ i, ¬ occursAt (Getenv (envWithPath "/usr/bin:/bin") "PATH" ++ ":") "$PATH:" i) ∧
    ∃ g1, SetBinaryPath true (envWithPath "/usr/bin:/bin") ⟨some defaultPathConfig⟩ =
        Except.ok g1 ∧
      SetBinaryPath false (envWithPath "") g1 = Except.ok g1 :=
  ⟨by decide,
   strings.not_prefix_drop_of_indexChars_none _ _ (by decide),
   SetBinaryPath_single_shot defaultPathConfig true false (envWithPath "/usr/bin:/bin")
    (envWithPath "") (by decide)
    (fun _ => strings.not_prefix_drop_of_indexChars_none _ _ (by decide))⟩

/-! ## The catalog of struct tags -/

set_option maxRecDepth 100000 in
/-- Claim C9: every field of `File` declares exactly one `directive` tag, and no
two fields declare the same directive name. -/
theorem directive_names_unique :
    (∀ f ∈ fileFields, (tagValues f.tag "directive").length = 1) ∧
    (fileFields.map FieldDecl.directive).Nodup := by
  decide

set_option maxRecDepth 100000 in
/-- Claim C10: for every field of `File` that declares both an authorized set and
a default, the default is one of the comma-separated members of that set. -/
theorem default_in_authorized (f : FieldDecl) (hf : f ∈ fileFields)
    (d : String) (hd : f.default = some d)
    (a : List String) (ha : f.authorized = some a) : d ∈ a := by
  have hall : ∀ g ∈ fileFields,
      (match g.default, g.authorized with
        | some d', some a' => decide (d' ∈ a')
        | _, _ => true) = true := by
    decide
  have h := hall f hf
  rw [hd, ha] at h
  simpa using h

set_option maxRecDepth 100000 in
/-- The field `EnableOverlay` declares the default `try`, which is in its
authorized set. -/
theorem default_in_authorized_witness :
    (⟨"EnableOverlay", GoType.string,
        "default:\"try\" authorized:\"yes,no,try,driver\" directive:\"enable overlay\""⟩
      : FieldDecl) ∈ fileFields ∧
    "try" ∈ ["yes", "no", "try", "driver"] :=
  ⟨by decide,
   default_in_authorized
    ⟨"EnableOverlay", GoType.string,
      "default:\"try\" authorized:\"yes,no,try,driver\" directive:\"enable overlay\""⟩
    (by decide) "try" (by decide) ["yes", "no", "try", "driver"] (by decide)⟩

/-! ## Lemmas on lines -/

theorem splitLines_ne_nil (s : List Char) : splitLines s ≠ [] := by
  cases s with
  | nil => simp [splitLines]
  | cons c cs =>
    unfold splitLines
    split
    · simp
    · split <;> simp

/-- Lines of a text cut at a newline: the lines before it, then the lines
after it. -/
theorem splitLines_append_newline (a b : List Char) :
    splitLines (a ++ '\n' :: b) = splitLines a ++ splitLines b := by
  induction a with
  | nil => simp [splitLines]
  | cons c cs ih =>
    by_cases hc : c = '\n'
    · simp [splitLines, hc, ih]
    · have hne := splitLines_ne_nil cs
      cases hcs : splitLines cs with
      | nil => exact absurd hcs hne
      | cons l ls => simp [splitLines, hc, ih, hcs]

theorem noNewline_cons {c : Char} {cs : List Char} :
    noNewline (c :: cs) = true ↔ c ≠ '\n' ∧ noNewline cs = true := by
  have h : ('\n' = c) ↔ (c = '\n') := eq_comm
  simp [noNewline, List.elem_eq_mem, not_or, h]

theorem noNewline_append {a b : List Char} :
    noNewline (a ++ b) = true ↔ noNewline a = true ∧ noNewline b = true := by
  simp [noNewline, List.elem_eq_mem, not_or]

/-- A text without a newline is a single line. -/
theorem splitLines_noNewline (s : List Char) (h : noNewline s = true) :
    splitLines s = [s] := by
  induction s with
  | nil => rfl
  | cons c cs ih =>
    obtain ⟨hc, hcs⟩ := noNewline_cons.mp h
    simp [splitLines, hc, ih hcs]

/-! ## The template text, line by line -/

namespace template

theorem cutLines_line (body rest : List Char) (h : noNewline body = true) :
    cutLines (body ++ '\n' :: rest) = (body ++ ['\n']) :: cutLines rest := by
  induction body with
  | nil => simp [cutLines]
  | cons c cs ih =>
    obtain ⟨hc, hcs⟩ := noNewline_cons.mp h
    simp [cutLines, hc, ih hcs]

/-- Cutting the joined lines gives the lines back. -/
theorem cutLines_join (lines : List (List Char)) (h : ∀ l ∈ lines, isLine l = true) :
    cutLines (lines.foldr (fun l r => l ++ r) []) = lines := by
  induction lines with
  | nil => rfl
  | cons l ls ih =>
    have hl := h l (by simp)
    simp only [isLine, Bool.and_eq_true, beq_iff_eq] at hl
    have ih' := ih (fun x hx => h x (by simp [hx]))
    simp only [List.foldr_cons]
    conv_lhs => rw [← hl.1]
    rw [List.append_assoc, List.singleton_append, cutLines_line _ _ hl.2, ih', hl.1]

end template

theorem data_foldr_append (lines : List String) :
    (lines.foldr (fun line rest => line ++ rest) "").data =
      (lines.map String.data).foldr (fun l r => l ++ r) [] := by
  induction lines with
  | nil => rfl
  | cons l ls ih => simp [String.data_append, ih]

set_option maxRecDepth 1000000 in
theorem templateLines_isLine :
    ∀ l ∈ templateLines.map String.data, template.isLine l = true := by
  decide!

/-- Parsing `TemplateAsset` gives the nodes read line by line. -/
theorem parse_TemplateAsset : template.parse TemplateAsset = templateParse := by
  unfold template.parse template.lex TemplateAsset templateParse
  rw [data_foldr_append, template.cutLines_join _ templateLines_isLine]

namespace template

mutual
theorem Node.eq_of_beq : ∀ (a b : Node), Node.beq a b = true → a = b
  | Node.text a, Node.text b, h => by
    simp only [Node.beq, beq_iff_eq] at h
    rw [h]
  | Node.action p, Node.action q, h => by
    simp only [Node.beq, beq_iff_eq] at h
    rw [h]
  | Node.ifNode c t e, Node.ifNode c' t' e', h => by
    simp only [Node.beq, Bool.and_eq_true, beq_iff_eq] at h
    rw [h.1.1, eq_of_beqList t t' h.1.2, eq_of_beqList e e' h.2]
  | Node.rangeNode v o b, Node.rangeNode v' o' b', h => by
    simp only [Node.beq, Bool.and_eq_true, beq_iff_eq] at h
    rw [h.1.1, h.1.2, eq_of_beqList b b' h.2]
  | Node.text _, Node.action _, h => by simp [Node.beq] at h
  | Node.text _, Node.ifNode _ _ _, h => by simp [Node.beq] at h
  | Node.text _, Node.rangeNode _ _ _, h => by simp [Node.beq] at h
  | Node.action _, Node.text _, h => by simp [Node.beq] at h
  | Node.action _, Node.ifNode _ _ _, h => by simp [Node.beq] at h
  | Node.action _, Node.rangeNode _ _ _, h => by simp [Node.beq] at h
  | Node.ifNode _ _ _, Node.text _, h => by simp [Node.beq] at h
  | Node.ifNode _ _ _, Node.action _, h => by simp [Node.beq] at h
  | Node.ifNode _ _ _, Node.rangeNode _ _ _, h => by simp [Node.beq] at h
  | Node.rangeNode _ _ _, Node.text _, h => by simp [Node.beq] at h
  | Node.rangeNode _ _ _, Node.action _, h => by simp [Node.beq] at h
  | Node.rangeNode _ _ _, Node.ifNode _ _ _, h => by simp [Node.beq] at h
theorem eq_of_beqList : ∀ (as bs : List Node), beqList as bs = true → as = bs
  | [], [], _ => rfl
  | a :: as, b :: bs, h => by
    simp only [beqList, Bool.and_eq_true] at h
    rw [Node.eq_of_beq a b h.1, eq_of_beqList as bs h.2]
  | [], _ :: _, h => by simp [beqList] at h
  | _ :: _, [], h => by simp [beqList] at h
end

end template

set_option maxRecDepth 1000000 in
theorem templateParse_isSome : templateParse.isSome = true := by
  decide!

set_option maxRecDepth 1000000 in
theorem templateNodes_beq :
    template.beqList templateNodes (templateSyms.map template.Sym.toNode) = true := by
  decide!

/-- The nodes of `TemplateAsset` are those of its top-level pieces. -/
theorem parse_eq_syms :
    template.parse TemplateAsset = some (templateSyms.map template.Sym.toNode) := by
  rw [parse_TemplateAsset, ← template.eq_of_beqList _ _ templateNodes_beq]
  have h := templateParse_isSome
  unfold templateNodes
  cases hp : templateParse with
  | none => rw [hp] at h; cases h
  | some ns => rfl

namespace template

theorem joinChars_cons (sep : List Char) (e : String) (es : List String) :
    joinChars sep (e :: es) = e.data ++ sepTail sep es := by
  induction es generalizing e with
  | nil => simp [joinChars, sepTail]
  | cons e2 es ih => simp [joinChars, sepTail, ih e2]

theorem exec_static (c : File) (s : List Char) :
    execNode (Data.record c) [] (Sym.static s).toNode = (Sym.static s).out c := by
  simp [Sym.toNode, Sym.out, execNode]

theorem exec_print (c : File) (name : String) :
    execNode (Data.record c) [] (Sym.print name).toNode = (Sym.print name).out c := by
  simp [Sym.toNode, Sym.out, execNode, evalPipeline, evalOperand]

theorem exec_boolSel (c : File) (name : String) (yes no : List Char) :
    execNode (Data.record c) [] (Sym.boolSel name yes no).toNode =
      (Sym.boolSel name yes no).out c := by
  simp only [Sym.toNode, Sym.out, execNode, evalPipeline, evalOperand]
  cases hf : c.field name with
  | none => simp
  | some v =>
    cases v with
    | bool b => cases b <;> simp [valueEq, truth, execList, execNode]
    | int i => simp [valueEq]
    | uint n => simp [valueEq]
    | string s => simp [valueEq]
    | strings l => simp [valueEq]

theorem exec_optLine (c : File) (name : String) (pre : List Char) :
    execNode (Data.record c) [] (Sym.optLine name pre).toNode =
      (Sym.optLine name pre).out c := by
  simp only [Sym.toNode, Sym.out, execNode, evalPipeline, evalOperand]
  cases hf : c.field name with
  | none => simp
  | some v =>
    cases v with
    | bool b => simp [valueEq]
    | int i => simp [valueEq]
    | uint n => simp [valueEq]
    | string s =>
      by_cases hs : s = ""
      · simp [valueEq, truth, execList, hs]
      · simp [valueEq, truth, execList, execNode, evalPipeline, evalOperand, hf, hs,
          printValue]
    | strings l => simp [valueEq]

theorem body_repeated (var : String) (pre post : List Char) :
    (fun (i : Nat) (e : String) =>
      execList (Data.value (Value.string e)) (bindRange [var] i e [])
        [Node.ifNode (Pipeline.ne (Operand.variable var) (Operand.strLit ""))
          [Node.text pre, Node.action (Pipeline.operand (Operand.variable var)),
            Node.text post] []]) =
    fun _ e => some (if e = "" then [] else pre ++ (e.data ++ post)) := by
  funext i e
  by_cases he : e = ""
  · simp [execList, execNode, evalPipeline, evalOperand, bindRange, valueEq, truth, he]
  · simp [execList, execNode, evalPipeline, evalOperand, bindRange, valueEq, truth, he,
      printValue]

theorem rangeLoop_repeated (pre post : List Char) (l : List String) (i : Nat) :
    rangeLoop (fun _ e => some (if e = "" then [] else pre ++ (e.data ++ post))) i l =
      some (repeatedOut pre post l) := by
  induction l generalizing i with
  | nil => simp [rangeLoop, repeatedOut]
  | cons e es ih => simp [rangeLoop, repeatedOut, ih]

theorem exec_repeated (c : File) (name var : String) (pre post : List Char) :
    execNode (Data.record c) [] (Sym.repeated name var pre post).toNode =
      (Sym.repeated name var pre post).out c := by
  simp only [Sym.toNode, Sym.out, execNode, evalPipeline, evalOperand]
  cases hf : c.field name with
  | none => simp
  | some v =>
    cases v with
    | strings l => simp only [body_repeated, rangeLoop_repeated]
    | bool b => simp
    | int i => simp
    | uint n => simp
    | string s => simp

theorem body_joined (idx var : String) (h : idx ≠ var) (first sep : List Char) :
    (fun (i : Nat) (e : String) =>
      execList (Data.value (Value.string e)) (bindRange [idx, var] i e [])
        [Node.ifNode (Pipeline.eq (Operand.variable idx) (Operand.intLit 0))
          [Node.text first] [Node.text sep],
         Node.action (Pipeline.operand (Operand.variable var))]) =
    fun i e => some ((if i = 0 then first else sep) ++ e.data) := by
  have h' : ¬ var = idx := fun x => h x.symm
  funext i e
  by_cases hi : i = 0
  · simp [execList, execNode, evalPipeline, evalOperand, bindRange, valueEq, truth,
      printValue, h', hi]
  · have hi' : ¬ ((i : Int) = 0) := by omega
    simp [execList, execNode, evalPipeline, evalOperand, bindRange, valueEq, truth,
      printValue, h', hi, hi']

theorem rangeLoop_joined (first sep : List Char) (l : List String) (i : Nat) :
    rangeLoop (fun i e => some ((if i = 0 then first else sep) ++ e.data)) (i + 1) l =
      some (sepTail sep l) := by
  induction l generalizing i with
  | nil => simp [rangeLoop, sepTail]
  | cons e es ih => simp [rangeLoop, sepTail, ih]

theorem exec_joined (c : File) (name idx var : String) (first sep : List Char)
    (h : (Sym.joined name idx var first sep).wf = true) :
    execNode (Data.record c) [] (Sym.joined name idx var first sep).toNode =
      (Sym.joined name idx var first sep).out c := by
  have hne : idx ≠ var := by simpa [Sym.wf] using h
  have h' : ¬ var = idx := fun x => hne x.symm
  simp only [Sym.toNode, Sym.out, execNode, evalPipeline, evalOperand]
  cases hf : c.field name with
  | none => simp
  | some v =>
    cases v with
    | strings l =>
      simp only [body_joined idx var hne]
      cases l with
      | nil => simp [rangeLoop, joinedOut]
      | cons e es =>
        simp [rangeLoop, joinedOut, rangeLoop_joined, joinChars_cons]
    | bool b => simp
    | int i => simp
    | uint n => simp
    | string s => simp

/-- Running the node of a well-formed piece gives the output of the piece. -/
theorem exec_toNode (c : File) (s : Sym) (h : s.wf = true) :
    execNode (Data.record c) [] s.toNode = s.out c := by
  cases s with
  | static t => exact exec_static c t
  | print name => exact exec_print c name
  | boolSel name yes no => exact exec_boolSel c name yes no
  | optLine name pre => exact exec_optLine c name pre
  | repeated name var pre post => exact exec_repeated c name var pre post
  | joined name idx var first sep => exact exec_joined c name idx var first sep h

/-- Running the nodes of well-formed pieces gives the joined outputs. -/
theorem execList_toNode (c : File) (syms : List Sym) (h : ∀ s ∈ syms, s.wf = true) :
    execList (Data.record c) [] (syms.map Sym.toNode) = outAll c syms := by
  induction syms with
  | nil => simp [execList, outAll]
  | cons s ss ih =>
    simp only [List.map_cons, execList, outAll]
    rw [exec_toNode c s (h s (by simp)), ih (fun x hx => h x (by simp [hx]))]

end template

set_option maxRecDepth 1000000 in
theorem templateSyms_wf : ∀ s ∈ templateSyms, s.wf = true := by
  decide!

/-- The rendered text is the joined output of the top-level pieces. -/
theorem render_eq_outAll (c : File) :
    render c = (template.outAll c templateSyms).map String.mk := by
  unfold render
  rw [parse_eq_syms]
  simp only [Option.some_bind]
  rw [template.execList_toNode c templateSyms templateSyms_wf]

/-! ## Field types -/

theorem fields_types (c : File) :
    c.fields.map (fun p => (p.1, p.2.goType)) =
      fileFields.map (fun f => (f.name, some f.type)) := by
  rfl

theorem find_types (name : String) :
    ∀ (l : List (String × Value)) (l' : List FieldDecl),
      l.map (fun p => (p.1, p.2.goType)) = l'.map (fun f => (f.name, some f.type)) →
      ((l.find? (fun p => p.1 = name)).map Prod.snd).bind Value.goType =
        (l'.find? (fun f => f.name = name)).map FieldDecl.type
  | [], [], _ => rfl
  | [], _ :: _, h => by simp at h
  | _ :: _, [], h => by simp at h
  | p :: l, f :: l', h => by
    simp only [List.map_cons, List.cons.injEq, Prod.mk.injEq] at h
    obtain ⟨⟨hn, ht⟩, hrest⟩ := h
    by_cases hp : p.1 = name
    · have hf : f.name = name := by rw [← hn]; exact hp
      simp [List.find?, hp, hf, ht]
    · have hf : ¬ f.name = name := by rw [← hn]; exact hp
      simp only [List.find?, hp, hf, decide_False]
      exact find_types name l l' hrest

/-- The value of a field has the Go type that `File` declares for it. -/
theorem field_goType (c : File) (name : String) :
    (c.field name).bind Value.goType = template.fieldType name :=
  find_types name c.fields fileFields (fields_types c)

theorem field_bool (c : File) (name : String)
    (h : template.fieldType name = some GoType.bool) :
    ∃ b, c.field name = some (Value.bool b) := by
  have hg := field_goType c name
  rw [h] at hg
  cases hf : c.field name with
  | none => rw [hf] at hg; cases hg
  | some v =>
    rw [hf] at hg
    cases v <;> simp [Value.goType] at hg
    exact ⟨_, rfl⟩

theorem field_uint (c : File) (name : String)
    (h : template.fieldType name = some GoType.uint) :
    ∃ n, c.field name = some (Value.uint n) := by
  have hg := field_goType c name
  rw [h] at hg
  cases hf : c.field name with
  | none => rw [hf] at hg; cases hg
  | some v =>
    rw [hf] at hg
    cases v <;> simp [Value.goType] at hg
    exact ⟨_, rfl⟩

theorem field_string (c : File) (name : String)
    (h : template.fieldType name = some GoType.string) :
    ∃ s, c.field name = some (Value.string s) := by
  have hg := field_goType c name
  rw [h] at hg
  cases hf : c.field name with
  | none => rw [hf] at hg; cases hg
  | some v =>
    rw [hf] at hg
    cases v <;> simp [Value.goType] at hg
    exact ⟨_, rfl⟩

theorem field_strings (c : File) (name : String)
    (h : template.fieldType name = some GoType.stringSlice) :
    ∃ l, c.field name = some (Value.strings l) := by
  have hg := field_goType c name
  rw [h] at hg
  cases hf : c.field name with
  | none => rw [hf] at hg; cases hg
  | some v =>
    rw [hf] at hg
    cases v <;> simp [Value.goType] at hg
    exact ⟨_, rfl⟩

theorem field_isSome (c : File) (name : String)
    (h : (template.fieldType name).isSome = true) :
    ∃ v, c.field name = some v := by
  have hg := field_goType c name
  cases hf : c.field name with
  | none => rw [hf] at hg; rw [← hg] at h; cases h
  | some v => exact ⟨v, rfl⟩

/-! ## From pieces to lines -/

namespace template

theorem out_static (c : File) (s : List Char) : (Sym.static s).out c = some s := rfl

theorem outAll_cons (c : File) (s : Sym) (ss : List Sym) :
    outAll c (s :: ss) = (s.out c).bind (fun a => (outAll c ss).map (fun b => a ++ b)) :=
  rfl

theorem outAll_static_item (c : File) (l : List Char) :
    outAll c (LineItem.static l).syms = some (l ++ ['\n']) := by
  simp [LineItem.syms, outAll, out_static]

theorem outAll_dynamic_item (c : File) (pre : List Char) (s : Sym) :
    outAll c (LineItem.dynamic pre s).syms =
      (s.out c).map (fun a => pre ++ (a ++ ['\n'])) := by
  simp only [LineItem.syms, outAll_cons, out_static, outAll]
  cases s.out c <;> simp

theorem outAll_block_item (c : File) (name var : String) (pre : List Char) :
    outAll c (LineItem.block name var pre).syms =
      (Sym.repeated name var pre ['\n']).out c := by
  simp only [LineItem.syms, outAll_cons, outAll]
  cases (Sym.repeated name var pre ['\n']).out c <;> simp

theorem outAll_static_cons (c : File) (s : List Char) (rest : List Sym) :
    outAll c (Sym.static s :: rest) = (outAll c rest).map (fun b => s ++ b) := by
  simp [outAll, Sym.out]

theorem outAll_append (c : File) (xs ys : List Sym) :
    outAll c (xs ++ ys) =
      (outAll c xs).bind (fun a => (outAll c ys).map (fun b => a ++ b)) := by
  induction xs with
  | nil => simp [outAll]
  | cons x xs ih =>
    rw [List.cons_append, outAll_cons, outAll_cons, ih]
    cases x.out c <;> cases outAll c xs <;> cases outAll c ys <;> simp

/-- Joining neighbouring static pieces does not change the output. -/
theorem outAll_mergeStatic (c : File) (syms : List Sym) :
    outAll c (mergeStatic syms) = outAll c syms := by
  induction syms with
  | nil => rfl
  | cons s rest ih =>
    cases s with
    | static t =>
      by_cases ht : t = []
      · simp [mergeStatic, ht, ih, outAll_static_cons]
      · simp only [mergeStatic, ht, if_false]
        rw [outAll_static_cons, ← ih]
        split
        · rename_i u rest' hm
          rw [hm, outAll_static_cons, outAll_static_cons]
          cases outAll c rest' <;> simp
        · rw [outAll_static_cons]
    | print name => simp [mergeStatic, outAll, ih]
    | boolSel name yes no => simp [mergeStatic, outAll, ih]
    | optLine name pre => simp [mergeStatic, outAll, ih]
    | repeated name var pre post => simp [mergeStatic, outAll, ih]
    | joined name idx var first sep => simp [mergeStatic, outAll, ih]

theorem splitLines_repeatedOut (pre : List Char) (l : List String) (rest : List Char) :
    splitLines (repeatedOut pre ['\n'] l ++ rest) =
      (l.filter (fun e => e ≠ "")).flatMap (fun e => splitLines (pre ++ e.data)) ++
        splitLines rest := by
  induction l with
  | nil => simp [repeatedOut]
  | cons e es ih =>
    by_cases he : e = ""
    · simp [repeatedOut, he, ih]
    · have : (pre ++ (e.data ++ ['\n'])) ++ repeatedOut pre ['\n'] es ++ rest =
          (pre ++ e.data) ++ '\n' :: (repeatedOut pre ['\n'] es ++ rest) := by simp
      simp only [repeatedOut, he, if_false, this, splitLines_append_newline, ih]
      simp [he]

/-- A well-formed line item has an output for every configuration. -/
theorem outAll_syms_isSome (c : File) (it : LineItem) (h : it.wf = true) :
    ∃ o, outAll c it.syms = some o := by
  cases it with
  | static l => exact ⟨_, outAll_static_item c l⟩
  | dynamic pre s =>
    simp only [LineItem.wf, Bool.and_eq_true] at h
    obtain ⟨⟨⟨_, _⟩, _⟩, hty⟩ := h
    have hs : ∃ o, s.out c = some o := by
      cases s with
      | static t => exact ⟨_, rfl⟩
      | print name =>
        have hsome : (fieldType name).isSome = true := by
          simp only [Sym.typed, Bool.or_eq_true, decide_eq_true_eq] at hty
          rcases hty with h | h <;> simp [h]
        obtain ⟨v, hv⟩ := field_isSome c name hsome
        simp [Sym.out, hv]
      | boolSel name yes no =>
        obtain ⟨v, hv⟩ := field_bool c name (by simpa [Sym.typed] using hty)
        simp [Sym.out, hv]
      | optLine name pre =>
        obtain ⟨v, hv⟩ := field_string c name (by simpa [Sym.typed] using hty)
        simp [Sym.out, hv]
      | repeated name var pre post =>
        obtain ⟨v, hv⟩ := field_strings c name (by simpa [Sym.typed] using hty)
        simp [Sym.out, hv]
      | joined name idx var first sep =>
        obtain ⟨v, hv⟩ := field_strings c name (by simpa [Sym.typed] using hty)
        simp [Sym.out, hv]
    obtain ⟨o, ho⟩ := hs
    exact ⟨_, by rw [outAll_dynamic_item, ho]; rfl⟩
  | block name var pre =>
    simp only [LineItem.wf, Bool.and_eq_true, decide_eq_true_eq] at h
    obtain ⟨v, hv⟩ := field_strings c name h.2
    exact ⟨repeatedOut pre ['\n'] v, by rw [outAll_block_item]; simp [Sym.out, hv]⟩

/-- The lines of the output of a well-formed line item followed by more text:
the lines of the item, then the lines of that text. -/
theorem splitLines_item (c : File) (it : LineItem) (h : it.wf = true)
    (o rest : List Char) (ho : outAll c it.syms = some o) :
    splitLines (o ++ rest) = it.lines c ++ splitLines rest := by
  cases it with
  | static l =>
    simp only [LineItem.wf] at h
    rw [outAll_static_item] at ho
    simp only [Option.some.injEq] at ho
    subst ho
    simp [LineItem.lines, splitLines_append_newline, splitLines_noNewline l h]
  | dynamic pre s =>
    rw [outAll_dynamic_item] at ho
    cases hs : s.out c with
    | none => rw [hs] at ho; cases ho
    | some a =>
      rw [hs] at ho
      simp only [Option.map_some', Option.some.injEq] at ho
      subst ho
      have : pre ++ (a ++ ['\n']) ++ rest = (pre ++ a) ++ '\n' :: rest := by simp
      rw [this, splitLines_append_newline]
      simp [LineItem.lines, hs]
  | block name var pre =>
    rw [outAll_block_item] at ho
    simp only [Sym.out] at ho
    cases hf : c.field name with
    | none => simp [hf] at ho
    | some v =>
      cases v with
      | strings l =>
        simp only [hf, Option.some.injEq] at ho
        subst ho
        simp [LineItem.lines, hf, splitLines_repeatedOut]
      | bool b => simp [hf] at ho
      | int i => simp [hf] at ho
      | uint n => simp [hf] at ho
      | string s => simp [hf] at ho

/-- The output of well-formed line items and a last line exists, and its lines
are the lines of the items followed by the lines of the last line. -/
theorem lines_of_items (c : File) (last : List Char) (items : List LineItem)
    (h : ∀ it ∈ items, it.wf = true) :
    ∃ text, outAll c (itemSyms items ++ [Sym.static last]) = some text ∧
      splitLines text = itemLines c items ++ splitLines last := by
  induction items with
  | nil => exact ⟨last, by simp [itemSyms, outAll, Sym.out], by simp [itemLines]⟩
  | cons it its ih =>
    obtain ⟨rest, hrest, hl⟩ := ih (fun x hx => h x (by simp [hx]))
    obtain ⟨o, ho⟩ := outAll_syms_isSome c it (h it (by simp))
    refine ⟨o ++ rest, ?_, ?_⟩
    · simp only [itemSyms, List.append_assoc]
      rw [outAll_append, ho, hrest]
      rfl
    · rw [splitLines_item c it (h it (by simp)) o rest ho, hl]
      simp [itemLines]

end template

set_option maxRecDepth 1000000 in
theorem templateItems_wf : ∀ it ∈ templateItems, it.wf = true := by
  decide!

theorem outAll_append_static_nil (c : File) (xs : List template.Sym) :
    template.outAll c (xs ++ [template.Sym.static []]) = template.outAll c xs := by
  rw [template.outAll_append]
  cases template.outAll c xs <;> simp [template.outAll, template.out_static]

/-- The rendered text exists for every configuration, and its lines are the
lines of the line items of the template followed by one empty line. -/
theorem render_lines (c : File) :
    ∃ text, render c = some text ∧
      splitLines text.data = template.itemLines c templateItems ++ [[]] := by
  obtain ⟨text, ht, hl⟩ :=
    template.lines_of_items c [] templateItems templateItems_wf
  refine ⟨String.mk text, ?_, ?_⟩
  · rw [outAll_append_static_nil] at ht
    rw [render_eq_outAll]
    unfold templateSyms
    rw [template.outAll_mergeStatic, ht]
    rfl
  · rw [hl]
    rfl

/-! ## Outputs without newline -/

theorem digitChar_ne_newline (n : Nat) (h : n < 10) : Nat.digitChar n ≠ '\n' := by
  interval_cases n <;> decide

theorem toDigitsCore_noNewline (fuel n : Nat) (ds : List Char)
    (h : noNewline ds = true) : noNewline (Nat.toDigitsCore 10 fuel n ds) = true := by
  induction fuel generalizing n ds with
  | zero => simpa [Nat.toDigitsCore] using h
  | succ fuel ih =>
    have hd : noNewline (Nat.digitChar (n % 10) :: ds) = true :=
      noNewline_cons.mpr ⟨digitChar_ne_newline _ (Nat.mod_lt _ (by decide)), h⟩
    simp only [Nat.toDigitsCore]
    split
    · exact hd
    · exact ih _ _ hd

theorem repr_noNewline (n : Nat) : noNewline (Nat.repr n).data = true := by
  simp only [Nat.repr, Nat.toDigits, List.asString]
  exact toDigitsCore_noNewline _ _ _ rfl

theorem field_mem (c : File) (name : String) (v : Value) (h : c.field name = some v) :
    ∃ p ∈ c.fields, p.2 = v := by
  unfold File.field at h
  cases hf : c.fields.find? (fun p => p.1 = name) with
  | none => rw [hf] at h; cases h
  | some p =>
    rw [hf] at h
    simp only [Option.map_some', Option.some.injEq] at h
    exact ⟨p, List.mem_of_find?_eq_some hf, h⟩

theorem field_newlineFree (c : File) (hc : c.newlineFree) (name : String) (v : Value)
    (h : c.field name = some v) : v.newlineFree := by
  obtain ⟨p, hp, hv⟩ := field_mem c name v h
  rw [← hv]
  exact hc p hp

namespace template

theorem sepTail_noNewline (sep : List Char) (hsep : noNewline sep = true)
    (l : List String) (hl : ∀ e ∈ l, noNewline e.data = true) :
    noNewline (sepTail sep l) = true := by
  induction l with
  | nil => rfl
  | cons e es ih =>
    simp only [sepTail, noNewline_append]
    exact ⟨hsep, hl e (by simp), ih (fun x hx => hl x (by simp [hx]))⟩

theorem joinedOut_noNewline (first sep : List Char) (hf : noNewline first = true)
    (hsep : noNewline sep = true) (l : List String)
    (hl : ∀ e ∈ l, noNewline e.data = true) :
    noNewline (joinedOut first sep l) = true := by
  cases l with
  | nil => rfl
  | cons e es =>
    simp only [joinedOut, joinChars_cons, noNewline_append]
    simp only [reduceCtorEq, if_false, noNewline_append]
    exact ⟨hf, hl e (by simp), sepTail_noNewline sep hsep es (fun x hx => hl x (by simp [hx]))⟩

/-- For a configuration without newlines, the output of a piece that stays on
a line holds no newline. -/
theorem out_noNewline (c : File) (hc : c.newlineFree) (s : Sym)
    (hin : s.inlineOK = true) (hty : s.typed = true) (o : List Char)
    (ho : s.out c = some o) : noNewline o = true := by
  cases s with
  | static t => simp [Sym.inlineOK] at hin
  | repeated name var pre post => simp [Sym.inlineOK] at hin
  | print name =>
    simp only [Sym.out] at ho
    simp only [Sym.typed, Bool.or_eq_true, decide_eq_true_eq] at hty
    rcases hty with h | h
    · obtain ⟨n, hn⟩ := field_uint c name h
      rw [hn] at ho
      simp only [Option.map_some', Option.some.injEq] at ho
      subst ho
      exact repr_noNewline n
    · obtain ⟨t, ht⟩ := field_string c name h
      have hnl := field_newlineFree c hc name _ ht
      rw [ht] at ho
      simp only [Option.map_some', Option.some.injEq] at ho
      subst ho
      exact hnl
  | boolSel name yes no =>
    simp only [Sym.inlineOK, Bool.and_eq_true] at hin
    simp only [Sym.typed, decide_eq_true_eq] at hty
    obtain ⟨b, hb⟩ := field_bool c name hty
    simp only [Sym.out, hb, Option.some.injEq] at ho
    subst ho
    cases b
    · exact hin.2
    · exact hin.1
  | optLine name pre =>
    simp only [Sym.inlineOK] at hin
    simp only [Sym.typed, decide_eq_true_eq] at hty
    obtain ⟨t, ht⟩ := field_string c name hty
    have hnl : noNewline t.data = true := field_newlineFree c hc name _ ht
    simp only [Sym.out, ht, Option.some.injEq] at ho
    subst ho
    split
    · rfl
    · exact noNewline_append.mpr ⟨hin, hnl⟩
  | joined name idx var first sep =>
    simp only [Sym.inlineOK, Bool.and_eq_true] at hin
    simp only [Sym.typed, decide_eq_true_eq] at hty
    obtain ⟨l, hl⟩ := field_strings c name hty
    have hnl : ∀ e ∈ l, noNewline e.data = true := field_newlineFree c hc name _ hl
    simp only [Sym.out, hl, Option.some.injEq] at ho
    subst ho
    exact joinedOut_noNewline first sep hin.1 hin.2 l hnl

end template

namespace template

theorem isCommentLine_append (q rest : List Char) (hq : q ≠ []) :
    isCommentLine (q ++ rest) = isCommentLine q := by
  cases q with
  | nil => exact absurd rfl hq
  | cons c cs => simp [isCommentLine]

theorem decideStart_sound (p q : List Char) (b : Bool) (h : decideStart p q = some b)
    (rest : List Char) : q ≠ [] ∧ lineMatches p (q ++ rest) = b := by
  unfold decideStart at h
  by_cases hq : q = []
  · simp [hq] at h
  · refine ⟨hq, ?_⟩
    cases hc : isCommentLine q with
    | true =>
      simp [hq, hc] at h
      subst h
      simp [lineMatches, isCommentLine_append q rest hq, hc]
    | false =>
      cases hp : p.isPrefixOf q with
      | true =>
        simp [hq, hc, hp] at h
        subst h
        have h1 : p <+: q ++ rest :=
          (List.isPrefixOf_iff_prefix.mp hp).trans (List.prefix_append q rest)
        simp [lineMatches, isCommentLine_append q rest hq, hc,
          List.isPrefixOf_iff_prefix.mpr h1]
      | false =>
        cases hqp : q.isPrefixOf p with
        | true => simp [hq, hc, hp, hqp] at h
        | false =>
          simp [hq, hc, hp, hqp] at h
          subst h
          have h1 : ¬ p <+: q ++ rest := by
            intro hpre
            rcases List.prefix_or_prefix_of_prefix hpre (List.prefix_append q rest) with
              h2 | h2
            · rw [List.isPrefixOf_iff_prefix.mpr h2] at hp
              cases hp
            · rw [List.isPrefixOf_iff_prefix.mpr h2] at hqp
              cases hqp
          have h2 : p.isPrefixOf (q ++ rest) = false := by
            cases hx : p.isPrefixOf (q ++ rest) with
            | false => rfl
            | true => exact absurd (List.isPrefixOf_iff_prefix.mp hx) h1
          simp [lineMatches, h2]

theorem lineMatches_nil (p : List Char) (hp : p ≠ []) : lineMatches p [] = false := by
  cases p with
  | nil => exact absurd rfl hp
  | cons c cs => simp [lineMatches, List.isPrefixOf]

theorem ne_nil_of_lineMatches (p l : List Char) (hp : p ≠ [])
    (h : lineMatches p l = true) : l ≠ [] := by
  intro hl
  rw [hl, lineMatches_nil p hp] at h
  cases h

/-- The lines of a dynamic line item, for a configuration without newlines:
the one line made of its static text and the output of its piece. -/
theorem lines_dynamic (c : File) (hc : c.newlineFree) (pre : List Char) (s : Sym)
    (h : (LineItem.dynamic pre s).wf = true) :
    ∃ o, s.out c = some o ∧ noNewline o = true ∧
      (LineItem.dynamic pre s).lines c = [pre ++ o] := by
  have h' := h
  simp only [LineItem.wf, Bool.and_eq_true] at h'
  obtain ⟨⟨⟨hpre, hin⟩, _⟩, hty⟩ := h'
  obtain ⟨o, ho⟩ := outAll_syms_isSome c _ h
  rw [outAll_dynamic_item] at ho
  cases hs : s.out c with
  | none => rw [hs] at ho; cases ho
  | some a =>
    have ha := out_noNewline c hc s hin hty a hs
    refine ⟨a, rfl, ha, ?_⟩
    simp only [LineItem.lines, hs, Option.getD_some]
    exact splitLines_noNewline _ (noNewline_append.mpr ⟨hpre, ha⟩)

/-- The lines of the bind-path block, for a configuration without newlines:
one line per non-empty element. -/
theorem lines_block (c : File) (hc : c.newlineFree) (name var : String)
    (pre : List Char) (h : (LineItem.block name var pre).wf = true) :
    ∃ l, c.field name = some (Value.strings l) ∧
      (LineItem.block name var pre).lines c =
        (l.filter (fun e => e ≠ "")).map (fun e => pre ++ e.data) := by
  simp only [LineItem.wf, Bool.and_eq_true, decide_eq_true_eq] at h
  obtain ⟨l, hl⟩ := field_strings c name h.2
  have hnl : ∀ e ∈ l, noNewline e.data = true := field_newlineFree c hc name _ hl
  refine ⟨l, hl, ?_⟩
  simp only [LineItem.lines, hl]
  have : ∀ (m : List String), (∀ e ∈ m, noNewline e.data = true) →
      m.flatMap (fun e => splitLines (pre ++ e.data)) = m.map (fun e => pre ++ e.data) := by
    intro m hm
    induction m with
    | nil => rfl
    | cons e es ih =>
      simp only [List.flatMap_cons, List.map_cons]
      rw [splitLines_noNewline _ (noNewline_append.mpr ⟨h.1, hm e (by simp)⟩),
        ih (fun x hx => hm x (by simp [hx]))]
      rfl
  exact this _ (fun e he => hnl e (List.mem_of_mem_filter he))

theorem filter_single (p l : List Char) (b : Bool) (h : lineMatches p l = b)
    (hne : l ≠ []) :
    [l].filter (lineMatches p) = if b then [l].filter (fun x => x ≠ []) else [] := by
  cases b <;> simp [List.filter, h, hne]

theorem filter_blank (p : List Char) (hp : p ≠ []) (b : Bool) :
    [([] : List Char)].filter (lineMatches p) =
      if b then [([] : List Char)].filter (fun x => x ≠ []) else [] := by
  cases b <;> simp [List.filter, lineMatches_nil p hp]

/-- The non-comment lines beginning with `p` among the lines of a line item:
all its non-empty lines, or none, as `keep` says. -/
theorem keep_sound (p : List Char) (hp : p ≠ []) (c : File) (hc : c.newlineFree)
    (it : LineItem) (hwf : it.wf = true) (b : Bool) (hk : it.keep p = some b) :
    (it.lines c).filter (lineMatches p) =
      if b then (it.lines c).filter (fun x => x ≠ []) else [] := by
  cases it with
  | static l =>
    simp only [LineItem.keep, Option.some.injEq] at hk
    simp only [LineItem.lines]
    by_cases hl : l = []
    · rw [hl]; exact filter_blank p hp b
    · exact filter_single p l b hk hl
  | dynamic pre s =>
    obtain ⟨o, ho, _, hlines⟩ := lines_dynamic c hc pre s hwf
    rw [hlines]
    simp only [LineItem.keep] at hk
    by_cases hpre : pre = []
    · simp only [hpre, if_true] at hk
      subst hpre
      simp only [List.nil_append]
      cases s with
      | static t => simp at hk
      | print name => simp at hk
      | boolSel name yes no => simp at hk
      | repeated name var pre post => simp at hk
      | optLine name pre' =>
        simp only at hk
        simp only [Sym.out] at ho
        split at ho
        · rename_i t _
          simp only [Option.some.injEq] at ho
          subst ho
          by_cases ht : t = ""
          · simp only [ht, if_true]; exact filter_blank p hp b
          · simp only [ht, if_false]
            obtain ⟨hne, hm⟩ := decideStart_sound p pre' b hk t.data
            exact filter_single p _ b hm (by simp [hne])
        · cases ho
      | joined name idx var first sep =>
        simp only at hk
        simp only [Sym.out] at ho
        split at ho
        · rename_i l _
          simp only [Option.some.injEq] at ho
          subst ho
          by_cases hl : l = []
          · simp only [joinedOut, hl, if_true]; exact filter_blank p hp b
          · simp only [joinedOut, hl, if_false]
            obtain ⟨hne, hm⟩ := decideStart_sound p first b hk (joinChars sep l)
            exact filter_single p _ b hm (by simp [hne])
        · cases ho
    · simp only [hpre, if_false] at hk
      obtain ⟨hne, hm⟩ := decideStart_sound p pre b hk o
      exact filter_single p _ b hm (by simp [hne])
  | block name var pre =>
    obtain ⟨l, _, hlines⟩ := lines_block c hc name var pre hwf
    rw [hlines]
    simp only [LineItem.keep] at hk
    have hall : ∀ e : String, lineMatches p (pre ++ e.data) = b ∧ pre ++ e.data ≠ [] := by
      intro e
      obtain ⟨hne, hm⟩ := decideStart_sound p pre b hk e.data
      exact ⟨hm, by simp [hne]⟩
    generalize l.filter (fun e => e ≠ "") = m
    induction m with
    | nil => cases b <;> rfl
    | cons e es ih =>
      cases b
      · simp only [Bool.false_eq_true, if_false] at ih ⊢
        simp [List.filter, (hall e).1, ih]
      · simp only [if_true] at ih ⊢
        simp [List.filter, (hall e).1, (hall e).2, ih]

/-- The non-comment lines beginning with `p` among the lines of the items are
the non-empty lines of the kept items. -/
theorem kept_sound (p : List Char) (hp : p ≠ []) (c : File) (hc : c.newlineFree)
    (items : List LineItem) (hwf : ∀ it ∈ items, it.wf = true) (kept : List LineItem)
    (hk : keptItems p items = some kept) :
    (itemLines c items).filter (lineMatches p) =
      (itemLines c kept).filter (fun x => x ≠ []) := by
  induction items generalizing kept with
  | nil =>
    simp only [keptItems, Option.some.injEq] at hk
    subst hk
    rfl
  | cons it its ih =>
    simp only [keptItems] at hk
    cases hb : it.keep p with
    | none => simp [hb] at hk
    | some b =>
      simp only [hb] at hk
      cases hr : keptItems p its with
      | none => simp [hr] at hk
      | some r =>
        simp only [hr, Option.map_some', Option.some.injEq] at hk
        subst hk
        have h1 := keep_sound p hp c hc it (hwf it (by simp)) b hb
        have h2 := ih (fun x hx => hwf x (by simp [hx])) r hr
        simp only [itemLines, List.filter_append, h1, h2]
        cases b <;> simp [itemLines]

end template

/-- The lines of a directive in the rendered text, for a configuration without
newlines: the non-empty lines of the line items kept for the directive. -/
theorem directiveLines_render (c : File) (hc : c.newlineFree) (d : String)
    (kept : List template.LineItem)
    (hk : template.keptItems (d ++ " = ").data templateItems = some kept) :
    ∃ text, render c = some text ∧
      directiveLines d text =
        ((template.itemLines c kept).filter (fun x => x ≠ [])).map String.mk := by
  obtain ⟨text, hr, hl⟩ := render_lines c
  refine ⟨text, hr, ?_⟩
  have hp : (d ++ " = ").data ≠ [] := by simp [String.data_append]
  have hfil : ∀ ls : List (List Char),
      (ls.map String.mk).filter
        (fun l => !isCommentLine l.data && isDirectiveLine d l.data) =
      (ls.filter (template.lineMatches (d ++ " = ").data)).map String.mk := by
    intro ls
    induction ls with
    | nil => rfl
    | cons l ls ih =>
      simp only [List.map_cons, List.filter_cons, ih]
      have : (!isCommentLine l && isDirectiveLine d l) =
          template.lineMatches (d ++ " = ").data l := rfl
      simp only [this]
      split <;> rfl
  unfold directiveLines textLines
  rw [hfil, hl, List.filter_append,
    template.kept_sound _ hp c hc templateItems templateItems_wf kept hk]
  simp only [List.filter, template.lineMatches_nil _ hp, List.append_nil]

open template

namespace template

theorem mem_of_keptItems (p : List Char) (items kept : List LineItem)
    (hk : keptItems p items = some kept) : ∀ it ∈ kept, it ∈ items := by
  induction items generalizing kept with
  | nil =>
    simp only [keptItems, Option.some.injEq] at hk
    subst hk
    simp
  | cons x xs ih =>
    simp only [keptItems] at hk
    cases hb : x.keep p with
    | none => simp [hb] at hk
    | some b =>
      simp only [hb] at hk
      cases hr : keptItems p xs with
      | none => simp [hr] at hk
      | some r =>
        simp only [hr, Option.map_some', Option.some.injEq] at hk
        subst hk
        intro it hit
        cases b
        · exact List.mem_cons_of_mem _ (ih r hr it (by simpa using hit))
        · simp only [if_true, List.mem_cons] at hit
          rcases hit with h | h
          · simp [h]
          · exact List.mem_cons_of_mem _ (ih r hr it h)

end template

/-- The lines of a directive rendered by one dynamic line item. -/
theorem directiveLines_dynamic (c : File) (hc : c.newlineFree) (d : String)
    (pre : List Char) (s : Sym)
    (hk : keptItems (d ++ " = ").data templateItems = some [LineItem.dynamic pre s]) :
    ∃ o text, s.out c = some o ∧ render c = some text ∧
      directiveLines d text = ([pre ++ o].filter (fun x => x ≠ [])).map String.mk := by
  obtain ⟨text, hr, hl⟩ := directiveLines_render c hc d _ hk
  have hmem := mem_of_keptItems _ _ _ hk (LineItem.dynamic pre s) (by simp)
  obtain ⟨o, ho, _, hlines⟩ := lines_dynamic c hc pre s (templateItems_wf _ hmem)
  refine ⟨o, text, ho, hr, ?_⟩
  rw [hl]
  simp only [itemLines, hlines, List.append_nil]

set_option maxRecDepth 1000000 in
theorem bool_kept : ∀ f ∈ fileFields, f.type = GoType.bool →
    keptItems ((f.directive.getD "") ++ " = ").data templateItems =
      some [LineItem.dynamic ((f.directive.getD "") ++ " = ").data
        (Sym.boolSel f.name "yes".data "no".data)] := by
  decide!

set_option maxRecDepth 1000000 in
theorem bool_typed : ∀ f ∈ fileFields, f.type = GoType.bool →
    fieldType f.name = some GoType.bool := by
  decide!

/-- Claim C13, amended: for a configuration whose string values and list
elements hold no newline, and every boolean field of `File`, the rendered
text has exactly one non-comment line for the field's directive: `<directive>
= yes` when the field is true, `<directive> = no` when it is false. -/
theorem bool_rendering (c : File) (hc : c.newlineFree) (f : FieldDecl)
    (hf : f ∈ fileFields) (hty : f.type = GoType.bool) (d : String)
    (hd : f.directive = some d) :
    ∃ b text, c.field f.name = some (Value.bool b) ∧ render c = some text ∧
      directiveLines d text = [d ++ " = " ++ (if b then "yes" else "no")] := by
  have hk := bool_kept f hf hty
  rw [hd] at hk
  simp only [Option.getD_some] at hk
  obtain ⟨o, text, ho, hr, hl⟩ := directiveLines_dynamic c hc d _ _ hk
  obtain ⟨b, hb⟩ := field_bool c f.name (bool_typed f hf hty)
  refine ⟨b, text, hb, hr, ?_⟩
  simp only [Sym.out, hb, Option.some.injEq] at ho
  subst ho
  rw [hl]
  cases b <;> simp [List.filter, String.ext_iff, String.data_append]

open template

/-- The lines of a directive in the rendered text of any configuration, from
the line items of the template. -/
theorem directiveLines_items (c : File) (d : String) :
    (render c).map (directiveLines d) =
      some (((itemLines c templateItems ++ [[]]).filter
        (lineMatches (d ++ " = ").data)).map String.mk) := by
  obtain ⟨text, hr, hl⟩ := render_lines c
  rw [hr]
  simp only [Option.map_some', Option.some.injEq]
  unfold directiveLines textLines
  rw [hl]
  generalize itemLines c templateItems ++ [[]] = ls
  induction ls with
  | nil => rfl
  | cons l ls ih =>
    simp only [List.map_cons, List.filter_cons, ih]
    have : (!isCommentLine l && isDirectiveLine d l) =
        lineMatches (d ++ " = ").data l := rfl
    simp only [this]
    split <;> rfl

set_option maxRecDepth 1000000 in
/-- Claim C14, as stated, fails: a `MountDev` value with a newline renders to
two lines of the directive `mount dev`, neither of them `mount dev = ` followed
by the value. -/
theorem enum_rendering_newline :
    (render mountDevTwoLines).map (directiveLines "mount dev") =
      some ["mount dev = yes", "mount dev = no"] := by
  rw [directiveLines_items]
  decide!

set_option maxRecDepth 1000000 in
theorem print_kept : ∀ f ∈ fileFields,
    (f.type = GoType.uint ∨ (f.type = GoType.string ∧ f.authorized.isSome = true)) →
    keptItems ((f.directive.getD "") ++ " = ").data templateItems =
      some [LineItem.dynamic ((f.directive.getD "") ++ " = ").data (Sym.print f.name)] ∧
    fieldType f.name = some f.type := by
  decide!

/-- Claim C14, amended: for a configuration whose string values (scalar or
list element) hold no newline, every unsigned-integer field and every
enumerated-string field of `File` renders to exactly one non-comment line of
its directive: `<directive> = ` followed by the integer in decimal, or by the
string value verbatim. -/
theorem enum_uint_rendering (c : File) (hc : c.newlineFree) (f : FieldDecl)
    (hf : f ∈ fileFields)
    (hty : f.type = GoType.uint ∨ (f.type = GoType.string ∧ f.authorized.isSome = true))
    (d : String) (hd : f.directive = some d) :
    ∃ text, render c = some text ∧
      ((∃ n, c.field f.name = some (Value.uint n) ∧
          directiveLines d text = [d ++ " = " ++ Nat.repr n]) ∨
       (∃ s, c.field f.name = some (Value.string s) ∧
          directiveLines d text = [d ++ " = " ++ s])) := by
  obtain ⟨hk, hft⟩ := print_kept f hf hty
  rw [hd] at hk
  simp only [Option.getD_some] at hk
  obtain ⟨o, text, ho, hr, hl⟩ := directiveLines_dynamic c hc d _ _ hk
  refine ⟨text, hr, ?_⟩
  simp only [Sym.out] at ho
  rcases hty with h | ⟨h, _⟩
  · rw [h] at hft
    obtain ⟨n, hn⟩ := field_uint c f.name hft
    refine Or.inl ⟨n, hn, ?_⟩
    rw [hn] at ho
    simp only [Option.map_some', Option.some.injEq] at ho
    subst ho
    rw [hl]
    simp [List.filter, String.ext_iff, String.data_append, printValue]
  · rw [h] at hft
    obtain ⟨s, hs⟩ := field_string c f.name hft
    refine Or.inr ⟨s, hs, ?_⟩
    rw [hs] at ho
    simp only [Option.map_some', Option.some.injEq] at ho
    subst ho
    rw [hl]
    simp [List.filter, String.ext_iff, String.data_append, printValue]

open template

set_option maxRecDepth 1000000 in
/-- Claim C15, as stated, fails: with `ImageDriver` empty the rendered text has
the line `image driver = `; and a line of another scalar directive, here `cni
plugin path`, appears when a value with a newline carries it, although the
field itself is empty. -/
theorem empty_scalar_rendered :
    File.zero.ImageDriver = "" ∧
    (render File.zero).map (directiveLines "image driver") = some ["image driver = "] ∧
    imageDriverCni.CniPluginPath = "" ∧
    (render imageDriverCni).map (directiveLines "cni plugin path") =
      some ["cni plugin path = /evil"] := by
  refine ⟨rfl, ?_, rfl, ?_⟩
  · rw [directiveLines_items]
    decide!
  · rw [directiveLines_items]
    decide!

set_option maxRecDepth 1000000 in
theorem scalar_kept : ∀ f ∈ fileFields,
    f.type = GoType.string → f.authorized = none → f.name ≠ "ImageDriver" →
    (keptItems ((f.directive.getD "") ++ " = ").data templateItems = some [] ∨
     keptItems ((f.directive.getD "") ++ " = ").data templateItems =
      some [LineItem.dynamic [] (Sym.optLine f.name ((f.directive.getD "") ++ " = ").data)]) := by
  decide!

set_option maxRecDepth 1000000 in
theorem imageDriver_kept :
    keptItems ("image driver" ++ " = ").data templateItems =
      some [LineItem.dynamic ("image driver" ++ " = ").data (Sym.print "ImageDriver")] := by
  decide!

/-- Claim C15, amended: for a configuration whose string values (scalar or
list element) hold no newline, every scalar string field of `File` other than
`ImageDriver` whose value is empty has no non-comment line of its directive in
the rendered text; the directive `image driver` always has exactly one line,
`image driver = ` followed by the value (nothing, for the empty value). -/
theorem empty_scalar_omitted (c : File) (hc : c.newlineFree) :
    (∀ f ∈ fileFields, f.type = GoType.string → f.authorized = none →
      f.name ≠ "ImageDriver" → ∀ d, f.directive = some d →
      c.field f.name = some (Value.string "") →
      ∃ text, render c = some text ∧ directiveLines d text = []) ∧
    (∃ text, render c = some text ∧
      directiveLines "image driver" text = ["image driver = " ++ c.ImageDriver]) := by
  constructor
  · intro f hf hty hau hname d hd hv
    have hk := scalar_kept f hf hty hau hname
    rw [hd] at hk
    simp only [Option.getD_some] at hk
    rcases hk with hk | hk
    · obtain ⟨text, hr, hl⟩ := directiveLines_render c hc d _ hk
      exact ⟨text, hr, by rw [hl]; rfl⟩
    · obtain ⟨o, text, ho, hr, hl⟩ := directiveLines_dynamic c hc d _ _ hk
      refine ⟨text, hr, ?_⟩
      simp only [Sym.out, hv, if_true, Option.some.injEq] at ho
      subst ho
      rw [hl]
      rfl
  · obtain ⟨o, text, ho, hr, hl⟩ :=
      directiveLines_dynamic c hc "image driver" _ _ imageDriver_kept
    refine ⟨text, hr, ?_⟩
    have hfield : c.field "ImageDriver" = some (Value.string c.ImageDriver) := rfl
    simp only [Sym.out, hfield, Option.map_some', Option.some.injEq] at ho
    subst ho
    rw [hl]
    simp [List.filter, String.ext_iff, String.data_append, printValue]

set_option maxRecDepth 1000000 in
/-- Claim C16, as stated, fails: with an empty `BindPath` list the rendered text
still has a line `bind path = /evil` when another value carries it after a
newline. -/
theorem bind_path_injected :
    imageDriverBindPath.BindPath = [] ∧
    (render imageDriverBindPath).map (directiveLines "bind path") =
      some ["bind path = /evil"] := by
  refine ⟨rfl, ?_⟩
  rw [directiveLines_items]
  decide!

set_option maxRecDepth 1000000 in
theorem bindPath_kept :
    keptItems ("bind path" ++ " = ").data templateItems =
      some [LineItem.block "BindPath" "path" ("bind path" ++ " = ").data] := by
  decide!

open template

theorem map_mk_filter (pre : List Char) (hpre : pre ≠ []) (m : List String) :
    ((m.map (fun e => pre ++ e.data)).filter (fun x => x ≠ [])).map String.mk =
      m.map (fun e => String.mk pre ++ e) := by
  induction m with
  | nil => rfl
  | cons e es ih =>
    have hne : pre ++ e.data ≠ [] := by simp [hpre]
    simp only [List.map_cons, List.filter_cons, hne, ne_eq, not_false_eq_true,
      decide_True, if_true]
    rw [ih]
    congr 1

/-- Claim C16, amended: for a configuration whose string values (scalar or
list element) hold no newline and whose `BindPath` elements are non-empty, the
non-comment lines of the rendered text that begin with `bind path = ` are the
lines `bind path = <element>`, one per element, in list order. -/
theorem bind_path_rendering (c : File) (hc : c.newlineFree)
    (hne : ∀ e ∈ c.BindPath, e ≠ "") :
    ∃ text, render c = some text ∧
      directiveLines "bind path" text = c.BindPath.map (fun e => "bind path = " ++ e) := by
  obtain ⟨text, hr, hl⟩ := directiveLines_render c hc "bind path" _ bindPath_kept
  refine ⟨text, hr, ?_⟩
  have hmem := mem_of_keptItems _ _ _ bindPath_kept
    (LineItem.block "BindPath" "path" ("bind path" ++ " = ").data) (by simp)
  obtain ⟨l, hfl, hlines⟩ :=
    lines_block c hc "BindPath" "path" _ (templateItems_wf _ hmem)
  have hfield : c.field "BindPath" = some (Value.strings c.BindPath) := rfl
  rw [hfield] at hfl
  simp only [Option.some.injEq, Value.strings.injEq] at hfl
  subst hfl
  rw [hl]
  simp only [itemLines, hlines, List.append_nil]
  have hfilter : c.BindPath.filter (fun e => e ≠ "") = c.BindPath := by
    rw [List.filter_eq_self]
    intro e he
    simpa using hne e he
  rw [hfilter, map_mk_filter _ (by decide)]
  rfl

open template

set_option maxRecDepth 1000000 in
/-- Claim C17, as stated, fails: with an empty `LimitContainerOwners` list the
rendered text still has a line of the directive `limit container owners` when
another value carries it after a newline. -/
theorem joined_line_injected :
    imageDriverOwners.LimitContainerOwners = [] ∧
    (render imageDriverOwners).map (directiveLines "limit container owners") =
      some ["limit container owners = eve"] := by
  refine ⟨rfl, ?_⟩
  rw [directiveLines_items]
  decide!

set_option maxRecDepth 1000000 in
theorem joined_kept : ∀ f ∈ fileFields,
    f.type = GoType.stringSlice → f.name ≠ "BindPath" →
    ∃ var ∈ ["owner", "group", "path"],
      keptItems ((f.directive.getD "") ++ " = ").data templateItems =
        some [LineItem.dynamic []
          (Sym.joined f.name "index" var ((f.directive.getD "") ++ " = ").data ", ".data)] := by
  decide!

/-- Claim C17, amended: for a configuration whose string values (scalar or
list element) hold no newline, every list field of `File` other than `BindPath`
with elements `e1..en` renders, if `n >= 1`, to exactly one non-comment line of
its directive, `<directive> = e1, e2, ..., en`, and to none if `n = 0`. -/
theorem joined_line_rendering (c : File) (hc : c.newlineFree) (f : FieldDecl)
    (hf : f ∈ fileFields) (hty : f.type = GoType.stringSlice)
    (hname : f.name ≠ "BindPath") (d : String) (hd : f.directive = some d) :
    ∃ l text, c.field f.name = some (Value.strings l) ∧ render c = some text ∧
      directiveLines d text =
        if l = [] then [] else [d ++ " = " ++ String.mk (joinChars ", ".data l)] := by
  obtain ⟨var, _, hk⟩ := joined_kept f hf hty hname
  rw [hd] at hk
  simp only [Option.getD_some] at hk
  obtain ⟨o, text, ho, hr, hl⟩ := directiveLines_dynamic c hc d _ _ hk
  simp only [Sym.out] at ho
  split at ho
  · rename_i l hfl
    refine ⟨l, text, hfl, hr, ?_⟩
    simp only [Option.some.injEq] at ho
    subst ho
    rw [hl]
    by_cases hl0 : l = []
    · simp [hl0, joinedOut, List.filter]
    · simp [hl0, joinedOut, List.filter, String.ext_iff, String.data_append]
  · cases ho

open template

namespace template

/-- The grammar on character lists. -/
theorem startOK_sound (q : List Char) (h : startOK directiveNames q = true)
    (rest : List Char) : lineGrammar (String.mk (q ++ rest)) := by
  simp only [startOK, Bool.and_eq_true, bne_iff_ne, ne_eq, Bool.or_eq_true,
    List.any_eq_true] at h
  obtain ⟨hq, h⟩ := h
  rcases h with h | ⟨d, hd, hpre⟩
  · right; left
    have h2 : isCommentLine (q ++ rest) = true := by
      rw [isCommentLine_append q rest hq]; exact h
    exact of_decide_eq_true h2
  · right; right
    obtain ⟨t, ht⟩ := List.isPrefixOf_iff_prefix.mp hpre
    refine ⟨d, hd, String.mk (t ++ rest), ?_⟩
    apply String.ext
    simp only [String.data_append]
    rw [← ht]
    simp [String.data_append]

theorem lineGrammar_nil : lineGrammar (String.mk []) := Or.inl rfl

/-- The lines of a line item that passes the check obey the grammar. -/
theorem grammarOK_sound (c : File) (hc : c.newlineFree) (it : LineItem)
    (hwf : it.wf = true) (hg : it.grammarOK directiveNames = true) :
    ∀ l ∈ it.lines c, lineGrammar (String.mk l) := by
  cases it with
  | static l =>
    intro x hx
    simp only [LineItem.lines, List.mem_singleton] at hx
    subst hx
    simp only [LineItem.grammarOK, Bool.or_eq_true, beq_iff_eq] at hg
    rcases hg with hg | hg
    · rw [hg]; exact lineGrammar_nil
    · simpa using startOK_sound x hg []
  | dynamic pre s =>
    obtain ⟨o, ho, _, hlines⟩ := lines_dynamic c hc pre s hwf
    intro x hx
    rw [hlines, List.mem_singleton] at hx
    subst hx
    simp only [LineItem.grammarOK] at hg
    by_cases hpre : pre = []
    · simp only [hpre, if_true] at hg
      subst hpre
      simp only [List.nil_append]
      cases s with
      | static t => simp at hg
      | print name => simp at hg
      | boolSel name yes no => simp at hg
      | repeated name var pre post => simp at hg
      | optLine name pre' =>
        simp only at hg
        simp only [Sym.out] at ho
        split at ho
        · rename_i t _
          simp only [Option.some.injEq] at ho
          subst ho
          by_cases ht : t = ""
          · simp only [ht, if_true]; exact lineGrammar_nil
          · simp only [ht, if_false]; exact startOK_sound pre' hg t.data
        · cases ho
      | joined name idx var first sep =>
        simp only at hg
        simp only [Sym.out] at ho
        split at ho
        · rename_i l _
          simp only [Option.some.injEq] at ho
          subst ho
          by_cases hl : l = []
          · simp only [joinedOut, hl, if_true]; exact lineGrammar_nil
          · simp only [joinedOut, hl, if_false]
            exact startOK_sound first hg (joinChars sep l)
        · cases ho
    · simp only [hpre, if_false] at hg
      exact startOK_sound pre hg o
  | block name var pre =>
    obtain ⟨l, _, hlines⟩ := lines_block c hc name var pre hwf
    intro x hx
    rw [hlines, List.mem_map] at hx
    obtain ⟨e, _, he⟩ := hx
    subst he
    simp only [LineItem.grammarOK] at hg
    exact startOK_sound pre hg e.data

theorem itemLines_grammar (c : File) (hc : c.newlineFree) (items : List LineItem)
    (hwf : ∀ it ∈ items, it.wf = true)
    (hg : ∀ it ∈ items, it.grammarOK directiveNames = true) :
    ∀ l ∈ itemLines c items, lineGrammar (String.mk l) := by
  induction items with
  | nil => intro l hl; simp [itemLines] at hl
  | cons it its ih =>
    intro l hl
    simp only [itemLines, List.mem_append] at hl
    rcases hl with h | h
    · exact grammarOK_sound c hc it (hwf it (by simp)) (hg it (by simp)) l h
    · exact ih (fun x hx => hwf x (by simp [hx])) (fun x hx => hg x (by simp [hx])) l h

end template

set_option maxRecDepth 1000000 in
theorem templateItems_grammar :
    ∀ it ∈ templateItems, it.grammarOK directiveNames = true := by
  decide!

/-- Claim C19: for every configuration whose string values and list elements
hold no newline, every line of the text rendered from `TemplateAsset` is blank,
begins with `#`, or has the form `<d> = <value>` where `d` is the directive
name of some field of `File`. -/
theorem rendered_lines_grammar (c : File) (hc : c.newlineFree) :
    ∃ text, render c = some text ∧ ∀ line ∈ textLines text, lineGrammar line := by
  obtain ⟨text, hr, hl⟩ := render_lines c
  refine ⟨text, hr, ?_⟩
  intro line hline
  unfold textLines at hline
  rw [hl, List.mem_map] at hline
  obtain ⟨l, hmem, rfl⟩ := hline
  rw [List.mem_append] at hmem
  rcases hmem with h | h
  · exact template.itemLines_grammar c hc templateItems templateItems_wf
      templateItems_grammar l h
  · simp only [List.mem_singleton] at h
    subst h
    exact template.lineGrammar_nil

open template

set_option maxRecDepth 1000000 in
theorem parse_default_lines :
    applyDefaults fileFields File.zero = some defaultConfig ∧
    parseTextLines ((itemLines defaultConfig templateItems ++ [[]]).map String.mk) =
      ParseResult.ok defaultConfig := by
  decide!

/-- Claim C18: for the configuration populated with the catalog defaults,
parsing the rendered text gives back the same configuration, field for field. -/
theorem round_trip_default :
    applyDefaults fileFields File.zero = some defaultConfig ∧
    (render defaultConfig).map Parse = some (ParseResult.ok defaultConfig) := by
  refine ⟨parse_default_lines.1, ?_⟩
  obtain ⟨text, hr, hl⟩ := render_lines defaultConfig
  rw [hr]
  simp only [Option.map_some', Option.some.injEq]
  unfold Parse textLines
  rw [hl]
  exact parse_default_lines.2

set_option maxRecDepth 100000 in
/-- Claim C11: every boolean, enumerated-string and unsigned-integer field of
`File` declares a default; the authorized set of every boolean field is `yes`,
`no`; the default of every unsigned-integer field is a decimal literal. -/
theorem catalog_defaults :
    (∀ f ∈ fileFields,
      (f.type = GoType.bool ∨ f.type = GoType.uint ∨
        (f.type = GoType.string ∧ f.authorized.isSome = true)) →
      f.default.isSome = true) ∧
    (∀ f ∈ fileFields, f.type = GoType.bool → f.authorized = some ["yes", "no"]) ∧
    (∀ f ∈ fileFields, f.type = GoType.uint →
      (f.default.map isDecimalLiteral) = some true) := by
  decide

set_option maxRecDepth 100000 in
/-- Claim C12: the catalog has the documented entries. -/
theorem catalog_entries :
    (∃ f ∈ fileFields, f.directive = some "allow setuid" ∧ f.type = GoType.bool ∧
      f.default = some "yes") ∧
    (∃ f ∈ fileFields, f.directive = some "max loop devices" ∧ f.type = GoType.uint ∧
      f.default = some "256") ∧
    (∃ f ∈ fileFields, f.directive = some "mount dev" ∧ f.type = GoType.string ∧
      f.authorized = some ["yes", "no", "minimal"] ∧ f.default = some "yes") ∧
    (∃ f ∈ fileFields, f.directive = some "enable overlay" ∧ f.type = GoType.string ∧
      f.authorized = some ["yes", "no", "try", "driver"] ∧ f.default = some "try") ∧
    (∃ f ∈ fileFields, f.directive = some "root default capabilities" ∧
      f.type = GoType.string ∧ f.authorized = some ["full", "file", "no"] ∧
      f.default = some "full") ∧
    (∃ f ∈ fileFields, f.directive = some "download concurrency" ∧
      f.type = GoType.uint ∧ f.default = some "3") ∧
    (∃ f ∈ fileFields, f.directive = some "download part size" ∧
      f.type = GoType.uint ∧ f.default = some "5242880") ∧
    (∃ f ∈ fileFields, f.directive = some "download buffer size" ∧
      f.type = GoType.uint ∧ f.default = some "32768") ∧
    (∃ f ∈ fileFields, f.directive = some "binary path" ∧ f.type = GoType.string ∧
      (f.default.map (fun s => occurrences s "$PATH:")) = some 1) := by
  decide

/-- Claim C20: `ApplyBuildConfig` changes nothing but `BindPath`,
`ConfigResolvConf`, `MountHome` and `MountDevPts`: putting their old values
back gives the configuration as it was, and every other field reads as before. -/
theorem ApplyBuildConfig_frame (c : File) :
    { ApplyBuildConfig c with
      BindPath := c.BindPath
      ConfigResolvConf := c.ConfigResolvConf
      MountHome := c.MountHome
      MountDevPts := c.MountDevPts } = c ∧
    (ApplyBuildConfig c).fields.filter
        (fun p => p.1 ∉ ["BindPath", "ConfigResolvConf", "MountHome", "MountDevPts"]) =
      c.fields.filter
        (fun p => p.1 ∉ ["BindPath", "ConfigResolvConf", "MountHome", "MountDevPts"]) :=
  ⟨rfl, rfl⟩

open template

set_option maxRecDepth 1000000 in
theorem sample_configs_newlineFree :
    defaultConfig.newlineFree ∧ listsConfig.newlineFree := by
  decide!

set_option maxRecDepth 1000000 in
/-- The default configuration renders the one line `allow setuid = yes`. -/
theorem bool_rendering_witness :
    defaultConfig.newlineFree ∧
    (render defaultConfig).map (directiveLines "allow setuid") =
      some ["allow setuid = yes"] := by
  refine ⟨sample_configs_newlineFree.1, ?_⟩
  obtain ⟨b, text, hb, hr, hl⟩ := bool_rendering defaultConfig sample_configs_newlineFree.1
    ⟨"AllowSetuid", GoType.bool,
      "default:\"yes\" authorized:\"yes,no\" directive:\"allow setuid\""⟩
    (by decide!) rfl "allow setuid" (by decide!)
  have hb' : defaultConfig.field "AllowSetuid" = some (Value.bool true) := by decide!
  rw [hb'] at hb
  cases hb
  rw [hr]
  simp [hl]

set_option maxRecDepth 1000000 in
/-- The default configuration renders the one line `download part size =
5242880`. -/
theorem enum_uint_rendering_witness :
    defaultConfig.newlineFree ∧
    (render defaultConfig).map (directiveLines "download part size") =
      some ["download part size = 5242880"] := by
  refine ⟨sample_configs_newlineFree.1, ?_⟩
  obtain ⟨text, hr, h⟩ := enum_uint_rendering defaultConfig sample_configs_newlineFree.1
    ⟨"DownloadPartSize", GoType.uint,
      "default:\"5242880\" directive:\"download part size\""⟩
    (by decide!) (Or.inl rfl) "download part size" (by decide!)
  have hv : defaultConfig.field "DownloadPartSize" = some (Value.uint 5242880) := by
    decide!
  rw [hr]
  rcases h with ⟨n, hn, hl⟩ | ⟨s, hs, hl⟩
  · rw [hv] at hn
    cases hn
    simp only [Option.map_some', hl]
    decide
  · rw [hv] at hs
    cases hs

set_option maxRecDepth 1000000 in
/-- The default configuration, whose `CniConfPath` is empty, renders no line of
`cni configuration path`, and renders `image driver = `. -/
theorem empty_scalar_omitted_witness :
    defaultConfig.newlineFree ∧
    defaultConfig.field "CniConfPath" = some (Value.string "") ∧
    (render defaultConfig).map (directiveLines "cni configuration path") = some [] ∧
    (render defaultConfig).map (directiveLines "image driver") =
      some ["image driver = "] := by
  have h := empty_scalar_omitted defaultConfig sample_configs_newlineFree.1
  refine ⟨sample_configs_newlineFree.1, by decide!, ?_, ?_⟩
  · obtain ⟨text, hr, hl⟩ := h.1
      ⟨"CniConfPath", GoType.string, "directive:\"cni configuration path\""⟩
      (by decide!) rfl (by decide!) (by decide!) "cni configuration path" (by decide!)
      (by decide!)
    rw [hr]
    simp [hl]
  · obtain ⟨text, hr, hl⟩ := h.2
    rw [hr]
    simp only [Option.map_some', hl]
    decide!

set_option maxRecDepth 1000000 in
/-- The bind paths `/etc/hosts` and `/etc/localtime` render as two lines, in
that order. -/
theorem bind_path_rendering_witness :
    listsConfig.newlineFree ∧ (∀ e ∈ listsConfig.BindPath, e ≠ "") ∧
    (render listsConfig).map (directiveLines "bind path") =
      some ["bind path = /etc/hosts", "bind path = /etc/localtime"] := by
  refine ⟨sample_configs_newlineFree.2, by decide!, ?_⟩
  obtain ⟨text, hr, hl⟩ :=
    bind_path_rendering listsConfig sample_configs_newlineFree.2 (by decide!)
  rw [hr]
  simp only [Option.map_some', hl]
  decide!

set_option maxRecDepth 1000000 in
/-- The container owners `alice` and `bob` render as the one line `limit
container owners = alice, bob`; the empty list of container groups renders no
line. -/
theorem joined_line_rendering_witness :
    listsConfig.newlineFree ∧
    (render listsConfig).map (directiveLines "limit container owners") =
      some ["limit container owners = alice, bob"] := by
  refine ⟨sample_configs_newlineFree.2, ?_⟩
  obtain ⟨l, text, hf, hr, hl⟩ :=
    joined_line_rendering listsConfig sample_configs_newlineFree.2
      ⟨"LimitContainerOwners", GoType.stringSlice, "directive:\"limit container owners\""⟩
      (by decide!) rfl (by decide!) "limit container owners" (by decide!)
  have hv : listsConfig.field "LimitContainerOwners" =
      some (Value.strings ["alice", "bob"]) := by decide!
  rw [hv] at hf
  cases hf
  rw [hr]
  simp only [Option.map_some', hl]
  decide!

/-- Every line of the text rendered for the default configuration obeys the
line grammar. -/
theorem rendered_lines_grammar_witness :
    defaultConfig.newlineFree ∧
    ∃ text, render defaultConfig = some text ∧
      ∀ line ∈ textLines text, lineGrammar line :=
  ⟨sample_configs_newlineFree.1,
   rendered_lines_grammar defaultConfig sample_configs_newlineFree.1⟩

open template

/-! ## Configurations that render alike -/

theorem find_filter_names (names : List String) (n : String) (hn : n ∉ names)
    (l : List (String × Value)) :
    (l.filter (fun p => p.1 ∉ names)).find? (fun p => p.1 = n) =
      l.find? (fun p => p.1 = n) := by
  induction l with
  | nil => rfl
  | cons p ps ih =>
    by_cases hp : p.1 = n
    · have hk : p.1 ∉ names := by rw [hp]; exact hn
      rw [List.filter_cons_of_pos (by simpa using hk),
        List.find?_cons_of_pos _ (by simpa using hp),
        List.find?_cons_of_pos _ (by simpa using hp)]
    · by_cases hk : p.1 ∈ names
      · rw [List.filter_cons_of_neg (by simpa using hk),
          List.find?_cons_of_neg _ (by simpa using hp), ih]
      · rw [List.filter_cons_of_pos (by simpa using hk),
          List.find?_cons_of_neg _ (by simpa using hp),
          List.find?_cons_of_neg _ (by simpa using hp), ih]

/-- Configurations that differ only in the named fields have the same value in
every other field. -/
theorem field_agree (names : List String) (c c' : File)
    (h : agreeOutside names c c') (n : String) (hn : n ∉ names) :
    c.field n = c'.field n := by
  unfold File.field
  rw [← find_filter_names names n hn c.fields, ← find_filter_names names n hn c'.fields]
  unfold agreeOutside at h
  rw [h]

namespace template

theorem out_congr (c c' : File) (s : Sym)
    (h : ∀ n, s.reads = some n → c.field n = c'.field n) : s.out c = s.out c' := by
  cases s with
  | static t => rfl
  | print name => simp only [Sym.out, h name rfl]
  | boolSel name yes no => simp only [Sym.out, h name rfl]
  | optLine name pre => simp only [Sym.out, h name rfl]
  | repeated name var pre post => simp only [Sym.out, h name rfl]
  | joined name idx var first sep => simp only [Sym.out, h name rfl]

theorem outAll_congr (c c' : File) (syms : List Sym)
    (h : ∀ s ∈ syms, s.out c = s.out c') : outAll c syms = outAll c' syms := by
  induction syms with
  | nil => rfl
  | cons s ss ih =>
    rw [outAll_cons, outAll_cons, h s (by simp), ih (fun x hx => h x (by simp [hx]))]

theorem repeatedOut_filter (pre post : List Char) (l : List String) :
    repeatedOut pre post (l.filter (fun e => e ≠ "")) = repeatedOut pre post l := by
  induction l with
  | nil => rfl
  | cons e es ih =>
    by_cases he : e = ""
    · rw [List.filter_cons_of_neg (by simpa using he)]
      simp only [repeatedOut, he, if_true, List.nil_append, ih]
    · rw [List.filter_cons_of_pos (by simpa using he)]
      simp only [repeatedOut, he, if_false, ih]

end template

/-- The rendered text, from the pieces of the line items. -/
theorem render_eq_items (c : File) :
    render c = (outAll c (itemSyms templateItems)).map String.mk := by
  rw [render_eq_outAll]
  unfold templateSyms
  rw [outAll_mergeStatic]

/-- Two configurations for which every piece of the template has the same
output render to the same text. -/
theorem render_congr (c c' : File)
    (h : ∀ s ∈ itemSyms templateItems, s.out c = s.out c') :
    ∃ text, render c = some text ∧ render c' = some text := by
  obtain ⟨text, hr, _⟩ := render_lines c
  refine ⟨text, hr, ?_⟩
  rw [← hr, render_eq_items, render_eq_items, outAll_congr c c' _ h]

/-! ## The frame of `SetBinaryPath` -/

/-- Claim C21: for every installed configuration, flag value and environment,
`SetBinaryPath` returns with a configuration installed whose every field other
than `BinaryPath` has its value from before the call; and if `BinaryPath` holds
no occurrence of `$PATH:`, the configuration is unchanged. -/
theorem SetBinaryPath_frame (subPath : Bool) (env : Environ) (config : File) :
    ∃ config', SetBinaryPath subPath env ⟨some config⟩ = Except.ok ⟨some config'⟩ ∧
      { config' with BinaryPath := config.BinaryPath } = config ∧
      agreeOutside ["BinaryPath"] config config' ∧
      ((∀ i, ¬ occursAt config.BinaryPath "$PATH:" i) → config' = config) := by
  refine ⟨_, SetBinaryPath_some subPath env config, rfl, rfl, ?_⟩
  intro h
  rw [strings.Replace_absent config.BinaryPath "$PATH:" _ 1 (by decide)
    (strings.indexChars_none _ _ h)]

/-! ## Fields that the template does not read -/

set_option maxRecDepth 1000000 in
theorem unrendered_not_read :
    (∀ n ∈ unrenderedFields, n ∉ templateFields) ∧
    (∀ f ∈ fileFields, f.name ∈ unrenderedFields →
      keptItems ((f.directive.getD "") ++ " = ").data templateItems = some []) := by
  decide!

/-- Claim C22: two configurations that differ only in `BinaryPath`,
`CryptsetupPath`, `GoPath`, `LdconfigPath`, `MksquashfsPath`,
`NvidiaContainerCliPath` or `UnsquashfsPath` render to the same text; the
template reads none of these fields, and when no string value holds a newline
the rendered text has no non-comment line of their directives. -/
theorem render_ignores_paths (c c' : File) (h : agreeOutside unrenderedFields c c') :
    (∃ text, render c = some text ∧ render c' = some text) ∧
    (∀ n ∈ unrenderedFields, n ∉ templateFields) ∧
    (c.newlineFree → ∃ text, render c = some text ∧
      ∀ f ∈ fileFields, f.name ∈ unrenderedFields → ∀ d, f.directive = some d →
        directiveLines d text = []) := by
  refine ⟨?_, unrendered_not_read.1, ?_⟩
  · apply render_congr
    intro s hs
    apply out_congr
    intro n hn
    apply field_agree unrenderedFields c c' h
    intro hmem
    exact unrendered_not_read.1 n hmem (List.mem_filterMap.mpr ⟨s, hs, hn⟩)
  · intro hc
    obtain ⟨text, hr, _⟩ := render_lines c
    refine ⟨text, hr, ?_⟩
    intro f hf hname d hd
    have hk := unrendered_not_read.2 f hf hname
    rw [hd] at hk
    simp only [Option.getD_some] at hk
    obtain ⟨text', hr', hl⟩ := directiveLines_render c hc d _ hk
    rw [hr] at hr'
    cases hr'
    rw [hl]
    rfl

/-! ## Empty bind paths -/

set_option maxRecDepth 1000000 in
theorem bindPath_read : ∀ s ∈ itemSyms templateItems, s.reads = some "BindPath" →
    s = Sym.repeated "BindPath" "path" "bind path = ".data ['\n'] := by
  decide!

theorem render_dropEmptyBinds (c : File) :
    ∃ text, render c = some text ∧ render (dropEmptyBinds c) = some text := by
  apply render_congr
  intro s hs
  by_cases hb : s.reads = some "BindPath"
  · rw [bindPath_read s hs hb]
    have h1 : c.field "BindPath" = some (Value.strings c.BindPath) := rfl
    have h2 : (dropEmptyBinds c).field "BindPath" =
        some (Value.strings (c.BindPath.filter (fun e => e ≠ ""))) := rfl
    simp only [Sym.out, h1, h2, repeatedOut_filter]
  · apply out_congr
    intro n hn
    apply field_agree ["BindPath"] c (dropEmptyBinds c) rfl
    intro hmem
    simp only [List.mem_singleton] at hmem
    rw [hmem] at hn
    exact hb hn

theorem length_filter_count (l : List String) :
    (l.filter (fun e => e ≠ "")).length + l.count "" = l.length := by
  induction l with
  | nil => rfl
  | cons e es ih =>
    by_cases he : e = ""
    · have h1 : (e :: es).filter (fun e => e ≠ "") = es.filter (fun e => e ≠ "") :=
        List.filter_cons_of_neg (by simpa using he)
      have h2 : (e :: es).count "" = es.count "" + 1 := by
        simp [List.count_cons, he]
      rw [h1, h2, List.length_cons]
      omega
    · have h1 : (e :: es).filter (fun e => e ≠ "") = e :: es.filter (fun e => e ≠ "") :=
        List.filter_cons_of_pos (by simpa using he)
      have h2 : (e :: es).count "" = es.count "" := by
        simp [List.count_cons, he]
      rw [h1, h2, List.length_cons, List.length_cons]
      omega

/-- The bind-path lines of a configuration whose strings hold no newline: one
per non-empty element. -/
theorem bind_path_lines (c : File) (hc : c.newlineFree) :
    ∃ text, render c = some text ∧
      directiveLines "bind path" text =
        (c.BindPath.filter (fun e => e ≠ "")).map (fun e => "bind path = " ++ e) := by
  obtain ⟨text, hr, hl⟩ := directiveLines_render c hc "bind path" _ bindPath_kept
  refine ⟨text, hr, ?_⟩
  have hmem := mem_of_keptItems _ _ _ bindPath_kept
    (LineItem.block "BindPath" "path" ("bind path" ++ " = ").data) (by simp)
  obtain ⟨l, hfl, hlines⟩ :=
    lines_block c hc "BindPath" "path" _ (templateItems_wf _ hmem)
  have hfield : c.field "BindPath" = some (Value.strings c.BindPath) := rfl
  rw [hfield] at hfl
  simp only [Option.some.injEq, Value.strings.injEq] at hfl
  subst hfl
  rw [hl]
  simp only [itemLines, hlines, List.append_nil]
  rw [map_mk_filter _ (by decide)]
  rfl

set_option maxRecDepth 1000000 in
/-- Claim C23, as stated, fails in its second part: a `BindPath` list of two
elements, one of them empty and the other holding a newline, renders two
bind-path lines, not one. -/
theorem empty_binds_newline :
    bindPathTwoLines.BindPath.length = 2 ∧ bindPathTwoLines.BindPath.count "" = 1 ∧
    (render bindPathTwoLines).map (directiveLines "bind path") =
      some ["bind path = a", "bind path = b"] := by
  refine ⟨rfl, by decide, ?_⟩
  rw [directiveLines_items]
  decide!

/-- Claim C23, amended: for every configuration the rendered text equals the
text rendered with the empty-string elements removed from `BindPath`; and when
no string value holds a newline, a `BindPath` list with `k` empty-string
elements renders `k` fewer bind-path lines than it has elements. -/
theorem empty_binds_dropped (c : File) :
    (∃ text, render c = some text ∧ render (dropEmptyBinds c) = some text) ∧
    (c.newlineFree → ∃ text, render c = some text ∧
      (directiveLines "bind path" text).length + c.BindPath.count "" =
        c.BindPath.length) := by
  refine ⟨render_dropEmptyBinds c, ?_⟩
  intro hc
  obtain ⟨text, hr, hl⟩ := bind_path_lines c hc
  refine ⟨text, hr, ?_⟩
  rw [hl, List.length_map]
  exact length_filter_count c.BindPath

/-! ## Joined lines -/

set_option maxRecDepth 1000000 in
theorem owners_same_out :
    ∀ s ∈ itemSyms templateItems, s.out ownersJoined = s.out ownersSplit := by
  decide!

set_option maxRecDepth 1000000 in
/-- Claim C24: the configurations with `LimitContainerOwners` equal to `["a,
b"]` and to `["a", "b"]` differ in that field only and render to the same
text, with the one line `limit container owners = a, b`. -/
theorem joined_not_injective :
    ownersJoined ≠ ownersSplit ∧
    agreeOutside ["LimitContainerOwners"] ownersJoined ownersSplit ∧
    (∃ text, render ownersJoined = some text ∧ render ownersSplit = some text) ∧
    (render ownersJoined).map (directiveLines "limit container owners") =
      some ["limit container owners = a, b"] := by
  refine ⟨by decide, by decide!, render_congr _ _ owners_same_out, ?_⟩
  rw [directiveLines_items]
  decide!

/-! ## The claims at sample configurations -/

/-- With the zero-valued configuration installed, whose `BinaryPath` holds no
`$PATH:`, `SetBinaryPath` leaves the configuration as it was. -/
theorem SetBinaryPath_frame_witness :
    (∀ i, ¬ occursAt File.zero.BinaryPath "$PATH:" i) ∧
    SetBinaryPath true (envWithPath "/usr/bin:/bin") ⟨some File.zero⟩ =
      Except.ok ⟨some File.zero⟩ := by
  have hno : ∀ i, ¬ occursAt File.zero.BinaryPath "$PATH:" i :=
    strings.not_prefix_drop_of_indexChars_none _ _ (by decide)
  obtain ⟨config', h1, _, _, h4⟩ :=
    SetBinaryPath_frame true (envWithPath "/usr/bin:/bin") File.zero
  rw [h4 hno] at h1
  exact ⟨hno, h1⟩

set_option maxRecDepth 1000000 in
/-- The default configuration and the one with the seven paths set differ, in
these seven fields only, and render to the same text. -/
theorem render_ignores_paths_witness :
    agreeOutside unrenderedFields defaultConfig pathsConfig ∧
    defaultConfig ≠ pathsConfig ∧
    ∃ text, render defaultConfig = some text ∧ render pathsConfig = some text :=
  ⟨by decide!, by decide!,
   (render_ignores_paths defaultConfig pathsConfig (by decide!)).1⟩

set_option maxRecDepth 1000000 in
/-- The default configuration with four bind paths, two of them empty, renders
two bind-path lines. -/
theorem empty_binds_dropped_witness :
    emptyBindsConfig.newlineFree ∧ emptyBindsConfig.BindPath.length = 4 ∧
    emptyBindsConfig.BindPath.count "" = 2 ∧
    ∃ text, render emptyBindsConfig = some text ∧
      (directiveLines "bind path" text).length + emptyBindsConfig.BindPath.count "" =
        emptyBindsConfig.BindPath.length := by
  have h : emptyBindsConfig.newlineFree := by decide!
  exact ⟨h, rfl, by decide, (empty_binds_dropped emptyBindsConfig).2 h⟩

/-! ## A boolean line carried by a list element -/

set_option maxRecDepth 1000000 in
/-- Claim C13, as stated, fails: with every scalar string free of newlines and
`AllowSetuid` true, a bind path that holds a newline gives the rendered text
two non-comment lines of the directive `allow setuid`. -/
theorem bool_rendering_injected :
    bindPathSetuid.scalarNewlineFree ∧
    bindPathSetuid.field "AllowSetuid" = some (Value.bool true) ∧
    (render bindPathSetuid).map (directiveLines "allow setuid") =
      some ["allow setuid = yes", "allow setuid = no"] := by
  refine ⟨by decide!, by decide!, ?_⟩
  rw [directiveLines_items]
  decide!

end apptainerconf
